import Mathlib

/-!
# Sweet Shop inventory

A shallow embedding of the inventory core of the Sweet Shop backend:

* `backend/src/models/Sweet.js`: the `Sweet` schema (validators, setters), the
  virtuals `inStock` and `stockStatus`, the `pre('save')` hook, the static
  `findBySearch` and the instance methods `canPurchase`, `purchase`, `restock`;
* `backend/src/controllers/sweetController.js`: the request handlers
  `createSweet`, `getAllSweets`, `searchSweets`, `getSweetById`, `updateSweet`,
  `deleteSweet`, `purchaseSweet`, `restockSweet` together with their `catch`
  blocks.

Conventions of the model.

* A JavaScript number is a binary64 value. A finite one is written as the exact
  rational it denotes (`JSNumber.finite`), the infinities have their own
  constructors, and `NaN` is `none` in an `Option JSNumber`. The two zeros are
  one value: nothing in the program tells them apart. Every arithmetic
  operation rounds its exact result to the nearest binary64 value, a tie going
  to the even significand, and overflows to an infinity (`roundDouble`), so a
  value computed from binary64 values is a binary64 value.
* A request body carries, for `price` and `quantity`, a JSON number or nothing
  (`Option JSNumber`): `JSON.parse` yields a finite number or, for a literal
  beyond the binary64 range, an infinity, and never `NaN`. For `name` and
  `category` it carries a string or nothing (`Option String`). This is what the
  application's own client sends.
* The catalog store is an in-memory collection; `save()` is the Mongoose
  pipeline "validate, then run the `pre('save')` hook, then write". A path of
  type `Number` never holds `NaN`: assigning `NaN` fails the cast, leaves the
  value as it was, and makes the next `save()` reject.
* A query string carries strings; a search criterion passed to `findBySearch`
  directly may also be a number.
* The store evaluates `$regex` with a small engine for the common pattern
  syntax (see `Regex`); letter case is folded for the ASCII letters.
* Timestamps and the version key are not modelled.
* Of the client, the data flow of the sweet form (`SweetModal.handleSubmit`,
  `Dashboard.handleSweetSubmit`, the `api` calls) and the reducer `authReducer`
  of `frontend/src/context/AuthContext.jsx` are modelled.
-/

namespace SweetShop

/-! ## JavaScript numbers -/

/-- A JavaScript number other than `NaN`: a finite value, written as the exact
rational it denotes, or an infinity. -/
inductive JSNumber where
  | negInfinity
  | finite (value : ℚ)
  | infinity
deriving DecidableEq, Repr

instance instOfNatJSNumber (n : ℕ) : OfNat JSNumber n := ⟨JSNumber.finite n⟩

/-- The comparison `a <= b` of two numbers. -/
def JSNumber.le : JSNumber → JSNumber → Bool
  | JSNumber.negInfinity, _ => true
  | _, JSNumber.infinity => true
  | JSNumber.finite a, JSNumber.finite b => decide (a ≤ b)
  | _, _ => false

instance instLinearOrderJSNumber : LinearOrder JSNumber where
  le a b := a.le b = true
  le_refl a := by cases a <;> simp [JSNumber.le]
  le_trans a b c := by
    cases a <;> cases b <;> cases c <;> simp only [JSNumber.le, decide_eq_true_eq] <;>
      first | exact le_trans | simp
  le_antisymm a b := by
    cases a <;> cases b <;> simp only [JSNumber.le, decide_eq_true_eq] <;>
      first | (intro h1 h2; rw [le_antisymm h1 h2]) | simp
  le_total a b := by
    cases a <;> cases b <;> simp only [JSNumber.le, decide_eq_true_eq] <;>
      first | exact le_total _ _ | simp
  decidableLE a b := inferInstanceAs (Decidable (a.le b = true))
  decidableEq := inferInstance

instance instDecidableLeJSNumber (a b : JSNumber) : Decidable (a ≤ b) :=
  inferInstanceAs (Decidable (a.le b = true))

instance instDecidableLtJSNumber (a b : JSNumber) : Decidable (a < b) :=
  LinearOrder.decidableLT a b

/-- The integer nearest to `x`, a tie going to the even one. -/
def roundHalfEven (x : ℚ) : ℤ :=
  if x - ⌊x⌋ < 1 / 2 then ⌊x⌋
  else if 1 / 2 < x - ⌊x⌋ then ⌊x⌋ + 1
  else if ⌊x⌋ % 2 = 0 then ⌊x⌋ else ⌊x⌋ + 1

/-- The power `2 ^ e` for an integer exponent. -/
def pow2 (e : ℤ) : ℚ :=
  if 0 ≤ e then ((2 ^ e.toNat : ℕ) : ℚ) else 1 / ((2 ^ (-e).toNat : ℕ) : ℚ)

/-- Binary logarithm by halving, at most `fuel` times. -/
def log2Fuel : ℕ → ℕ → ℕ
  | 0, _ => 0
  | fuel + 1, n => if n < 2 then 0 else log2Fuel fuel (n / 2) + 1

/-- The `k` with `2 ^ k <= n < 2 ^ (k + 1)`, for `n > 0`. -/
def natLog2 (n : ℕ) : ℕ := log2Fuel n n

/-- The integer `e` with `2 ^ e <= x < 2 ^ (e + 1)`, for `x > 0`. -/
def floorLog2 (x : ℚ) : ℤ :=
  if pow2 ((natLog2 x.num.toNat : ℤ) - (natLog2 x.den : ℤ)) ≤ x then
    (natLog2 x.num.toNat : ℤ) - (natLog2 x.den : ℤ)
  else (natLog2 x.num.toNat : ℤ) - (natLog2 x.den : ℤ) - 1

/-- The exponent of the spacing of the binary64 values around `x`: 52 below the
binary exponent of `x`, and -1074 in the subnormal range. -/
def quantumExponent (x : ℚ) : ℤ := max (floorLog2 |x| - 52) (-1074)

/-- The binary64 value of a real number (here a rational): the nearest multiple
of the spacing, a tie going to the even significand; an infinity from
`2 ^ 1024` on. -/
def roundDouble (x : ℚ) : JSNumber :=
  if pow2 1024 ≤ (roundHalfEven (x / pow2 (quantumExponent x)) : ℚ) * pow2 (quantumExponent x) then
    JSNumber.infinity
  else if (roundHalfEven (x / pow2 (quantumExponent x)) : ℚ) * pow2 (quantumExponent x)
      ≤ -pow2 1024 then
    JSNumber.negInfinity
  else
    JSNumber.finite ((roundHalfEven (x / pow2 (quantumExponent x)) : ℚ) * pow2 (quantumExponent x))

/-- The number that a numeric literal denotes, as `JSON.parse` and the
JavaScript reader produce it. -/
def jsonNumber (literal : ℚ) : JSNumber := roundDouble literal

/-- Unary minus. -/
def JSNumber.neg : JSNumber → JSNumber
  | JSNumber.negInfinity => JSNumber.infinity
  | JSNumber.finite a => JSNumber.finite (-a)
  | JSNumber.infinity => JSNumber.negInfinity

/-- The sum `a + b`; `none` is `NaN`. -/
def JSNumber.add : JSNumber → JSNumber → Option JSNumber
  | JSNumber.finite a, JSNumber.finite b => some (roundDouble (a + b))
  | JSNumber.infinity, JSNumber.negInfinity => none
  | JSNumber.negInfinity, JSNumber.infinity => none
  | JSNumber.infinity, _ => some JSNumber.infinity
  | _, JSNumber.infinity => some JSNumber.infinity
  | JSNumber.negInfinity, _ => some JSNumber.negInfinity
  | _, JSNumber.negInfinity => some JSNumber.negInfinity

/-- The difference `a - b`; `none` is `NaN`. -/
def JSNumber.sub (a b : JSNumber) : Option JSNumber := a.add b.neg

/-- The sign of a number: -1, 0 or 1. -/
def JSNumber.sign : JSNumber → ℤ
  | JSNumber.negInfinity => -1
  | JSNumber.finite a => if a < 0 then -1 else if a = 0 then 0 else 1
  | JSNumber.infinity => 1

/-- The product `a * b`; `none` is `NaN`. -/
def JSNumber.mul : JSNumber → JSNumber → Option JSNumber
  | JSNumber.finite a, JSNumber.finite b => some (roundDouble (a * b))
  | a, b =>
    if a.sign * b.sign = 0 then none
    else if 0 < a.sign * b.sign then some JSNumber.infinity
    else some JSNumber.negInfinity

/-- The quotient `a / b`; `none` is `NaN`. A zero divisor is read as `+0`. -/
def JSNumber.div : JSNumber → JSNumber → Option JSNumber
  | JSNumber.finite a, JSNumber.finite b =>
    if b = 0 then
      if a = 0 then none
      else if 0 < a then some JSNumber.infinity else some JSNumber.negInfinity
    else some (roundDouble (a / b))
  | JSNumber.finite _, _ => some 0
  | a, JSNumber.finite b => if 0 ≤ b then some a else some a.neg
  | _, _ => none

/-- Whether a number is truthy: it is not zero. -/
def JSNumber.isTruthy (a : JSNumber) : Bool := decide (a ≠ 0)

/-- `Math.round`: the nearest integer, a tie going to the larger one. -/
def mathRound : JSNumber → JSNumber
  | JSNumber.finite x => JSNumber.finite (⌊x + 1 / 2⌋ : ℤ)
  | a => a

/-- `Math.floor`. -/
def mathFloor : JSNumber → JSNumber
  | JSNumber.finite x => JSNumber.finite (⌊x⌋ : ℤ)
  | a => a

/-- `parseFloat` on a number value: the number itself. -/
def parseFloat (x : JSNumber) : JSNumber := x

/-! ## JavaScript strings and errors -/

/-- White space and line terminators removed by `String.prototype.trim`. -/
def isJSWhiteSpace (c : Char) : Bool :=
  decide (c.toNat ∈ [0x09, 0x0A, 0x0B, 0x0C, 0x0D, 0x20, 0xA0, 0x1680, 0x2028, 0x2029,
    0x202F, 0x205F, 0x3000, 0xFEFF]) || (decide (0x2000 ≤ c.toNat) && decide (c.toNat ≤ 0x200A))

/-- `String.prototype.trim`. -/
def jsTrim (s : String) : String :=
  String.mk ((s.toList.dropWhile isJSWhiteSpace).reverse.dropWhile isJSWhiteSpace).reverse

/-- The `length` of a JavaScript string: its number of UTF-16 code units. -/
def jsLength (s : String) : Nat :=
  (s.toList.map fun c => if c.toNat < 0x10000 then 1 else 2).sum

/-- A thrown JavaScript error (or the reason of a rejected promise): its `name`,
its `message`, for a Mongoose `ValidationError` the entries of `errors` as pairs
(path, message), and for a driver error its `code` and the keys of `keyValue`. -/
structure JSError where
  name : String
  message : String
  errors : List (String × String)
  code : Option Nat
  keyValue : List String
deriving DecidableEq, Repr

instance instDecidableEqExcept {ε α : Type} [DecidableEq ε] [DecidableEq α] :
    DecidableEq (Except ε α) := fun a b =>
  match a, b with
  | Except.ok x, Except.ok y =>
    if h : x = y then isTrue (by rw [h]) else isFalse (fun h1 => h (Except.ok.inj h1))
  | Except.error x, Except.error y =>
    if h : x = y then isTrue (by rw [h]) else isFalse (fun h1 => h (Except.error.inj h1))
  | Except.ok _, Except.error _ => isFalse (fun h => Except.noConfusion h)
  | Except.error _, Except.ok _ => isFalse (fun h => Except.noConfusion h)

/-- `new Error(message)`. -/
def JSError.mkError (message : String) : JSError :=
  { name := "Error", message := message, errors := [], code := none, keyValue := [] }

/-! ## Regular expressions of the store -/

/-- A regular expression, for the pattern syntax made of literal characters,
`.`, `^`, `$`, `|`, groups `( )` and `(?: )`, lookaheads `(?= )` and `(?! )`,
character classes `[ ]` with ranges and negation, the quantifiers `*`, `+`, `?`,
`{n}`, `{n,}`, `{n,m}` and their lazy forms, the escapes `\d \D \w \W \s \S`,
`\b \B`, `\t \n \r \f \v \0`, and a backslash before a character that is not a
letter or digit. Back-references, look-behind, named groups and the escapes
`\x`, `\u`, `\c`, `\p` are outside this syntax. -/
inductive Regex where
  | empty
  | char (c : Char)
  | any
  | bol
  | eol
  | set (negated : Bool) (ranges : List (Char × Char))
  | boundary (negated : Bool)
  | look (negated : Bool) (r : Regex)
  | seq (r s : Regex)
  | alt (r s : Regex)
  | star (r : Regex)
deriving DecidableEq, Repr

/-- The ranges of the class escapes `\d`, `\w`, `\s` and of their complements
`\D`, `\W`, `\S`. -/
def classEscape (c : Char) : Option (List (Char × Char)) :=
  if c = 'd' then some [('0', '9')]
  else if c = 'D' then some [(Char.ofNat 0, '/'), (':', Char.ofNat 1114111)]
  else if c = 'w' then some [('a', 'z'), ('A', 'Z'), ('0', '9'), ('_', '_')]
  else if c = 'W' then
    some [(Char.ofNat 0, '/'), (':', '@'), ('[', '^'), (Char.ofNat 96, Char.ofNat 96),
          ('{', Char.ofNat 1114111)]
  else if c = 's' then some [(' ', ' '), ('\t', '\r')]
  else if c = 'S' then
    some [(Char.ofNat 0, Char.ofNat 8), (Char.ofNat 14, Char.ofNat 31),
          ('!', Char.ofNat 1114111)]
  else none

/-- The character that a control escape `\t \n \r \f \v \0` denotes. -/
def controlEscape (c : Char) : Option Char :=
  if c = 't' then some '\t'
  else if c = 'n' then some '\n'
  else if c = 'r' then some '\r'
  else if c = 'f' then some (Char.ofNat 12)
  else if c = 'v' then some (Char.ofNat 11)
  else if c = '0' then some (Char.ofNat 0)
  else none

/-- One member of a character class: a character, or the ranges of a class
escape; in a class `\b` is the backspace. -/
def classMember : List Char → Option ((Char ⊕ List (Char × Char)) × List Char)
  | '\\' :: c :: rest =>
    match classEscape c with
    | some ranges => some (Sum.inr ranges, rest)
    | none =>
      match controlEscape c with
      | some control => some (Sum.inl control, rest)
      | none =>
        if c = 'b' then some (Sum.inl (Char.ofNat 8), rest)
        else if c.isAlphanum then none
        else some (Sum.inl c, rest)
  | '\\' :: [] => none
  | c :: rest => some (Sum.inl c, rest)
  | [] => none

/-- The members of a character class up to the closing `]`; a class that is not
closed and a range out of order are syntax errors. -/
def parseClass : Nat → List Char → Option (List (Char × Char) × List Char)
  | 0, _ => none
  | _ + 1, [] => none
  | _ + 1, ']' :: rest => some ([], rest)
  | fuel + 1, c :: cs =>
    match classMember (c :: cs) with
    | none => none
    | some (Sum.inr ranges, rest) =>
      (parseClass fuel rest).map fun p => (ranges ++ p.1, p.2)
    | some (Sum.inl lo, '-' :: ']' :: rest) => some ([(lo, lo), ('-', '-')], rest)
    | some (Sum.inl lo, '-' :: rest) =>
      match classMember rest with
      | some (Sum.inl hi, rest') =>
        if hi < lo then none
        else (parseClass fuel rest').map fun p => ((lo, hi) :: p.1, p.2)
      | some (Sum.inr ranges, rest') =>
        (parseClass fuel rest').map fun p => ((lo, lo) :: ('-', '-') :: ranges ++ p.1, p.2)
      | none => none
    | some (Sum.inl lo, rest) =>
      (parseClass fuel rest).map fun p => ((lo, lo) :: p.1, p.2)

/-- The value of a run of decimal digits in a quantifier. -/
def quantifierCount (ds : List Char) : Nat :=
  ds.foldl (fun acc d => 10 * acc + (d.toNat - 48)) 0

/-- The bounds of a quantifier `{n}`, `{n,}` or `{n,m}` after the opening brace:
the lower bound, the upper bound if there is one, and the rest. -/
def parseBounds (cs : List Char) : Option ((Nat × Option Nat) × List Char) :=
  if (cs.span Char.isDigit).1 = [] then none
  else
    match (cs.span Char.isDigit).2 with
    | '}' :: rest =>
      some ((quantifierCount (cs.span Char.isDigit).1,
             some (quantifierCount (cs.span Char.isDigit).1)), rest)
    | ',' :: '}' :: rest => some ((quantifierCount (cs.span Char.isDigit).1, none), rest)
    | ',' :: more =>
      if (more.span Char.isDigit).1 = [] then none
      else
        match (more.span Char.isDigit).2 with
        | '}' :: rest =>
          some ((quantifierCount (cs.span Char.isDigit).1,
                 some (quantifierCount (more.span Char.isDigit).1)), rest)
        | _ => none
    | _ => none

/-- The expression `r` repeated `n` times. -/
def Regex.times (r : Regex) : Nat → Regex
  | 0 => Regex.empty
  | n + 1 => Regex.seq r (Regex.times r n)

/-- The expression `r` repeated at most `n` times. -/
def Regex.upTo (r : Regex) : Nat → Regex
  | 0 => Regex.empty
  | n + 1 => Regex.alt (Regex.seq r (Regex.upTo r n)) Regex.empty

/-- The `?` that makes a quantifier lazy: it changes which match is preferred,
not whether there is one. -/
def skipLazy : List Char → List Char
  | '?' :: rest => rest
  | rest => rest

/-- A quantifier after an atom, if there is one; bounds out of order are a
syntax error, and a brace that opens no quantifier is a literal. -/
def parseQuantifier (atom : Regex) : List Char → Option (Regex × List Char)
  | '*' :: rest => some (Regex.star atom, skipLazy rest)
  | '+' :: rest => some (Regex.seq atom (Regex.star atom), skipLazy rest)
  | '?' :: rest => some (Regex.alt atom Regex.empty, skipLazy rest)
  | '{' :: rest =>
    match parseBounds rest with
    | some ((n, none), rest') => some (Regex.seq (atom.times n) (Regex.star atom), skipLazy rest')
    | some ((n, some m), rest') =>
      if m < n then none
      else some (Regex.seq (atom.times n) (atom.upTo (m - n)), skipLazy rest')
    | none => some (atom, '{' :: rest)
  | rest => some (atom, rest)

mutual

/-- An alternation `seq | seq | ...`; the fuel bounds the depth of the descent. -/
def parseAlt : Nat → List Char → Option (Regex × List Char)
  | 0, _ => none
  | fuel + 1, cs =>
    match parseSeq fuel cs with
    | none => none
    | some (r, '|' :: rest) =>
      match parseAlt fuel rest with
      | none => none
      | some (s, rest') => some (Regex.alt r s, rest')
    | some (r, rest) => some (r, rest)

/-- A sequence of quantified atoms, up to `|`, `)` or the end. -/
def parseSeq : Nat → List Char → Option (Regex × List Char)
  | 0, _ => none
  | fuel + 1, cs =>
    match cs with
    | [] => some (Regex.empty, [])
    | '|' :: _ => some (Regex.empty, cs)
    | ')' :: _ => some (Regex.empty, cs)
    | _ =>
      match parseAtom fuel cs with
      | none => none
      | some (atom, rest) =>
        match parseQuantifier atom rest with
        | none => none
        | some (quantified, rest') =>
          match parseSeq fuel rest' with
          | none => none
          | some (s, rest'') => some (Regex.seq quantified s, rest'')

/-- An atom: a group, a lookahead, a character class, `.`, `^`, `$`, an escape
or a literal. A quantifier with nothing to repeat, a group or class that is not
closed and a dangling backslash are syntax errors. -/
def parseAtom : Nat → List Char → Option (Regex × List Char)
  | 0, _ => none
  | fuel + 1, cs =>
    match cs with
    | '(' :: '?' :: ':' :: rest =>
      match parseAlt fuel rest with
      | some (r, ')' :: rest') => some (r, rest')
      | _ => none
    | '(' :: '?' :: '=' :: rest =>
      match parseAlt fuel rest with
      | some (r, ')' :: rest') => some (Regex.look false r, rest')
      | _ => none
    | '(' :: '?' :: '!' :: rest =>
      match parseAlt fuel rest with
      | some (r, ')' :: rest') => some (Regex.look true r, rest')
      | _ => none
    | '(' :: '?' :: _ => none
    | '(' :: rest =>
      match parseAlt fuel rest with
      | some (r, ')' :: rest') => some (r, rest')
      | _ => none
    | '[' :: '^' :: rest =>
      (parseClass (rest.length + 1) rest).map fun p => (Regex.set true p.1, p.2)
    | '[' :: rest =>
      (parseClass (rest.length + 1) rest).map fun p => (Regex.set false p.1, p.2)
    | '.' :: rest => some (Regex.any, rest)
    | '^' :: rest => some (Regex.bol, rest)
    | '$' :: rest => some (Regex.eol, rest)
    | '\\' :: c :: rest =>
      match classEscape c with
      | some ranges => some (Regex.set false ranges, rest)
      | none =>
        match controlEscape c with
        | some control => some (Regex.char control, rest)
        | none =>
          if c = 'b' then some (Regex.boundary false, rest)
          else if c = 'B' then some (Regex.boundary true, rest)
          else if c.isAlphanum then none
          else some (Regex.char c, rest)
    | '\\' :: [] => none
    | '*' :: _ => none
    | '+' :: _ => none
    | '?' :: _ => none
    | '{' :: rest => if (parseBounds rest).isSome then none else some (Regex.char '{', rest)
    | c :: rest => some (Regex.char c, rest)
    | [] => none

end

/-- Compiling a pattern; `none` is a pattern the engine rejects. -/
def Regex.compile (pattern : String) : Option Regex :=
  match parseAlt (4 * pattern.length + 4) pattern.toList with
  | some (r, []) => some r
  | _ => none

/-- Equality of characters, ignoring letter case under option `i`. -/
def charMatches (ignoreCase : Bool) (c x : Char) : Bool :=
  if ignoreCase then c.toLower == x.toLower else c == x

/-- Whether a character lies in one of the ranges of a class; under option `i`
its two letter cases count as well. -/
def rangesMatch (ignoreCase : Bool) (ranges : List (Char × Char)) (x : Char) : Bool :=
  ranges.any fun range =>
    (decide (range.1 ≤ x) && decide (x ≤ range.2)) ||
    (ignoreCase &&
      ((decide (range.1 ≤ x.toLower) && decide (x.toLower ≤ range.2)) ||
       (decide (range.1 ≤ x.toUpper) && decide (x.toUpper ≤ range.2))))

/-- A word character: a letter, a digit or `_`. -/
def isWordChar (c : Char) : Bool := c.isAlphanum || c == '_'

/-- Whether the position in front of the rest `w` of the subject is a word
boundary: of the characters before and after it, exactly one is a word
character. -/
def atWordBoundary (subject w : List Char) : Bool :=
  ((subject.take (subject.length - w.length)).getLast?.any isWordChar) !=
    (w.head?.any isWordChar)

/-- Iteration of a matching step for `*`: every iteration consumes input. -/
def starRests (step : List Char → List (List Char)) : Nat → List Char → List (List Char)
  | 0, w => [w]
  | fuel + 1, w =>
    w :: ((step w).filter fun v => decide (v.length < w.length)).flatMap (starRests step fuel)

/-- The inputs left after the expression has matched a prefix of the rest `w`
of the subject. -/
def Regex.rests (subject : List Char) (ignoreCase : Bool) : Regex → List Char → List (List Char)
  | Regex.empty, w => [w]
  | Regex.char c, w =>
    match w with
    | x :: rest => if charMatches ignoreCase c x then [rest] else []
    | [] => []
  | Regex.any, w =>
    match w with
    | x :: rest => if x = '\n' then [] else [rest]
    | [] => []
  | Regex.bol, w => if w.length = subject.length then [w] else []
  | Regex.eol, w => if w.isEmpty then [w] else []
  | Regex.set negated ranges, w =>
    match w with
    | x :: rest => if rangesMatch ignoreCase ranges x != negated then [rest] else []
    | [] => []
  | Regex.boundary negated, w => if atWordBoundary subject w != negated then [w] else []
  | Regex.look negated r, w =>
    if (Regex.rests subject ignoreCase r w).isEmpty == negated then [w] else []
  | Regex.seq r s, w =>
    (Regex.rests subject ignoreCase r w).flatMap (Regex.rests subject ignoreCase s)
  | Regex.alt r s, w => Regex.rests subject ignoreCase r w ++ Regex.rests subject ignoreCase s w
  | Regex.star r, w => starRests (Regex.rests subject ignoreCase r) (w.length + 1) w

/-- Whether the expression matches somewhere in the subject. -/
def Regex.test (r : Regex) (ignoreCase : Bool) (subject : String) : Bool :=
  subject.toList.tails.any fun w => !(Regex.rests subject.toList ignoreCase r w).isEmpty

/-! ## Numbers and strings -/

/-- The power `10 ^ e` for an integer exponent. -/
def pow10 (e : ℤ) : ℚ :=
  if 0 ≤ e then ((10 ^ e.toNat : ℕ) : ℚ) else 1 / ((10 ^ (-e).toNat : ℕ) : ℚ)

/-- Decimal logarithm by division, at most `fuel` times. -/
def log10Fuel : ℕ → ℕ → ℕ
  | 0, _ => 0
  | fuel + 1, n => if n < 10 then 0 else log10Fuel fuel (n / 10) + 1

/-- The `k` with `10 ^ k <= n < 10 ^ (k + 1)`, for `n > 0`. -/
def natLog10 (n : ℕ) : ℕ := log10Fuel n n

/-- The integer `e` with `10 ^ e <= x < 10 ^ (e + 1)`, for `x > 0`. -/
def floorLog10 (x : ℚ) : ℤ :=
  if pow10 ((natLog10 x.num.toNat : ℤ) - (natLog10 x.den : ℤ)) ≤ x then
    (natLog10 x.num.toNat : ℤ) - (natLog10 x.den : ℤ)
  else (natLog10 x.num.toNat : ℤ) - (natLog10 x.den : ℤ) - 1

/-- The decimal digits that `String(x)` prints for a finite `x > 0`: the number
`digits`, which has `length` decimal digits, and the position `exponent` of the
decimal point (the `s`, `k` and `n` of `Number::toString`), so that
`digits * 10 ^ (exponent - length)` is the decimal with the fewest digits that
reads back as `x`. -/
structure Decimal where
  digits : ℕ
  length : ℕ
  exponent : ℤ
deriving DecidableEq, Repr

/-- The search for the shortest digits of `x`, where `10 ^ (n - 1) <= x < 10 ^ n`:
with `k` digits the two candidates are the decimals just below and just above
`x`; one that reads back as `x` is taken, the nearer one if both do (the even
one on a tie); otherwise one more digit is tried. -/
def shortestDigits (x : ℚ) (n : ℤ) : ℕ → ℕ → ℕ × ℕ
  | 0, k => ((⌊x / pow10 (n - k)⌋).toNat, k)
  | fuel + 1, k =>
    if roundDouble (⌊x / pow10 (n - k)⌋ * pow10 (n - k)) = JSNumber.finite x then
      if roundDouble ((⌊x / pow10 (n - k)⌋ + 1) * pow10 (n - k)) = JSNumber.finite x then
        if x - ⌊x / pow10 (n - k)⌋ * pow10 (n - k) <
            (⌊x / pow10 (n - k)⌋ + 1) * pow10 (n - k) - x then
          ((⌊x / pow10 (n - k)⌋).toNat, k)
        else if (⌊x / pow10 (n - k)⌋ + 1) * pow10 (n - k) - x <
            x - ⌊x / pow10 (n - k)⌋ * pow10 (n - k) then
          ((⌊x / pow10 (n - k)⌋ + 1).toNat, k)
        else if ⌊x / pow10 (n - k)⌋ % 2 = 0 then ((⌊x / pow10 (n - k)⌋).toNat, k)
        else ((⌊x / pow10 (n - k)⌋ + 1).toNat, k)
      else ((⌊x / pow10 (n - k)⌋).toNat, k)
    else if roundDouble ((⌊x / pow10 (n - k)⌋ + 1) * pow10 (n - k)) = JSNumber.finite x then
      ((⌊x / pow10 (n - k)⌋ + 1).toNat, k)
    else shortestDigits x n fuel (k + 1)

/-- The shortest decimal of a finite `x > 0`; seventeen digits always suffice
for a binary64 value. Digits that come out as `10 ^ k` are the single digit 1
one position higher. -/
def shortestDecimal (x : ℚ) : Decimal :=
  if (shortestDigits x (floorLog10 x + 1) 17 1).1 =
      10 ^ (shortestDigits x (floorLog10 x + 1) 17 1).2 then
    { digits := 1, length := 1, exponent := floorLog10 x + 2 }
  else
    { digits := (shortestDigits x (floorLog10 x + 1) 17 1).1
      length := (shortestDigits x (floorLog10 x + 1) 17 1).2
      exponent := floorLog10 x + 1 }

/-- The characters of `String(x)` for a finite `x > 0`: positional notation when
the decimal point is at a position from -5 to 21, exponent notation otherwise. -/
def positiveToChars (x : ℚ) : List Char :=
  if ((shortestDecimal x).length : ℤ) ≤ (shortestDecimal x).exponent ∧
      (shortestDecimal x).exponent ≤ 21 then
    Nat.toDigits 10 (shortestDecimal x).digits ++
      List.replicate ((shortestDecimal x).exponent - (shortestDecimal x).length).toNat '0'
  else if 0 < (shortestDecimal x).exponent ∧ (shortestDecimal x).exponent ≤ 21 then
    (Nat.toDigits 10 (shortestDecimal x).digits).take (shortestDecimal x).exponent.toNat ++
      '.' :: (Nat.toDigits 10 (shortestDecimal x).digits).drop (shortestDecimal x).exponent.toNat
  else if -6 < (shortestDecimal x).exponent ∧ (shortestDecimal x).exponent ≤ 0 then
    '0' :: '.' :: List.replicate (-(shortestDecimal x).exponent).toNat '0' ++
      Nat.toDigits 10 (shortestDecimal x).digits
  else
    match Nat.toDigits 10 (shortestDecimal x).digits with
    | [] => []
    | [c] =>
      c :: 'e' :: (if 0 ≤ (shortestDecimal x).exponent - 1 then '+' else '-') ::
        Nat.toDigits 10 ((shortestDecimal x).exponent - 1).natAbs
    | c :: rest =>
      c :: '.' :: rest ++ 'e' :: (if 0 ≤ (shortestDecimal x).exponent - 1 then '+' else '-') ::
        Nat.toDigits 10 ((shortestDecimal x).exponent - 1).natAbs

/-- The string of a number, `String(x)`. -/
def numberToString : JSNumber → String
  | JSNumber.infinity => "Infinity"
  | JSNumber.negInfinity => "-Infinity"
  | JSNumber.finite x =>
    if x = 0 then "0"
    else if x < 0 then String.mk ('-' :: positiveToChars (-x))
    else String.mk (positiveToChars x)

/-- `parseInt` on a number value. The number is first converted to its string,
of which the digits before the first character that is not a digit are read:
in positional notation the integer part, in exponent notation the one digit
before the point or the `e`. The infinities have no digit: `none` stands for
`NaN`. -/
def parseInt : JSNumber → Option JSNumber
  | JSNumber.finite x =>
    if x = 0 then some 0
    else if x < 0 then
      some (roundDouble
        (if ((shortestDecimal (-x)).length : ℤ) ≤ (shortestDecimal (-x)).exponent ∧
            (shortestDecimal (-x)).exponent ≤ 21 then
          (shortestDecimal (-x)).digits *
            10 ^ ((shortestDecimal (-x)).exponent - (shortestDecimal (-x)).length).toNat
        else if 0 < (shortestDecimal (-x)).exponent ∧ (shortestDecimal (-x)).exponent ≤ 21 then
          (shortestDecimal (-x)).digits /
            10 ^ ((shortestDecimal (-x)).length - (shortestDecimal (-x)).exponent.toNat)
        else if -6 < (shortestDecimal (-x)).exponent ∧ (shortestDecimal (-x)).exponent ≤ 0 then 0
        else (shortestDecimal (-x)).digits / 10 ^ ((shortestDecimal (-x)).length - 1) : ℕ)).neg
    else
      some (roundDouble
        (if ((shortestDecimal x).length : ℤ) ≤ (shortestDecimal x).exponent ∧
            (shortestDecimal x).exponent ≤ 21 then
          (shortestDecimal x).digits *
            10 ^ ((shortestDecimal x).exponent - (shortestDecimal x).length).toNat
        else if 0 < (shortestDecimal x).exponent ∧ (shortestDecimal x).exponent ≤ 21 then
          (shortestDecimal x).digits /
            10 ^ ((shortestDecimal x).length - (shortestDecimal x).exponent.toNat)
        else if -6 < (shortestDecimal x).exponent ∧ (shortestDecimal x).exponent ≤ 0 then 0
        else (shortestDecimal x).digits / 10 ^ ((shortestDecimal x).length - 1) : ℕ))
  | _ => none

/-- The value of a run of decimal digits. -/
def digitsValue (ds : List Char) : Nat :=
  ds.foldl (fun acc d => 10 * acc + (d.toNat - 48)) 0

/-- The exponent part of a decimal literal (`e` or `E`, an optional sign,
digits); zero when there is none. -/
def parseExponent : List Char → ℤ
  | 'e' :: '-' :: d :: rest =>
    if d.isDigit then -(digitsValue ((d :: rest).takeWhile Char.isDigit) : ℤ) else 0
  | 'E' :: '-' :: d :: rest =>
    if d.isDigit then -(digitsValue ((d :: rest).takeWhile Char.isDigit) : ℤ) else 0
  | 'e' :: '+' :: d :: rest =>
    if d.isDigit then (digitsValue ((d :: rest).takeWhile Char.isDigit) : ℤ) else 0
  | 'E' :: '+' :: d :: rest =>
    if d.isDigit then (digitsValue ((d :: rest).takeWhile Char.isDigit) : ℤ) else 0
  | 'e' :: d :: rest =>
    if d.isDigit then (digitsValue ((d :: rest).takeWhile Char.isDigit) : ℤ) else 0
  | 'E' :: d :: rest =>
    if d.isDigit then (digitsValue ((d :: rest).takeWhile Char.isDigit) : ℤ) else 0
  | _ => 0

/-- The exact value of the decimal literal at the start of `cs` (digits, an
optional fraction, an optional exponent); `none` when there is no digit. -/
def parseUnsignedDecimal (cs : List Char) : Option ℚ :=
  let intDigits := cs.takeWhile Char.isDigit
  let afterInt := cs.dropWhile Char.isDigit
  let fracDigits := match afterInt with
    | '.' :: rest => rest.takeWhile Char.isDigit
    | _ => []
  let afterFrac := match afterInt with
    | '.' :: rest => rest.dropWhile Char.isDigit
    | _ => afterInt
  if intDigits.isEmpty && fracDigits.isEmpty then none
  else
    some ((digitsValue (intDigits ++ fracDigits) : ℚ) *
      pow10 (parseExponent afterFrac - fracDigits.length))

/-- The number read at the start of `cs` by `parseFloat`, after white space and
sign: `Infinity`, or the binary64 value of the longest decimal literal. -/
def parseUnsignedFloat (cs : List Char) : Option JSNumber :=
  if "Infinity".toList.isPrefixOf cs then some JSNumber.infinity
  else (parseUnsignedDecimal cs).map roundDouble

/-- `parseFloat` on a string: leading white space is skipped, then an optional
sign and the longest decimal literal (or `Infinity`) is read; `none` stands for
`NaN`. -/
def parseFloatString (s : String) : Option JSNumber :=
  match s.toList.dropWhile isJSWhiteSpace with
  | '-' :: rest => (parseUnsignedFloat rest).map JSNumber.neg
  | '+' :: rest => parseUnsignedFloat rest
  | rest => parseUnsignedFloat rest

/-- A search criterion that is a number or a string. -/
inductive JSValue where
  | number (x : JSNumber)
  | string (s : String)
deriving DecidableEq, Repr

/-- `parseFloat` on a criterion value; `none` stands for `NaN`. -/
def JSValue.parseFloat : JSValue → Option JSNumber
  | JSValue.number x => some (SweetShop.parseFloat x)
  | JSValue.string s => parseFloatString s

/-- The value of a run of digits in the given radix (letters count from ten). -/
def radixValue (radix : Nat) (ds : List Char) : Nat :=
  ds.foldl (fun acc d =>
    radix * acc + (if d.isDigit then d.toNat - 48 else d.toLower.toNat - 87)) 0

/-- Whether the character is a digit of the given radix (2, 8, 10 or 16). -/
def isRadixDigit (radix : Nat) (d : Char) : Bool :=
  if d.isDigit then decide (d.toNat - 48 < radix)
  else decide (radix = 16) && decide (97 ≤ d.toLower.toNat) && decide (d.toLower.toNat ≤ 102)

/-- An exponent part that must reach the end of the input: nothing, or `e`/`E`,
an optional sign and at least one digit. -/
def wholeExponent : List Char → Option ℤ
  | [] => some 0
  | c :: rest =>
    if c = 'e' ∨ c = 'E' then
      match rest with
      | '-' :: ds =>
        if !ds.isEmpty && ds.all Char.isDigit then some (-(digitsValue ds : ℤ)) else none
      | '+' :: ds =>
        if !ds.isEmpty && ds.all Char.isDigit then some (digitsValue ds : ℤ) else none
      | ds => if !ds.isEmpty && ds.all Char.isDigit then some (digitsValue ds : ℤ) else none
    else none

/-- The number denoted by a decimal literal that makes up the whole input, or
by `Infinity`. -/
def wholeDecimal (cs : List Char) : Option JSNumber :=
  if cs = "Infinity".toList then some JSNumber.infinity
  else
    let intDigits := cs.takeWhile Char.isDigit
    let afterInt := cs.dropWhile Char.isDigit
    let fracDigits := match afterInt with
      | '.' :: rest => rest.takeWhile Char.isDigit
      | _ => []
    let afterFrac := match afterInt with
      | '.' :: rest => rest.dropWhile Char.isDigit
      | _ => afterInt
    if intDigits.isEmpty && fracDigits.isEmpty then none
    else
      match wholeExponent afterFrac with
      | none => none
      | some exponent =>
        some (roundDouble ((digitsValue (intDigits ++ fracDigits) : ℚ) *
          pow10 (exponent - fracDigits.length)))

/-- `Number(s)` for a string: white space around is dropped; the empty string is
0; otherwise the whole string must be a decimal literal or `Infinity` with an
optional sign, or an unsigned `0x`, `0o` or `0b` literal; `none` stands for
`NaN`. -/
def stringToNumber (s : String) : Option JSNumber :=
  match (jsTrim s).toList with
  | [] => some 0
  | '-' :: rest => (wholeDecimal rest).map JSNumber.neg
  | '+' :: rest => wholeDecimal rest
  | '0' :: p :: ds =>
    if p = 'x' ∨ p = 'X' then
      if !ds.isEmpty && ds.all (isRadixDigit 16) then some (roundDouble (radixValue 16 ds : ℚ))
      else none
    else if p = 'o' ∨ p = 'O' then
      if !ds.isEmpty && ds.all (isRadixDigit 8) then some (roundDouble (radixValue 8 ds : ℚ))
      else none
    else if p = 'b' ∨ p = 'B' then
      if !ds.isEmpty && ds.all (isRadixDigit 2) then some (roundDouble (radixValue 2 ds : ℚ))
      else none
    else wholeDecimal ('0' :: p :: ds)
  | cs => wholeDecimal cs

/-- The digits read by `parseInt` after white space and sign: hexadecimal digits
after `0x`, decimal digits otherwise; `none` when there is no digit. -/
def parseUnsignedInt (cs : List Char) : Option JSNumber :=
  match cs with
  | '0' :: p :: ds =>
    if (p = 'x' ∨ p = 'X') then
      if (ds.takeWhile (isRadixDigit 16)).isEmpty then none
      else some (roundDouble (radixValue 16 (ds.takeWhile (isRadixDigit 16)) : ℚ))
    else some (roundDouble (digitsValue (cs.takeWhile Char.isDigit) : ℚ))
  | _ =>
    if (cs.takeWhile Char.isDigit).isEmpty then none
    else some (roundDouble (digitsValue (cs.takeWhile Char.isDigit) : ℚ))

/-- `parseInt` on a string: leading white space is skipped, then an optional
sign and the longest run of digits is read (hexadecimal digits after `0x`);
`none` stands for `NaN`. -/
def parseIntString (s : String) : Option JSNumber :=
  match s.toList.dropWhile isJSWhiteSpace with
  | '-' :: rest => (parseUnsignedInt rest).map JSNumber.neg
  | '+' :: rest => parseUnsignedInt rest
  | rest => parseUnsignedInt rest

/-! ## The `Sweet` schema -/

/-- A `Sweet` document: `_id` and the four schema paths. -/
structure Sweet where
  _id : Nat
  name : String
  category : String
  price : JSNumber
  quantity : JSNumber
deriving DecidableEq, Repr

/-- The `enum` of the `category` path. -/
def categoryEnum : List String :=
  ["Cake", "Cookie", "Candy", "Ice Cream", "Pie", "Pastry", "Chocolate", "Other"]

/-- Validators of the `name` path: `required`, `minlength`, `maxlength`; the
message of the first one that fails. -/
def validateName (name : String) : Option String :=
  if jsLength name = 0 then some "Sweet name is required"
  else if jsLength name < 2 then some "Sweet name must be at least 2 characters long"
  else if jsLength name > 100 then some "Sweet name cannot exceed 100 characters"
  else none

/-- Validators of the `category` path: `required`, `enum`. -/
def validateCategory (category : String) : Option String :=
  if jsLength category = 0 then some "Category is required"
  else if category ∉ categoryEnum then
    some ("`" ++ category ++ "` is not a valid enum value for path `category`.")
  else none

/-- Validators of the `price` path: `min: 0` (the value is at least 0), then the
custom validator `value > 0`. -/
def validatePrice (price : JSNumber) : Option String :=
  if ¬ (price ≥ 0) then some "Price must be a positive number"
  else if ¬ (price > 0) then some "Price must be greater than 0"
  else none

/-- Validators of the `quantity` path: `min: 0` (the value is at least 0). -/
def validateQuantity (quantity : JSNumber) : Option String :=
  if ¬ (quantity ≥ 0) then some "Quantity cannot be negative"
  else none

/-- Schema validation of a document: the failing paths with their messages, in
schema order. All four paths are `required`, so each is validated on every
`save()`. -/
def Sweet.validate (self : Sweet) : List (String × String) :=
  ((validateName self.name).map fun m => ("name", m)).toList ++
  ((validateCategory self.category).map fun m => ("category", m)).toList ++
  ((validatePrice self.price).map fun m => ("price", m)).toList ++
  ((validateQuantity self.quantity).map fun m => ("quantity", m)).toList

/-- The Mongoose `ValidationError` built from the failing paths. -/
def validationError (errors : List (String × String)) : JSError :=
  { name := "ValidationError"
    message := "Sweet validation failed: " ++
      ", ".intercalate (errors.map fun e => e.1 ++ ": " ++ e.2)
    errors := errors, code := none, keyValue := [] }

/-- Virtual `inStock`. -/
def Sweet.inStock (self : Sweet) : Bool := decide (self.quantity > 0)

/-- Virtual `stockStatus`. -/
def Sweet.stockStatus (self : Sweet) : String :=
  if self.quantity = 0 then "Out of Stock"
  else if self.quantity < 5 then "Low Stock"
  else "In Stock"

/-- The expression `Math.round(price * 100) / 100`; `none` stands for `NaN`. -/
def roundToCents (price : JSNumber) : Option JSNumber :=
  (price.mul 100).bind fun cents => (mathRound cents).div 100

/-- The `pre('save')` hook: a truthy price is replaced by
`Math.round(price * 100) / 100`, a truthy quantity by `Math.floor(quantity)`. -/
def preSave (self : Sweet) : Sweet :=
  let s1 := if self.price ≠ 0 then
      match roundToCents self.price with
      | some price => { self with price := price }
      | none => self
    else self
  if s1.quantity ≠ 0 then { s1 with quantity := mathFloor s1.quantity } else s1

/-! ## The catalog store -/

/-- The `sweets` collection, with the next identifier the store hands out. -/
structure Store where
  docs : List Sweet
  nextId : Nat
deriving DecidableEq, Repr

/-- The empty collection. -/
def Store.empty : Store := { docs := [], nextId := 0 }

/-- `Sweet.findById` on a well-formed identifier. -/
def Store.findById (db : Store) (id : Nat) : Option Sweet :=
  db.docs.find? fun d => d._id == id

/-- Writing a document: replaces the record with the same `_id`, or inserts it. -/
def Store.write (db : Store) (s : Sweet) : Store :=
  if db.docs.any (fun d => d._id == s._id) then
    { db with docs := db.docs.map fun d => if d._id == s._id then s else d }
  else
    { docs := db.docs ++ [s], nextId := max db.nextId (s._id + 1) }

/-- `deleteOne` of the document with the given `_id`. -/
def Store.deleteOne (db : Store) (id : Nat) : Store :=
  { db with docs := db.docs.filter fun d => !(d._id == id) }

/-- What a call of a document method leaves behind: the error it threw or
rejected with (if any), the in-memory document, and the store. -/
structure MethodResult where
  error : Option JSError
  doc : Sweet
  store : Store
deriving DecidableEq, Repr

/-- Whether the call returned normally and its promise was fulfilled. -/
def MethodResult.succeeded (r : MethodResult) : Bool := r.error.isNone

/-- `doc.save()`: validation runs first (the built-in hook), then the schema's
`pre('save')` hook, then the record is written. A validation failure rejects
and writes nothing. -/
def Sweet.save (self : Sweet) (db : Store) : MethodResult :=
  match self.validate with
  | [] =>
    let saved := preSave self
    { error := none, doc := saved, store := db.write saved }
  | e :: es => { error := some (validationError (e :: es)), doc := self, store := db }

/-- Instance method `canPurchase`: the returned boolean, and the document after
the call. -/
def Sweet.canPurchase (self : Sweet) (requestedQuantity : JSNumber) : Bool × Sweet :=
  (decide (self.quantity ≥ requestedQuantity) && decide (requestedQuantity > 0), self)

/-- The Mongoose error of a failed cast on `quantity`: the assignment records a
`CastError` for the path, and the next `save()` rejects with a `ValidationError`
that holds it, followed by the failures of the validators of the other
paths. -/
def quantityCastError (self : Sweet) (value type : String) : JSError :=
  validationError
    (("quantity", "Cast to Number failed for value \"" ++ value ++
        "\" (type " ++ type ++ ") at path \"quantity\"") ::
     (((validateName self.name).map fun m => ("name", m)).toList ++
      ((validateCategory self.category).map fun m => ("category", m)).toList ++
      ((validatePrice self.price).map fun m => ("price", m)).toList))

/-- The assignment `this.quantity = value` followed by `this.save()`, for a
value that may be `NaN` (`none`): `NaN` fails the cast to `Number`, the document
keeps its quantity, and `save()` rejects. -/
def Sweet.setQuantityAndSave (self : Sweet) (value : Option JSNumber) (db : Store) :
    MethodResult :=
  match value with
  | some quantity => Sweet.save { self with quantity := quantity } db
  | none => { error := some (quantityCastError self "NaN" "number"), doc := self, store := db }

/-- Instance method `purchase`. -/
def Sweet.purchase (self : Sweet) (requestedQuantity : JSNumber) (db : Store) : MethodResult :=
  let (ok, self) := self.canPurchase requestedQuantity
  if !ok then
    { error := some (JSError.mkError "Insufficient stock or invalid quantity")
      doc := self, store := db }
  else
    self.setQuantityAndSave (self.quantity.sub requestedQuantity) db

/-- Instance method `restock`. -/
def Sweet.restock (self : Sweet) (additionalQuantity : JSNumber) (db : Store) : MethodResult :=
  if additionalQuantity ≤ 0 then
    { error := some (JSError.mkError "Restock quantity must be positive")
      doc := self, store := db }
  else
    self.setQuantityAndSave (self.quantity.add additionalQuantity) db

/-- Instance method `restock` called with a string: `<=` compares the number the
string denotes (`NaN` compares false), `+=` appends the string to the string of
the quantity, and the assignment casts the result back to a number. -/
def Sweet.restockString (self : Sweet) (additionalQuantity : String) (db : Store) :
    MethodResult :=
  if (stringToNumber additionalQuantity).any (fun x => decide (x ≤ 0)) then
    { error := some (JSError.mkError "Restock quantity must be positive")
      doc := self, store := db }
  else
    match stringToNumber (numberToString self.quantity ++ additionalQuantity) with
    | some quantity => Sweet.save { self with quantity := quantity } db
    | none =>
      { error := some (quantityCastError self
          (numberToString self.quantity ++ additionalQuantity) "string")
        doc := self, store := db }

/-- `Sweet.create(fields)`: a new document is built (the `trim` setters of
`name` and `category` run, `quantity` starts from its default 0, the store hands
out the `_id`) and saved; the quantity may be `NaN` (`none`). -/
def Sweet.create (name category : String) (price : JSNumber) (quantity : Option JSNumber)
    (db : Store) : MethodResult :=
  Sweet.setQuantityAndSave
    { _id := db.nextId, name := jsTrim name, category := jsTrim category,
      price := price, quantity := 0 } quantity db

/-! ## Queries -/

/-- A `$regex` condition: pattern and options. -/
structure RegexCondition where
  pattern : String
  options : String
deriving DecidableEq, Repr

/-- The condition on `price`: `$gte` and `$lte`, each absent or a number, where
the number `none` stands for `NaN`. -/
structure PriceCondition where
  gte : Option (Option JSNumber)
  lte : Option (Option JSNumber)
deriving DecidableEq, Repr

/-- The condition on `quantity`: `$gt` or `$eq`. -/
inductive QuantityCondition where
  | gt (bound : JSNumber)
  | eq (value : JSNumber)
deriving DecidableEq, Repr

/-- The filter object passed to `find`. -/
structure Query where
  name : Option RegexCondition
  category : Option RegexCondition
  price : Option PriceCondition
  quantity : Option QuantityCondition
deriving DecidableEq, Repr

/-- The filter `{}`. -/
def Query.empty : Query := { name := none, category := none, price := none, quantity := none }

/-- Whether a string satisfies a `$regex` condition whose pattern compiled. -/
def RegexCondition.holds (r : Regex) (c : RegexCondition) (subject : String) : Bool :=
  r.test (c.options.contains 'i') subject

/-- Whether a price satisfies a price condition with numeric bounds. -/
def PriceCondition.holds (c : PriceCondition) (price : JSNumber) : Bool :=
  (match c.gte with
   | some (some lo) => decide (lo ≤ price)
   | _ => true) &&
  (match c.lte with
   | some (some hi) => decide (price ≤ hi)
   | _ => true)

/-- Whether a quantity satisfies a quantity condition. -/
def QuantityCondition.holds : QuantityCondition → JSNumber → Bool
  | QuantityCondition.gt bound, quantity => decide (quantity > bound)
  | QuantityCondition.eq value, quantity => decide (quantity = value)

/-- The error of the store for a pattern it cannot compile. -/
def regexError (pattern : String) : JSError :=
  { name := "MongoServerError"
    message := "Regular expression is invalid: " ++ pattern
    errors := [], code := some 51091, keyValue := [] }

/-- The Mongoose `CastError` of a `NaN` bound on `price`. -/
def castNumberError : JSError :=
  { name := "CastError"
    message := "Cast to Number failed for value \"NaN\" (type number) at path \"price\" for model \"Sweet\""
    errors := [], code := none, keyValue := [] }

/-- The compiled pattern of an optional `$regex` condition: `none` for a pattern
the store rejects, `some none` when there is no condition. -/
def compileCondition : Option RegexCondition → Option (Option (Regex × RegexCondition))
  | none => some none
  | some c => (Regex.compile c.pattern).map fun r => some (r, c)

/-- `Sweet.find(query)`: the query is cast (a `NaN` bound on `price` is a
`CastError`), the patterns are compiled by the store, and the documents that
satisfy every condition are returned in collection order. -/
def Sweet.find (query : Query) (db : Store) : Except JSError (List Sweet) :=
  if query.price.any (fun c => c.gte == some none || c.lte == some none) then
    Except.error castNumberError
  else
    match compileCondition query.name, compileCondition query.category with
    | some nameRe, some categoryRe =>
      Except.ok (db.docs.filter fun d =>
        nameRe.all (fun rc => rc.2.holds rc.1 d.name) &&
        categoryRe.all (fun rc => rc.2.holds rc.1 d.category) &&
        query.price.all (fun c => c.holds d.price) &&
        query.quantity.all (fun c => c.holds d.quantity))
    | none, _ => Except.error (regexError ((query.name.map fun c => c.pattern).getD ""))
    | _, none => Except.error (regexError ((query.category.map fun c => c.pattern).getD ""))

/-- `.sort({ name: 1 })`: ascending by `name`, strings compared code unit by
code unit; documents with equal names keep their order. -/
def sortByName (l : List Sweet) : List Sweet :=
  l.insertionSort fun a b => a.name ≤ b.name

/-- The criteria object passed to `findBySearch`. -/
structure SearchParams where
  name : Option String
  category : Option String
  minPrice : Option JSValue
  maxPrice : Option JSValue
  inStock : Option String
deriving DecidableEq, Repr

/-- The criteria object `{}`. -/
def SearchParams.empty : SearchParams :=
  { name := none, category := none, minPrice := none, maxPrice := none, inStock := none }

/-- The `SyntaxError` of `new RegExp(source)` for a source that does not compile. -/
def syntaxError (source : String) : JSError :=
  { name := "SyntaxError"
    message := "Invalid regular expression: /" ++ source ++ "/"
    errors := [], code := none, keyValue := [] }

/-- The filter object built by `findBySearch` from the criteria. -/
def buildQuery (searchParams : SearchParams) : Query :=
  { name := match searchParams.name with
      | some name => if name = "" then none else some { pattern := name, options := "i" }
      | none => none
    category := match searchParams.category with
      | some category =>
        if category = "" then none
        else some { pattern := "^" ++ category ++ "$", options := "i" }
      | none => none
    price :=
      if searchParams.minPrice.isSome || searchParams.maxPrice.isSome then
        some { gte := searchParams.minPrice.map JSValue.parseFloat
               lte := searchParams.maxPrice.map JSValue.parseFloat }
      else none
    quantity := match searchParams.inStock with
      | some inStock =>
        if inStock = "true" then some (QuantityCondition.gt 0)
        else if inStock = "false" then some (QuantityCondition.eq 0)
        else none
      | none => none }

/-- Static method `findBySearch`: builds the filter (the `RegExp` of a truthy
`category` is constructed here and may throw), then `find` and `sort`. -/
def Sweet.findBySearch (searchParams : SearchParams) (db : Store) :
    Except JSError (List Sweet) :=
  let query := buildQuery searchParams
  match query.category with
  | some c =>
    match Regex.compile c.pattern with
    | none => Except.error (syntaxError c.pattern)
    | some _ => (Sweet.find query db).map sortByName
  | none => (Sweet.find query db).map sortByName

/-! ## The controller -/

/-- The `message` of a response: a fixed text, or one of the two templates. -/
inductive Message where
  | text (s : String)
  /-- Template "Successfully purchased $quantity $name(s)". -/
  | purchased (quantity : JSNumber) (name : String)
  /-- Template "Successfully restocked $quantity $name(s)". -/
  | restocked (quantity : JSNumber) (name : String)
  /-- The restock template for a quantity that came as a string. -/
  | restockedString (quantity : String) (name : String)
deriving DecidableEq, Repr

/-- The `data` of a response. -/
inductive Payload where
  | none
  | sweet (sweet : Sweet)
  | sweets (data : List Sweet) (count : Nat)
  | purchase (sweet : Sweet) (purchasedQuantity : JSNumber) (remainingStock : JSNumber)
  | restock (sweet : Sweet) (restockedQuantity : JSNumber) (totalStock : JSNumber)
  | restockString (sweet : Sweet) (restockedQuantity : String) (totalStock : JSNumber)
deriving DecidableEq, Repr

/-- An HTTP response: status code and the JSON envelope. -/
structure Response where
  status : Nat
  success : Bool
  message : Option Message
  data : Payload
deriving DecidableEq, Repr

/-- A response `res.status(status).json({ success: false, message })`. -/
def Response.failure (status : Nat) (message : String) : Response :=
  { status := status, success := false, message := some (Message.text message),
    data := Payload.none }

/-- The `:id` route parameter: a well-formed ObjectId or any other string. -/
inductive IdParam where
  | oid (id : Nat)
  | malformed (raw : String)
deriving DecidableEq, Repr

/-- The Mongoose `CastError` of a malformed identifier. -/
def castError (raw : String) : JSError :=
  { name := "CastError"
    message := "Cast to ObjectId failed for value \"" ++ raw ++
      "\" (type string) at path \"_id\" for model \"Sweet\""
    errors := [], code := none, keyValue := [] }

/-- `Sweet.findById(req.params.id)`: the document, `null`, or a `CastError`. -/
def Sweet.findById (db : Store) (id : IdParam) : Except JSError (Option Sweet) :=
  match id with
  | IdParam.oid n => Except.ok (db.findById n)
  | IdParam.malformed raw => Except.error (castError raw)

/-- The body of a create or update request. -/
structure SweetBody where
  name : Option String
  category : Option String
  price : Option JSNumber
  quantity : Option JSNumber
deriving DecidableEq, Repr

/-- The `catch` block of `createSweet`. -/
def createSweetCatch (error : JSError) : Response :=
  if error.name = "ValidationError" then
    Response.failure 400 (", ".intercalate (error.errors.map fun e => e.2))
  else if error.code = some 11000 then
    Response.failure 400 ((error.keyValue.head?.getD "undefined") ++ " already exists")
  else
    Response.failure 500 "Server error while creating sweet"

/-- Handler `createSweet`. -/
def createSweet (body : SweetBody) (db : Store) : Response × Store :=
  match body.name, body.category, body.price, body.quantity with
  | some name, some category, some price, some quantity =>
    if name = "" ∨ category = "" ∨ price = 0 then
      (Response.failure 400
        "Please provide all required fields: name, category, price, and quantity", db)
    else if price ≤ 0 then
      (Response.failure 400 "Price must be greater than 0", db)
    else if quantity < 0 then
      (Response.failure 400 "Quantity cannot be negative", db)
    else
      let r := Sweet.create name category (parseFloat price) (parseInt quantity) db
      match r.error with
      | none => ({ status := 201, success := true, message := none,
                   data := Payload.sweet r.doc }, r.store)
      | some error => (createSweetCatch error, r.store)
  | _, _, _, _ =>
    (Response.failure 400
      "Please provide all required fields: name, category, price, and quantity", db)

/-- The `catch` block of `updateSweet`. -/
def updateSweetCatch (error : JSError) : Response :=
  if error.name = "CastError" then
    Response.failure 400 "Invalid sweet ID"
  else if error.name = "ValidationError" then
    Response.failure 400 (", ".intercalate (error.errors.map fun e => e.2))
  else
    Response.failure 500 "Server error while updating sweet"

/-- The assignments of `updateSweet` to `name`, `category` and `price`: a truthy
`name` or `category` is set (through its `trim` setter), a supplied `price` is
set after `parseFloat`. -/
def applyUpdate (sweet : Sweet) (body : SweetBody) : Sweet :=
  let s1 := match body.name with
    | some name => if name = "" then sweet else { sweet with name := jsTrim name }
    | none => sweet
  let s2 := match body.category with
    | some category => if category = "" then s1 else { s1 with category := jsTrim category }
    | none => s1
  match body.price with
  | some price => { s2 with price := parseFloat price }
  | none => s2

/-- The last assignment of `updateSweet`, of `parseInt(quantity)` to `quantity`
when the body supplies one, followed by `sweet.save()`. -/
def saveUpdate (sweet : Sweet) (body : SweetBody) (db : Store) : MethodResult :=
  match body.quantity with
  | some quantity => (applyUpdate sweet body).setQuantityAndSave (parseInt quantity) db
  | none => Sweet.save (applyUpdate sweet body) db

/-- Handler `updateSweet`. -/
def updateSweet (id : IdParam) (body : SweetBody) (db : Store) : Response × Store :=
  match Sweet.findById db id with
  | Except.error error => (updateSweetCatch error, db)
  | Except.ok none => (Response.failure 404 "Sweet not found", db)
  | Except.ok (some sweet) =>
    if body.price.any (fun price => decide (price ≤ 0)) then
      (Response.failure 400 "Price must be greater than 0", db)
    else if body.quantity.any (fun quantity => decide (quantity < 0)) then
      (Response.failure 400 "Quantity cannot be negative", db)
    else
      let r := saveUpdate sweet body db
      match r.error with
      | none => ({ status := 200, success := true, message := none,
                   data := Payload.sweet r.doc }, r.store)
      | some error => (updateSweetCatch error, r.store)

/-- The `catch` block of `deleteSweet`. -/
def deleteSweetCatch (error : JSError) : Response :=
  if error.name = "CastError" then
    Response.failure 400 "Invalid sweet ID"
  else
    Response.failure 500 "Server error while deleting sweet"

/-- Handler `deleteSweet`. -/
def deleteSweet (id : IdParam) (db : Store) : Response × Store :=
  match Sweet.findById db id with
  | Except.error error => (deleteSweetCatch error, db)
  | Except.ok none => (Response.failure 404 "Sweet not found", db)
  | Except.ok (some sweet) =>
    ({ status := 200, success := true,
       message := some (Message.text "Sweet deleted successfully"),
       data := Payload.none }, db.deleteOne sweet._id)

/-- The `catch` block of `purchaseSweet`. -/
def purchaseSweetCatch (error : JSError) : Response :=
  if error.name = "CastError" then
    Response.failure 400 "Invalid sweet ID"
  else
    Response.failure 500
      (if error.message = "" then "Server error while processing purchase" else error.message)

/-- Handler `purchaseSweet`. -/
def purchaseSweet (id : IdParam) (quantity : Option JSNumber) (db : Store) :
    Response × Store :=
  match quantity with
  | none => (Response.failure 400 "Please provide a valid purchase quantity", db)
  | some quantity =>
    if quantity = 0 ∨ quantity ≤ 0 then
      (Response.failure 400 "Please provide a valid purchase quantity", db)
    else
      match Sweet.findById db id with
      | Except.error error => (purchaseSweetCatch error, db)
      | Except.ok none => (Response.failure 404 "Sweet not found", db)
      | Except.ok (some sweet) =>
        if !(sweet.canPurchase quantity).1 then
          (Response.failure 400 "Insufficient stock or invalid quantity", db)
        else
          let r := sweet.purchase quantity db
          match r.error with
          | none => ({ status := 200, success := true,
                       message := some (Message.purchased quantity r.doc.name),
                       data := Payload.purchase r.doc quantity r.doc.quantity }, r.store)
          | some error => (purchaseSweetCatch error, r.store)

/-- The `catch` block of `restockSweet`. -/
def restockSweetCatch (error : JSError) : Response :=
  if error.name = "CastError" then
    Response.failure 400 "Invalid sweet ID"
  else
    Response.failure 500
      (if error.message = "" then "Server error while processing restock" else error.message)

/-- Handler `restockSweet`. -/
def restockSweet (id : IdParam) (quantity : Option JSNumber) (db : Store) :
    Response × Store :=
  match quantity with
  | none => (Response.failure 400 "Please provide a valid restock quantity", db)
  | some quantity =>
    if quantity = 0 ∨ quantity ≤ 0 then
      (Response.failure 400 "Please provide a valid restock quantity", db)
    else
      match Sweet.findById db id with
      | Except.error error => (restockSweetCatch error, db)
      | Except.ok none => (Response.failure 404 "Sweet not found", db)
      | Except.ok (some sweet) =>
        let r := sweet.restock quantity db
        match r.error with
        | none => ({ status := 200, success := true,
                     message := some (Message.restocked quantity r.doc.name),
                     data := Payload.restock r.doc quantity r.doc.quantity }, r.store)
        | some error => (restockSweetCatch error, r.store)

/-- Handler `restockSweet` for a body whose `quantity` is a JSON string. -/
def restockSweetString (id : IdParam) (quantity : String) (db : Store) : Response × Store :=
  if quantity = "" ∨ (stringToNumber quantity).any (fun x => decide (x ≤ 0)) then
    (Response.failure 400 "Please provide a valid restock quantity", db)
  else
    match Sweet.findById db id with
    | Except.error error => (restockSweetCatch error, db)
    | Except.ok none => (Response.failure 404 "Sweet not found", db)
    | Except.ok (some sweet) =>
      let r := sweet.restockString quantity db
      match r.error with
      | none => ({ status := 200, success := true,
                   message := some (Message.restockedString quantity r.doc.name),
                   data := Payload.restockString r.doc quantity r.doc.quantity }, r.store)
      | some error => (restockSweetCatch error, r.store)

/-- The `catch` block of `getAllSweets`. -/
def getAllSweetsCatch (_error : JSError) : Response :=
  Response.failure 500 "Server error while fetching sweets"

/-- A response `res.json({ success: true, data: sweets, count: sweets.length })`. -/
def Response.list (sweets : List Sweet) : Response :=
  { status := 200, success := true, message := none,
    data := Payload.sweets sweets sweets.length }

/-- Handler `getAllSweets`. -/
def getAllSweets (db : Store) : Response :=
  match (Sweet.find Query.empty db).map sortByName with
  | Except.ok sweets => Response.list sweets
  | Except.error error => getAllSweetsCatch error

/-- The query string of a search request: every value is a string. -/
structure SearchQuery where
  name : Option String
  category : Option String
  minPrice : Option String
  maxPrice : Option String
  inStock : Option String
deriving DecidableEq, Repr

/-- The `catch` block of `searchSweets`. -/
def searchSweetsCatch (_error : JSError) : Response :=
  Response.failure 500 "Server error while searching sweets"

/-- The `searchParams` object that `searchSweets` builds from the query string:
a truthy `name` or `category`, a `minPrice` or `maxPrice` that is not
`undefined`. -/
def searchParamsOf (query : SearchQuery) : SearchParams :=
  { name := match query.name with
      | some name => if name = "" then none else some name
      | none => none
    category := match query.category with
      | some category => if category = "" then none else some category
      | none => none
    minPrice := query.minPrice.map JSValue.string
    maxPrice := query.maxPrice.map JSValue.string
    inStock := none }

/-- Handler `searchSweets`. -/
def searchSweets (query : SearchQuery) (db : Store) : Response :=
  let searchParams := searchParamsOf query
  if searchParams.name.isNone && searchParams.category.isNone &&
      searchParams.minPrice.isNone && searchParams.maxPrice.isNone then
    match (Sweet.find Query.empty db).map sortByName with
    | Except.ok sweets => Response.list sweets
    | Except.error error => searchSweetsCatch error
  else
    match Sweet.findBySearch searchParams db with
    | Except.ok sweets => Response.list sweets
    | Except.error error => searchSweetsCatch error

/-- The `catch` block of `getSweetById`. -/
def getSweetByIdCatch (error : JSError) : Response :=
  if error.name = "CastError" then
    Response.failure 400 "Invalid sweet ID"
  else
    Response.failure 500 "Server error while fetching sweet"

/-- Handler `getSweetById`. -/
def getSweetById (id : IdParam) (db : Store) : Response :=
  match Sweet.findById db id with
  | Except.error error => getSweetByIdCatch error
  | Except.ok none => Response.failure 404 "Sweet not found"
  | Except.ok (some sweet) =>
    { status := 200, success := true, message := none, data := Payload.sweet sweet }

/-! ## Requests and reachable stores -/

/-- A mutating request of the REST interface. -/
inductive Request where
  | create (body : SweetBody)
  | update (id : IdParam) (body : SweetBody)
  | delete (id : IdParam)
  | purchase (id : IdParam) (quantity : Option JSNumber)
  | restock (id : IdParam) (quantity : Option JSNumber)
deriving DecidableEq, Repr

/-- Routing of a request to its handler. -/
def handle (req : Request) (db : Store) : Response × Store :=
  match req with
  | Request.create body => createSweet body db
  | Request.update id body => updateSweet id body db
  | Request.delete id => deleteSweet id db
  | Request.purchase id quantity => purchaseSweet id quantity db
  | Request.restock id quantity => restockSweet id quantity db

/-- The store after a sequence of requests, handled one after the other. -/
def processAll (reqs : List Request) (db : Store) : Store :=
  reqs.foldl (fun db req => (handle req db).2) db

/-- Whether a request is a create or an update request. -/
def Request.isCreateOrUpdate : Request → Bool
  | Request.create _ => true
  | Request.update _ _ => true
  | _ => false

/-- Every stored document satisfies `P`. -/
def Store.All (P : Sweet → Prop) (db : Store) : Prop := ∀ d ∈ db.docs, P d

/-! ## The client: `SweetModal`, `Dashboard`, `authReducer` -/

/-- The form state of `SweetModal`: four strings. -/
structure FormData where
  name : String
  category : String
  price : String
  quantity : String
deriving DecidableEq, Repr

/-- The object `sweetData` built by `handleSubmit`; `none` stands for `NaN`. -/
structure SweetData where
  name : String
  category : String
  price : Option JSNumber
  quantity : Option JSNumber
deriving DecidableEq, Repr

/-- `validateForm` of `SweetModal`: whether no error was recorded. -/
def validateForm (formData : FormData) : Bool :=
  !(decide (jsTrim formData.name = "") || decide (jsLength formData.name < 2)) &&
  !(decide (formData.category = "")) &&
  !(decide (formData.price = "") ||
      (parseFloatString formData.price).any (fun x => decide (x ≤ 0))) &&
  !(decide (formData.quantity = "") ||
      (parseIntString formData.quantity).any (fun x => decide (x < 0)))

/-- A value handed from one component to another: an identifier, a `sweetData`
object, or `undefined`. -/
inductive Argument where
  | id (id : Nat)
  | data (sweetData : SweetData)
  | undefined
deriving DecidableEq, Repr

/-- A call of a method of the `api` service, with the value passed as body. -/
inductive ApiCall where
  | createSweet (sweetData : Argument)
  | updateSweet (id : Nat) (sweetData : Argument)
deriving DecidableEq, Repr

/-- `handleSubmit` of `SweetModal`: the argument list of its call of `onSubmit`;
`none` when the form is invalid, or when `sweet` is `null` in edit mode. -/
def SweetModal.handleSubmit (mode : String) (sweet : Option Sweet) (formData : FormData) :
    Option (List Argument) :=
  if !validateForm formData then none
  else
    let sweetData : SweetData :=
      { name := formData.name
        category := formData.category
        price := parseFloatString formData.price
        quantity := parseIntString formData.quantity }
    if mode = "edit" then
      sweet.map fun s => [Argument.id s._id, Argument.data sweetData]
    else
      some [Argument.data sweetData]

/-- `handleSweetSubmit` of `Dashboard`: it has one parameter, `sweetData`, bound
to the first argument of the call; the `api` call it makes, if any. -/
def Dashboard.handleSweetSubmit (modalType : Option String) (selectedSweet : Option Sweet)
    (arguments : List Argument) : Option ApiCall :=
  let sweetData := arguments.headD Argument.undefined
  if modalType = some "add" then
    some (ApiCall.createSweet sweetData)
  else if modalType = some "edit" then
    selectedSweet.map fun s => ApiCall.updateSweet s._id sweetData
  else
    none

/-- Submitting the form of the `SweetModal` that `Dashboard` renders for the
modal type "add" or "edit": `sweet` is the selected sweet in edit mode and
`null` otherwise, `mode` is the modal type, `onSubmit` is `handleSweetSubmit`. -/
def submitSweetForm (modalType : String) (selectedSweet : Option Sweet) (formData : FormData) :
    Option ApiCall :=
  (SweetModal.handleSubmit modalType
      (if modalType = "edit" then selectedSweet else none) formData).bind
    (Dashboard.handleSweetSubmit (some modalType) selectedSweet)

/-- The user object of the auth state. -/
structure User where
  name : String
  email : String
  role : String
deriving DecidableEq, Repr

/-- The state of the auth context. -/
structure AuthState where
  user : Option User
  token : Option String
  loading : Bool
  error : Option String
deriving DecidableEq, Repr

/-- The actions dispatched to `authReducer`; `unknown` is an action whose type
is none of the nine of `AUTH_ACTIONS`. -/
inductive AuthAction where
  | loginStart
  | registerStart
  | loginSuccess (user : Option User) (token : Option String)
  | registerSuccess (user : Option User) (token : Option String)
  | loginFailure (payload : Option String)
  | registerFailure (payload : Option String)
  | logout
  | clearError
  | setLoading (payload : Bool)
  | unknown (type : String)
deriving DecidableEq, Repr

/-- The reducer `authReducer`. -/
def authReducer (state : AuthState) (action : AuthAction) : AuthState :=
  match action with
  | AuthAction.loginStart => { state with loading := true, error := none }
  | AuthAction.registerStart => { state with loading := true, error := none }
  | AuthAction.loginSuccess user token =>
    { state with loading := false, user := user, token := token, error := none }
  | AuthAction.registerSuccess user token =>
    { state with loading := false, user := user, token := token, error := none }
  | AuthAction.loginFailure payload =>
    { state with loading := false, user := none, token := none, error := payload }
  | AuthAction.registerFailure payload =>
    { state with loading := false, user := none, token := none, error := payload }
  | AuthAction.logout => { state with user := none, token := none, error := none }
  | AuthAction.clearError => { state with error := none }
  | AuthAction.setLoading payload => { state with loading := payload }
  | AuthAction.unknown _ => state

/-- The state after a sequence of actions. -/
def dispatchAll (actions : List AuthAction) (state : AuthState) : AuthState :=
  actions.foldl authReducer state

/-- The `initialState` of the auth context, for a given content of
`localStorage.getItem('token')`. -/
def initialState (storedToken : Option String) : AuthState :=
  { user := none, token := storedToken, loading := true, error := none }

/-! ## Sample data -/

/-- The item of the round-trip example: "Choco Bar", 2.5 a piece, five in stock. -/
def chocoBar : Sweet :=
  { _id := 0, name := "Choco Bar", category := "Chocolate", price := JSNumber.finite (5 / 2),
    quantity := 5 }

/-- A create request body for the Choco Bar. -/
def chocoBarBody : SweetBody :=
  { name := some "Choco Bar", category := some "Chocolate",
    price := some (JSNumber.finite (5 / 2)), quantity := some 5 }

/-- A create request body with a price below half a cent, 0.004. -/
def gumBody : SweetBody :=
  { name := some "Gum", category := some "Candy", price := some (jsonNumber (4 / 1000)),
    quantity := some 1 }

/-- A catalog of three items, priced 0.5, 2.5 and 5.0, with quantities 0, 3
and 0, stored in an order that is not the order of their names. -/
def sampleCatalog : Store :=
  { docs := [{ _id := 0, name := "Truffle", category := "Chocolate",
               price := JSNumber.finite (1 / 2), quantity := 0 },
             { _id := 1, name := "Choco Bar", category := "Chocolate",
               price := JSNumber.finite (5 / 2), quantity := 3 },
             { _id := 2, name := "Apple Pie", category := "Pie", price := 5, quantity := 0 }]
    nextId := 3 }

/-- A query string without any parameter. -/
def SearchQuery.empty : SearchQuery :=
  { name := none, category := none, minPrice := none, maxPrice := none, inStock := none }

/-- The criterion of the specification for `name`: the item's name contains the
given string as a substring when letter case is ignored. -/
def nameContainsIgnoringCase (s name : String) : Bool :=
  decide ((s.toList.map Char.toLower) <:+: (name.toList.map Char.toLower))

/-- The criterion of the specification for `category`: the item's category
equals the given string when letter case is ignored. -/
def categoryEqualsIgnoringCase (c category : String) : Bool :=
  decide (c.toList.map Char.toLower = category.toList.map Char.toLower)

/-- The Gum as a create request with price 0.004 leaves it in the store: its
price is 0. -/
def gum : Sweet :=
  { _id := 0, name := "Gum", category := "Candy", price := 0, quantity := 1 }

/-- The number that the decimal literal `1e<n>` denotes. -/
def tenToThe (n : ℕ) : JSNumber := jsonNumber ((10 ^ n : ℕ) : ℚ)

theorem pow2_eq (e : ℤ) : pow2 e = (2 : ℚ) ^ e := by
  unfold pow2
  split_ifs with h
  · lift e to ℕ using h
    simp
  · have h1 : (0 : ℤ) ≤ -e := by omega
    have h2 : e = -(((-e).toNat : ℕ) : ℤ) := by rw [Int.toNat_of_nonneg h1]; ring
    conv_rhs => rw [h2]
    rw [zpow_neg, zpow_natCast]
    simp

theorem pow2_pos (e : ℤ) : 0 < pow2 e := by
  rw [pow2_eq]; positivity

theorem pow2_le_pow2 {a b : ℤ} (h : a ≤ b) : pow2 a ≤ pow2 b := by
  rw [pow2_eq, pow2_eq]
  exact zpow_le_zpow_right₀ (by norm_num) h

theorem pow2_lt_pow2 {a b : ℤ} (h : a < b) : pow2 a < pow2 b := by
  rw [pow2_eq, pow2_eq]
  exact zpow_lt_zpow_right₀ (by norm_num) h

theorem pow2_natCast (k : ℕ) : pow2 (k : ℤ) = (2 : ℚ) ^ k := by
  rw [pow2_eq, zpow_natCast]

theorem lt_of_pow2_lt_pow2 {a b : ℤ} (h : pow2 a < pow2 b) : a < b := by
  by_contra hn
  exact absurd (pow2_le_pow2 (not_lt.mp hn)) (not_le.mpr h)

theorem log2Fuel_spec (fuel : ℕ) : ∀ n : ℕ, n ≤ fuel → 0 < n →
    2 ^ log2Fuel fuel n ≤ n ∧ n < 2 ^ (log2Fuel fuel n + 1) := by
  induction fuel with
  | zero => intro n h1 h2; omega
  | succ fuel ih =>
    intro n h1 h2
    unfold log2Fuel
    split_ifs with h
    · constructor
      · simpa using h2
      · simpa using h
    · have h3 := ih (n / 2) (by omega) (by omega)
      constructor
      · rw [pow_succ]; omega
      · rw [pow_succ]; omega

theorem natLog2_spec (n : ℕ) (h : 0 < n) : 2 ^ natLog2 n ≤ n ∧ n < 2 ^ (natLog2 n + 1) :=
  log2Fuel_spec n n le_rfl h

theorem floorLog2_le (x : ℚ) (hx : 0 < x) : pow2 (floorLog2 x) ≤ x := by
  unfold floorLog2
  split_ifs with h
  · exact h
  · have hnum : 0 < x.num := Rat.num_pos.mpr hx
    have hn : 0 < x.num.toNat := by omega
    have h1 := (natLog2_spec x.num.toNat hn).1
    have h2 := (natLog2_spec x.den x.den_pos).2
    rw [pow2_eq]
    have e : ((natLog2 x.num.toNat : ℤ) - (natLog2 x.den : ℤ) - 1) =
        (natLog2 x.num.toNat : ℤ) - ((natLog2 x.den + 1 : ℕ) : ℤ) := by push_cast; ring
    rw [e, zpow_sub₀ (by norm_num), zpow_natCast, zpow_natCast]
    have hxe : (x.num.toNat : ℚ) / (x.den : ℚ) = x := by
      have : ((x.num.toNat : ℕ) : ℤ) = x.num := Int.toNat_of_nonneg hnum.le
      have h3 : (x.num.toNat : ℚ) = (x.num : ℚ) := by exact_mod_cast this
      rw [h3]; exact Rat.num_div_den x
    have hd : (0 : ℚ) < x.den := by exact_mod_cast x.den_pos
    have h1' : (2 : ℚ) ^ natLog2 x.num.toNat ≤ (x.num.toNat : ℚ) := by exact_mod_cast h1
    have h2' : (x.den : ℚ) ≤ (2 : ℚ) ^ (natLog2 x.den + 1) := by exact_mod_cast h2.le
    exact le_of_le_of_eq (div_le_div₀ (by positivity) h1' hd h2') hxe

theorem roundHalfEven_intCast (n : ℤ) : roundHalfEven (n : ℚ) = n := by
  unfold roundHalfEven
  simp

theorem roundHalfEven_cases (x : ℚ) : roundHalfEven x = ⌊x⌋ ∧ x - ⌊x⌋ ≤ 1 / 2 ∨
    roundHalfEven x = ⌊x⌋ + 1 ∧ 1 / 2 ≤ x - ⌊x⌋ := by
  unfold roundHalfEven
  split_ifs with h1 h2 h3
  · exact Or.inl ⟨rfl, h1.le⟩
  · exact Or.inr ⟨rfl, h2.le⟩
  · exact Or.inl ⟨rfl, not_lt.mp h2⟩
  · exact Or.inr ⟨rfl, not_lt.mp h1⟩

theorem abs_roundHalfEven_sub_le (x : ℚ) : |(roundHalfEven x : ℚ) - x| ≤ 1 / 2 := by
  have hf := Int.floor_le x
  have hl := Int.lt_floor_add_one x
  rw [abs_le]
  rcases roundHalfEven_cases x with ⟨h, hh⟩ | ⟨h, hh⟩ <;> rw [h] <;> push_cast <;>
    constructor <;> linarith

theorem roundHalfEven_nonneg (x : ℚ) (h : 0 ≤ x) : 0 ≤ roundHalfEven x := by
  have hf : 0 ≤ ⌊x⌋ := Int.floor_nonneg.mpr h
  rcases roundHalfEven_cases x with ⟨h1, _⟩ | ⟨h1, _⟩ <;> rw [h1] <;> omega

theorem JSNumber.zero_def : (0 : JSNumber) = JSNumber.finite 0 := by
  show JSNumber.finite ((0 : ℕ) : ℚ) = _
  simp

theorem JSNumber.ofNat_def (n : ℕ) [n.AtLeastTwo] :
    (OfNat.ofNat n : JSNumber) = JSNumber.finite (OfNat.ofNat n) := by
  show JSNumber.finite ((OfNat.ofNat n : ℕ) : ℚ) = _
  simp

@[simp] theorem JSNumber.finite_le_finite (a b : ℚ) :
    JSNumber.finite a ≤ JSNumber.finite b ↔ a ≤ b := by
  show JSNumber.le _ _ = true ↔ _
  simp [JSNumber.le]

@[simp] theorem JSNumber.finite_lt_finite (a b : ℚ) :
    JSNumber.finite a < JSNumber.finite b ↔ a < b := by
  rw [lt_iff_le_not_le, lt_iff_le_not_le, JSNumber.finite_le_finite, JSNumber.finite_le_finite]

@[simp] theorem JSNumber.le_infinity (a : JSNumber) : a ≤ JSNumber.infinity := by
  show JSNumber.le _ _ = true
  cases a <;> rfl

@[simp] theorem JSNumber.negInfinity_le (a : JSNumber) : JSNumber.negInfinity ≤ a := by
  show JSNumber.le _ _ = true
  cases a <;> rfl

@[simp] theorem JSNumber.finite_lt_infinity (a : ℚ) : JSNumber.finite a < JSNumber.infinity := by
  rw [lt_iff_le_not_le]
  exact ⟨JSNumber.le_infinity _, by show ¬ (JSNumber.le _ _ = true); simp [JSNumber.le]⟩

@[simp] theorem JSNumber.negInfinity_lt_finite (a : ℚ) :
    JSNumber.negInfinity < JSNumber.finite a := by
  rw [lt_iff_le_not_le]
  exact ⟨JSNumber.negInfinity_le _, by show ¬ (JSNumber.le _ _ = true); simp [JSNumber.le]⟩

theorem roundDouble_nonneg (x : ℚ) (h : 0 ≤ x) : (0 : JSNumber) ≤ roundDouble x := by
  have hp := pow2_pos (quantumExponent x)
  have hr : (0 : ℚ) ≤ (roundHalfEven (x / pow2 (quantumExponent x)) : ℚ) := by
    exact_mod_cast roundHalfEven_nonneg _ (div_nonneg h hp.le)
  have hm : (0 : ℚ) ≤ (roundHalfEven (x / pow2 (quantumExponent x)) : ℚ) *
      pow2 (quantumExponent x) := mul_nonneg hr hp.le
  unfold roundDouble
  split_ifs with h1 h2
  · exact JSNumber.le_infinity _
  · exfalso
    have := pow2_pos 1024
    linarith
  · rw [JSNumber.zero_def, JSNumber.finite_le_finite]
    exact hm

theorem floorLog2_zero : floorLog2 0 = -1 := by decide!

theorem quantumExponent_nonpos (x : ℚ) (h : |x| < 2 ^ 53) : quantumExponent x ≤ 0 := by
  unfold quantumExponent
  apply max_le _ (by norm_num)
  rcases eq_or_lt_of_le (abs_nonneg x) with h0 | h0
  · rw [← h0, floorLog2_zero]; norm_num
  · have h1 := floorLog2_le |x| h0
    have h2 : pow2 (floorLog2 |x|) < pow2 53 := by
      have e := pow2_natCast 53
      rw [show ((53 : ℕ) : ℤ) = 53 from rfl] at e
      rw [e]
      exact lt_of_le_of_lt h1 h
    have := lt_of_pow2_lt_pow2 h2
    omega

theorem roundDouble_intCast (n : ℤ) (h : |(n : ℚ)| < 2 ^ 53) :
    roundDouble (n : ℚ) = JSNumber.finite n := by
  have hq := quantumExponent_nonpos (n : ℚ) h
  obtain ⟨k, hk⟩ : ∃ k : ℕ, quantumExponent (n : ℚ) = -(k : ℤ) :=
    ⟨(-quantumExponent (n : ℚ)).toNat, by rw [Int.toNat_of_nonneg (by omega)]; ring⟩
  have hp : pow2 (quantumExponent (n : ℚ)) = 1 / (2 : ℚ) ^ k := by
    rw [hk, pow2_eq, zpow_neg, zpow_natCast, one_div]
  have hdiv : (n : ℚ) / pow2 (quantumExponent (n : ℚ)) = ((n * 2 ^ k : ℤ) : ℚ) := by
    rw [hp]; push_cast; field_simp
  have hr : (roundHalfEven ((n : ℚ) / pow2 (quantumExponent (n : ℚ))) : ℚ) *
      pow2 (quantumExponent (n : ℚ)) = n := by
    rw [hdiv, roundHalfEven_intCast, hp]; push_cast; field_simp
  have hbig : (2 : ℚ) ^ 53 < pow2 1024 := by
    have e := pow2_natCast 53
    rw [show ((53 : ℕ) : ℤ) = 53 from rfl] at e
    rw [← e]
    exact pow2_lt_pow2 (by norm_num)
  have habs := abs_lt.mp h
  unfold roundDouble
  rw [hr]
  rw [if_neg (by linarith), if_neg (by linarith)]

theorem roundDouble_natCast (n : ℕ) (h : n < 2 ^ 53) :
    roundDouble (n : ℚ) = JSNumber.finite n := by
  have := roundDouble_intCast (n : ℤ) (by
    rw [abs_of_nonneg (by positivity)]
    exact_mod_cast h)
  simpa using this

/-- Sample values of the binary64 operations: `0.1 + 0.2`, `1.005 * 100`,
`0.07 * 100`, `2 ^ 53 + 1`, `3 - 1e-17`, `1e308 + 1e308`, and the strings of two
of them. -/
theorem binary64_samples :
    (jsonNumber (1 / 10)).add (jsonNumber (2 / 10)) =
      some (jsonNumber (30000000000000004 / (10 ^ 17 : ℕ))) ∧
    (jsonNumber (1005 / 1000)).mul 100 =
      some (jsonNumber (10049999999999999 / (10 ^ 14 : ℕ))) ∧
    (jsonNumber (7 / 100)).mul 100 = some (jsonNumber (7000000000000001 / (10 ^ 15 : ℕ))) ∧
    (JSNumber.finite ((2 ^ 53 : ℕ) : ℚ)).add 1 = some (JSNumber.finite ((2 ^ 53 : ℕ) : ℚ)) ∧
    (3 : JSNumber).sub (jsonNumber (1 / (10 ^ 17 : ℕ))) = some 3 ∧
    (tenToThe 308).add (tenToThe 308) = some JSNumber.infinity ∧
    ((jsonNumber (1 / 10)).add (jsonNumber (2 / 10))).map numberToString =
      some "0.30000000000000004" ∧
    ((jsonNumber (1005 / 1000)).mul 100).map numberToString = some "100.49999999999999" := by
  decide!

/-! ## Lemmas on validation and `save` -/

theorem validatePrice_eq_none (p : JSNumber) : validatePrice p = none ↔ 0 < p := by
  unfold validatePrice
  by_cases h1 : p ≥ 0
  · by_cases h2 : p > 0
    · simp [h1, h2]
    · simp only [gt_iff_lt] at h2
      simp [h1, h2]
  · have h2 : ¬ (0 < p) := fun h => h1 h.le
    simp [h1, h2]

theorem validateQuantity_eq_none (q : JSNumber) : validateQuantity q = none ↔ 0 ≤ q := by
  unfold validateQuantity
  by_cases h : q ≥ 0
  · simp [h, ge_iff_le.mp h]
  · simp only [ge_iff_le] at h
    simp [h]

theorem validate_eq_nil_iff (s : Sweet) :
    s.validate = [] ↔ validateName s.name = none ∧ validateCategory s.category = none ∧
      0 < s.price ∧ 0 ≤ s.quantity := by
  rw [← validatePrice_eq_none, ← validateQuantity_eq_none]
  unfold Sweet.validate
  cases validateName s.name <;> cases validateCategory s.category <;>
    cases validatePrice s.price <;> cases validateQuantity s.quantity <;> simp

theorem JSNumber.hundred_def : (100 : JSNumber) = JSNumber.finite 100 :=
  JSNumber.ofNat_def 100

theorem roundToCents_finite (p : ℚ) :
    roundToCents (JSNumber.finite p) = (mathRound (roundDouble (p * 100))).div 100 := by
  simp [roundToCents, JSNumber.hundred_def, JSNumber.mul]

theorem div_hundred_ne_none (y : JSNumber) : y.div 100 ≠ none := by
  rw [JSNumber.hundred_def]
  cases y <;> simp [JSNumber.div]

theorem roundToCents_ne_none (p : JSNumber) : roundToCents p ≠ none := by
  cases p with
  | finite a => rw [roundToCents_finite]; exact div_hundred_ne_none _
  | infinity => decide!
  | negInfinity => decide!

theorem preSave_id (s : Sweet) : (preSave s)._id = s._id := by
  unfold preSave
  by_cases hp : s.price = 0 <;> by_cases hq : s.quantity = 0 <;>
    cases roundToCents s.price <;> simp [hp, hq]

theorem preSave_name (s : Sweet) : (preSave s).name = s.name := by
  unfold preSave
  by_cases hp : s.price = 0 <;> by_cases hq : s.quantity = 0 <;>
    cases roundToCents s.price <;> simp [hp, hq]

theorem preSave_category (s : Sweet) : (preSave s).category = s.category := by
  unfold preSave
  by_cases hp : s.price = 0 <;> by_cases hq : s.quantity = 0 <;>
    cases roundToCents s.price <;> simp [hp, hq]

theorem mathFloor_zero : mathFloor 0 = 0 := by decide!

theorem preSave_quantity (s : Sweet) : (preSave s).quantity = mathFloor s.quantity := by
  unfold preSave
  by_cases hp : s.price = 0 <;> by_cases hq : s.quantity = 0 <;>
    cases roundToCents s.price <;> simp [hp, hq, mathFloor_zero]

theorem roundToCents_zero : roundToCents 0 = some 0 := by decide!

theorem preSave_price (s : Sweet) : roundToCents s.price = some (preSave s).price := by
  unfold preSave
  by_cases hp : s.price = 0
  · by_cases hq : s.quantity = 0 <;> simp [hp, hq, roundToCents_zero]
  · cases hr : roundToCents s.price with
    | none => exact absurd hr (roundToCents_ne_none _)
    | some r => by_cases hq : s.quantity = 0 <;> simp [hp, hq]

theorem save_of_valid (s : Sweet) (db : Store) (h : s.validate = []) :
    s.save db = { error := none, doc := preSave s, store := db.write (preSave s) } := by
  unfold Sweet.save; rw [h]

theorem save_of_invalid (s : Sweet) (db : Store) (h : s.validate ≠ []) :
    s.save db = { error := some (validationError s.validate), doc := s, store := db } := by
  unfold Sweet.save
  cases hv : s.validate with
  | nil => exact absurd hv h
  | cons e es => rfl

theorem save_error_eq_none_iff (s : Sweet) (db : Store) :
    (s.save db).error = none ↔ s.validate = [] := by
  by_cases h : s.validate = []
  · simp [save_of_valid s db h, h]
  · simp [save_of_invalid s db h, h]

theorem mem_write (db : Store) (s d : Sweet) (h : d ∈ (db.write s).docs) :
    d = s ∨ d ∈ db.docs := by
  unfold Store.write at h
  split_ifs at h
  · simp only [List.mem_map] at h
    obtain ⟨a, ha, rfl⟩ := h
    split_ifs
    · exact Or.inl rfl
    · exact Or.inr ha
  · simp only [List.mem_append, List.mem_singleton] at h
    exact h.symm

theorem mem_deleteOne (db : Store) (id : Nat) (d : Sweet) (h : d ∈ (db.deleteOne id).docs) :
    d ∈ db.docs := by
  unfold Store.deleteOne at h
  exact (List.mem_filter.mp h).1

theorem find_map_replace (l : List Sweet) (s : Sweet)
    (h : l.any (fun d => d._id == s._id) = true) :
    (l.map fun d => if d._id == s._id then s else d).find? (fun d => d._id == s._id) = some s := by
  induction l with
  | nil => simp at h
  | cons a t ih =>
    by_cases ha : a._id = s._id
    · simp [ha]
    · have ht : t.any (fun d => d._id == s._id) = true := by
        simpa [ha] using h
      rw [List.map_cons, List.find?_cons]
      have hb : ((if (a._id == s._id) = true then s else a)._id == s._id) = false := by
        simp [ha]
      rw [hb]
      exact ih ht

theorem findById_write (db : Store) (s : Sweet) : (db.write s).findById s._id = some s := by
  unfold Store.write Store.findById
  split_ifs with h
  · exact find_map_replace db.docs s h
  · rw [List.find?_append]
    have : db.docs.find? (fun d => d._id == s._id) = none := by
      rw [List.find?_eq_none]
      intro x hx hxs
      exact h (List.any_eq_true.mpr ⟨x, hx, hxs⟩)
    simp [this]

theorem findById_save (s : Sweet) (db : Store) (h : (s.save db).error = none) :
    (s.save db).store.findById s._id = some (s.save db).doc := by
  rw [save_of_valid s db ((save_error_eq_none_iff s db).mp h)]
  have := findById_write db (preSave s)
  rwa [preSave_id] at this

theorem save_quantity (s : Sweet) (db : Store) (h : (s.save db).error = none) :
    (s.save db).doc.quantity = mathFloor s.quantity := by
  rw [save_of_valid s db ((save_error_eq_none_iff s db).mp h)]
  exact preSave_quantity s

/-! ## Stock mutation: `canPurchase`, `purchase`, `restock` -/

theorem canPurchase_eq_true_iff (s : Sweet) (q : JSNumber) :
    (s.canPurchase q).1 = true ↔ (q > 0 ∧ q ≤ s.quantity) := by
  simp only [Sweet.canPurchase, Bool.and_eq_true, decide_eq_true_eq, ge_iff_le, gt_iff_lt]
  exact And.comm

/-- C1: `canPurchase(requestedQuantity)` returns true if and only if
`requestedQuantity > 0` and `requestedQuantity <= quantity`, and the call leaves
the item unchanged. -/
theorem canPurchase_iff (s : Sweet) (requestedQuantity : JSNumber) :
    ((s.canPurchase requestedQuantity).1 = true ↔
      (requestedQuantity > 0 ∧ requestedQuantity ≤ s.quantity)) ∧
    (s.canPurchase requestedQuantity).2 = s :=
  ⟨canPurchase_eq_true_iff s requestedQuantity, rfl⟩

theorem purchase_of_canPurchase (s : Sweet) (q : JSNumber) (db : Store)
    (h : (s.canPurchase q).1 = true) :
    s.purchase q db = s.setQuantityAndSave (s.quantity.sub q) db := by
  have h1 : (decide (s.quantity ≥ q) && decide (q > 0)) = true := h
  simp [Sweet.purchase, Sweet.canPurchase, h1]

theorem purchase_of_not_canPurchase (s : Sweet) (q : JSNumber) (db : Store)
    (h : (s.canPurchase q).1 = false) :
    s.purchase q db =
      { error := some (JSError.mkError "Insufficient stock or invalid quantity"),
        doc := s, store := db } := by
  have h1 : (decide (s.quantity ≥ q) && decide (q > 0)) = false := h
  simp [Sweet.purchase, Sweet.canPurchase, h1]

theorem sub_natCast (a b : ℕ) (hb : b ≤ a) (ha : a < 2 ^ 53) :
    (JSNumber.finite a).sub (JSNumber.finite b) = some (JSNumber.finite ((a - b : ℕ) : ℚ)) := by
  have h := roundDouble_natCast (a - b) (by omega)
  rw [Nat.cast_sub hb] at h
  simp only [JSNumber.sub, JSNumber.neg, JSNumber.add]
  rw [← sub_eq_add_neg, h, Nat.cast_sub hb]

theorem add_natCast (a b : ℕ) (h : a + b < 2 ^ 53) :
    (JSNumber.finite a).add (JSNumber.finite b) = some (JSNumber.finite ((a + b : ℕ) : ℚ)) := by
  have h1 := roundDouble_natCast (a + b) h
  rw [Nat.cast_add] at h1
  simp only [JSNumber.add]
  rw [h1, Nat.cast_add]

theorem mathFloor_natCast (n : ℕ) : mathFloor (JSNumber.finite n) = JSNumber.finite n := by
  simp [mathFloor]

/-- C2 (as stated, refuted): buying 1.5 of the five Choco Bars succeeds, yet the
stored quantity afterwards is 3 and not 5 - 1.5 = 3.5; and buying `1e-17` of
three succeeds and leaves three, the binary64 difference. -/
theorem purchase_exact_difference_counterexample :
    ¬ ((chocoBar.purchase (JSNumber.finite (3 / 2)) Store.empty).error = none →
        (JSNumber.finite (3 / 2) > 0 ∧ JSNumber.finite (3 / 2) ≤ chocoBar.quantity ∧
          ((chocoBar.purchase (JSNumber.finite (3 / 2)) Store.empty).store.findById
            chocoBar._id).map Sweet.quantity =
              chocoBar.quantity.sub (JSNumber.finite (3 / 2)))) ∧
    (0 < jsonNumber (1 / (10 ^ 17 : ℕ)) ∧
      (({ chocoBar with quantity := 3 } : Sweet).purchase (jsonNumber (1 / (10 ^ 17 : ℕ)))
        Store.empty).error = none ∧
      (({ chocoBar with quantity := 3 } : Sweet).purchase (jsonNumber (1 / (10 ^ 17 : ℕ)))
        Store.empty).doc.quantity = 3) := by
  decide!

/-- C2 (amended): if `purchase(q)` succeeds then `q > 0`, `q` is at most the
quantity before the call, and the item stored afterwards has as quantity
`Math.floor` of the binary64 difference of the quantity before and `q`; for
whole numbers below `2 ^ 53` that is the exact difference. -/
theorem purchase_success (s : Sweet) (q : JSNumber) (db : Store)
    (h : (s.purchase q db).error = none) :
    q > 0 ∧ q ≤ s.quantity ∧
    (s.purchase q db).store.findById s._id = some (s.purchase q db).doc ∧
    (∃ difference, s.quantity.sub q = some difference ∧
      (s.purchase q db).doc.quantity = mathFloor difference) ∧
    (∀ a b : ℕ, s.quantity = JSNumber.finite a → q = JSNumber.finite b → a < 2 ^ 53 →
      (s.purchase q db).doc.quantity = JSNumber.finite ((a - b : ℕ) : ℚ) ∧
      ((a - b : ℕ) : ℚ) = (a : ℚ) - b) := by
  cases hc : (s.canPurchase q).1 with
  | false => rw [purchase_of_not_canPurchase s q db hc] at h; simp at h
  | true =>
    have hq := (canPurchase_eq_true_iff s q).mp hc
    have hp := purchase_of_canPurchase s q db hc
    cases hd : s.quantity.sub q with
    | none =>
      rw [hp, hd] at h
      simp [Sweet.setQuantityAndSave] at h
    | some d =>
      rw [hd] at hp
      change s.purchase q db = Sweet.save { s with quantity := d } db at hp
      rw [hp] at h ⊢
      refine ⟨hq.1, hq.2, findById_save _ db h, ⟨d, rfl, save_quantity _ db h⟩, ?_⟩
      intro a b ha hb hlt
      have hba : b ≤ a := by
        have := hq.2
        rw [ha, hb, JSNumber.finite_le_finite] at this
        exact_mod_cast this
      rw [ha, hb, sub_natCast a b hba hlt] at hd
      injection hd with hd
      refine ⟨?_, Nat.cast_sub hba⟩
      rw [save_quantity _ db h]
      show mathFloor d = _
      rw [← hd, mathFloor_natCast]

/-- Witness for `purchase_success`: buying two of the five Choco Bars. -/
theorem purchase_success_witness :
    (chocoBar.purchase 2 Store.empty).error = none ∧
    (chocoBar.purchase 2 Store.empty).doc.quantity = JSNumber.finite ((5 - 2 : ℕ) : ℚ) :=
  ⟨by decide!,
   ((purchase_success chocoBar 2 Store.empty (by decide!)).2.2.2.2 5 2 (by decide!) (by decide!)
      (by norm_num)).1⟩

/-- C3: `purchase(q)` with `q <= 0` or `q` above the item's quantity fails, in
both cases with the same error, and leaves the item and the store as they
were. -/
theorem purchase_rejected (s : Sweet) (q : JSNumber) (db : Store)
    (h : q ≤ 0 ∨ q > s.quantity) :
    (s.purchase q db).error = some (JSError.mkError "Insufficient stock or invalid quantity") ∧
    (s.purchase q db).doc = s ∧ (s.purchase q db).store = db := by
  have hc : (s.canPurchase q).1 = false := by
    rcases h with h | h
    · simp [Sweet.canPurchase, not_lt.mpr h]
    · simp [Sweet.canPurchase, not_le.mpr h]
  rw [purchase_of_not_canPurchase s q db hc]
  exact ⟨rfl, rfl, rfl⟩

/-- Witness for `purchase_rejected`: `purchase(0)`, `purchase(-1)` and
`purchase(quantity + 1)` on the five Choco Bars. -/
theorem purchase_rejected_witness :
    ((chocoBar.purchase 0 Store.empty).error =
        some (JSError.mkError "Insufficient stock or invalid quantity") ∧
      (chocoBar.purchase 0 Store.empty).doc = chocoBar ∧
      (chocoBar.purchase 0 Store.empty).store = Store.empty) ∧
    ((chocoBar.purchase (JSNumber.finite (-1)) Store.empty).error =
        some (JSError.mkError "Insufficient stock or invalid quantity") ∧
      (chocoBar.purchase (JSNumber.finite (-1)) Store.empty).doc = chocoBar ∧
      (chocoBar.purchase (JSNumber.finite (-1)) Store.empty).store = Store.empty) ∧
    ((chocoBar.purchase 6 Store.empty).error =
        some (JSError.mkError "Insufficient stock or invalid quantity") ∧
      (chocoBar.purchase 6 Store.empty).doc = chocoBar ∧
      (chocoBar.purchase 6 Store.empty).store = Store.empty) ∧
    chocoBar.quantity.add 1 = some 6 :=
  ⟨purchase_rejected chocoBar 0 Store.empty (Or.inl le_rfl),
   purchase_rejected chocoBar (JSNumber.finite (-1)) Store.empty (Or.inl (by decide!)),
   purchase_rejected chocoBar 6 Store.empty (Or.inr (by decide!)),
   by decide!⟩

theorem restock_of_pos (s : Sweet) (q : JSNumber) (db : Store) (h : 0 < q) :
    s.restock q db = s.setQuantityAndSave (s.quantity.add q) db := by
  simp [Sweet.restock, not_le.mpr h]

theorem restock_of_nonpos (s : Sweet) (q : JSNumber) (db : Store) (h : q ≤ 0) :
    s.restock q db =
      { error := some (JSError.mkError "Restock quantity must be positive"),
        doc := s, store := db } := by
  simp [Sweet.restock, h]

/-- C4 (as stated, refuted): restocking the five Choco Bars by 1.5 succeeds, yet
the stored quantity afterwards is 6 and not 5 + 1.5 = 6.5; and restocking three
by 0.9999999999999999 stores four, the binary64 sum. -/
theorem restock_exact_sum_counterexample :
    ¬ ((chocoBar.restock (JSNumber.finite (3 / 2)) Store.empty).error = none →
        (JSNumber.finite (3 / 2) > 0 ∧
          ((chocoBar.restock (JSNumber.finite (3 / 2)) Store.empty).store.findById
            chocoBar._id).map Sweet.quantity =
              chocoBar.quantity.add (JSNumber.finite (3 / 2)))) ∧
    (jsonNumber (9999999999999999 / (10 ^ 16 : ℕ)) < 1 ∧
      (({ chocoBar with quantity := 3 } : Sweet).restock
        (jsonNumber (9999999999999999 / (10 ^ 16 : ℕ))) Store.empty).error = none ∧
      (({ chocoBar with quantity := 3 } : Sweet).restock
        (jsonNumber (9999999999999999 / (10 ^ 16 : ℕ))) Store.empty).doc.quantity = 4) := by
  decide!

/-- C4 (amended): if `restock(q)` succeeds then `q > 0` and the item stored
afterwards has as quantity `Math.floor` of the binary64 sum of the quantity
before and `q`; for whole numbers with a sum below `2 ^ 53` that is the exact
sum. -/
theorem restock_success (s : Sweet) (q : JSNumber) (db : Store)
    (h : (s.restock q db).error = none) :
    q > 0 ∧
    (s.restock q db).store.findById s._id = some (s.restock q db).doc ∧
    (∃ sum, s.quantity.add q = some sum ∧ (s.restock q db).doc.quantity = mathFloor sum) ∧
    (∀ a b : ℕ, s.quantity = JSNumber.finite a → q = JSNumber.finite b → a + b < 2 ^ 53 →
      (s.restock q db).doc.quantity = JSNumber.finite ((a + b : ℕ) : ℚ)) := by
  rcases le_or_lt q 0 with hq | hq
  · rw [restock_of_nonpos s q db hq] at h; simp at h
  · have hp := restock_of_pos s q db hq
    cases hd : s.quantity.add q with
    | none =>
      rw [hp, hd] at h
      simp [Sweet.setQuantityAndSave] at h
    | some d =>
      rw [hd] at hp
      change s.restock q db = Sweet.save { s with quantity := d } db at hp
      rw [hp] at h ⊢
      refine ⟨hq, findById_save _ db h, ⟨d, rfl, save_quantity _ db h⟩, ?_⟩
      intro a b ha hb hlt
      rw [ha, hb, add_natCast a b hlt] at hd
      injection hd with hd
      rw [save_quantity _ db h]
      show mathFloor d = _
      rw [← hd, mathFloor_natCast]

/-- Witness for `restock_success`: restocking the five Choco Bars by two. -/
theorem restock_success_witness :
    (chocoBar.restock 2 Store.empty).error = none ∧
    (chocoBar.restock 2 Store.empty).doc.quantity = JSNumber.finite ((5 + 2 : ℕ) : ℚ) :=
  ⟨by decide!,
   (restock_success chocoBar 2 Store.empty (by decide!)).2.2.2 5 2 (by decide!) (by decide!)
      (by norm_num)⟩

theorem add_nonneg_of_pos (a q : JSNumber) (ha : 0 ≤ a) (hq : 0 < q) :
    ∃ sum, a.add q = some sum ∧ 0 ≤ sum := by
  cases a with
  | negInfinity => exact absurd ha (by decide!)
  | infinity =>
    cases q with
    | negInfinity => exact absurd hq (by decide!)
    | infinity => exact ⟨_, rfl, by decide!⟩
    | finite b => exact ⟨_, rfl, by decide!⟩
  | finite x =>
    cases q with
    | negInfinity => exact absurd hq (by decide!)
    | infinity => exact ⟨_, rfl, by decide!⟩
    | finite b =>
      rw [JSNumber.zero_def, JSNumber.finite_le_finite] at ha
      rw [JSNumber.zero_def, JSNumber.finite_lt_finite] at hq
      exact ⟨_, rfl, roundDouble_nonneg _ (by linarith)⟩

theorem restock_fails_iff_of_valid (s : Sweet) (q : JSNumber) (db : Store)
    (hs : s.validate = []) :
    ((s.restock q db).error ≠ none ↔ q ≤ 0) ∧
    ((s.restock q db).error ≠ none →
      (s.restock q db).doc = s ∧ (s.restock q db).store = db) := by
  rcases le_or_lt q 0 with hq | hq
  · rw [restock_of_nonpos s q db hq]
    simp [hq]
  · have hs' := (validate_eq_nil_iff s).mp hs
    obtain ⟨sum, hsum, h0⟩ := add_nonneg_of_pos s.quantity q hs'.2.2.2 hq
    have hv : ({ s with quantity := sum } : Sweet).validate = [] :=
      (validate_eq_nil_iff _).mpr ⟨hs'.1, hs'.2.1, hs'.2.2.1, h0⟩
    have hr : s.restock q db = Sweet.save { s with quantity := sum } db := by
      rw [restock_of_pos s q db hq, hsum]; rfl
    rw [hr, save_of_valid _ db hv]
    simp [not_le.mpr hq]

/-- C5 (failing input): the Gum is in the store with price 0 after a create
request with price 0.004; on it `restock(1)` fails although 1 is not `<= 0`,
the failed call leaves the quantity of the document at 2, not at 1, and the
restock endpoint answers 500. On an item that satisfies the schema,
`restock(q)` fails if and only if `q <= 0`, and a failed call leaves the item
and the store as they were. -/
theorem restock_fails_on_zero_price_item :
    (processAll [Request.create gumBody] Store.empty).findById 0 = some gum ∧
    (gum.restock 1 (processAll [Request.create gumBody] Store.empty)).error ≠ none ∧
    ¬ ((1 : JSNumber) ≤ 0) ∧
    gum.quantity = 1 ∧
    (gum.restock 1 (processAll [Request.create gumBody] Store.empty)).doc.quantity = 2 ∧
    (gum.restock 1 (processAll [Request.create gumBody] Store.empty)).store =
      processAll [Request.create gumBody] Store.empty ∧
    (restockSweet (IdParam.oid 0) (some 1)
        (processAll [Request.create gumBody] Store.empty)).1 =
      Response.failure 500 "Sweet validation failed: price: Price must be greater than 0" ∧
    (∀ (s : Sweet) (q : JSNumber) (db : Store), s.validate = [] →
      ((s.restock q db).error ≠ none ↔ q ≤ 0) ∧
      ((s.restock q db).error ≠ none →
        (s.restock q db).doc = s ∧ (s.restock q db).store = db)) := by
  refine ⟨by decide!, by decide!, by decide!, by decide!, by decide!, by decide!, by decide!,
    ?_⟩
  intro s q db hs
  exact restock_fails_iff_of_valid s q db hs

/-! ## Virtuals -/

theorem JSNumber.five_def : (5 : JSNumber) = JSNumber.finite 5 :=
  JSNumber.ofNat_def 5

/-- C9: for a quantity that is a non-negative integer `n`, `stockStatus` is
"Out of Stock" if `n = 0`, "Low Stock" if `0 < n < 5`, and "In Stock" if
`n >= 5`. -/
theorem stockStatus_by_quantity (s : Sweet) (n : ℕ) (h : s.quantity = JSNumber.finite n) :
    (n = 0 → s.stockStatus = "Out of Stock") ∧
    (0 < n ∧ n < 5 → s.stockStatus = "Low Stock") ∧
    (5 ≤ n → s.stockStatus = "In Stock") := by
  unfold Sweet.stockStatus
  simp only [h, JSNumber.zero_def, JSNumber.five_def, JSNumber.finite_lt_finite,
    JSNumber.finite.injEq]
  refine ⟨?_, ?_, ?_⟩
  · intro h0
    simp [h0]
  · rintro ⟨h0, h5⟩
    have h0' : ¬ ((n : ℚ) = 0) := by exact_mod_cast h0.ne'
    have h5' : (n : ℚ) < 5 := by exact_mod_cast h5
    simp [h0', h5']
  · intro h5
    have h0' : ¬ ((n : ℚ) = 0) := by
      have : 0 < n := by omega
      exact_mod_cast this.ne'
    have h5' : ¬ ((n : ℚ) < 5) := by
      have : (5 : ℚ) ≤ n := by exact_mod_cast h5
      linarith
    simp [h0', h5']

/-- Witness for `stockStatus_by_quantity`: the boundaries 4, 5 and 0. -/
theorem stockStatus_boundaries :
    ({ chocoBar with quantity := 4 } : Sweet).stockStatus = "Low Stock" ∧
    ({ chocoBar with quantity := 5 } : Sweet).stockStatus = "In Stock" ∧
    ({ chocoBar with quantity := 0 } : Sweet).stockStatus = "Out of Stock" :=
  ⟨(stockStatus_by_quantity { chocoBar with quantity := 4 } 4 rfl).2.1
      ⟨by decide, by decide⟩,
   (stockStatus_by_quantity { chocoBar with quantity := 5 } 5 rfl).2.2 (by decide),
   (stockStatus_by_quantity { chocoBar with quantity := 0 } 0 rfl).1 rfl⟩

/-- C10: `inStock` is true if and only if `quantity > 0`; hence, for a
non-negative quantity, `inStock` is false exactly when `stockStatus` is
"Out of Stock". -/
theorem inStock_iff (s : Sweet) :
    (s.inStock = true ↔ s.quantity > 0) ∧
    (0 ≤ s.quantity → (s.inStock = false ↔ s.stockStatus = "Out of Stock")) := by
  refine ⟨by simp [Sweet.inStock], ?_⟩
  intro hq
  unfold Sweet.inStock Sweet.stockStatus
  by_cases h0 : s.quantity = 0
  · simp [h0]
  · have hpos : 0 < s.quantity := lt_of_le_of_ne hq (Ne.symm h0)
    by_cases h5 : s.quantity < 5
    · simp [h0, h5, hpos]
    · simp [h0, h5, hpos]

/-- Witness for `inStock_iff`: the five Choco Bars and a sold-out item. -/
theorem inStock_iff_witness :
    (chocoBar.inStock = false ↔ chocoBar.stockStatus = "Out of Stock") ∧
    (({ chocoBar with quantity := 0 } : Sweet).inStock = false ↔
      ({ chocoBar with quantity := 0 } : Sweet).stockStatus = "Out of Stock") :=
  ⟨(inStock_iff chocoBar).2 (by decide!),
   (inStock_iff { chocoBar with quantity := 0 }).2 (by decide!)⟩

/-! ## Store invariants -/

theorem all_save (P : Sweet → Prop) (hP : ∀ s : Sweet, s.validate = [] → P (preSave s))
    (s : Sweet) (db : Store) (h : db.All P) : (s.save db).store.All P := by
  by_cases hv : s.validate = []
  · rw [save_of_valid s db hv]
    intro d hd
    rcases mem_write db (preSave s) d hd with rfl | hd
    · exact hP s hv
    · exact h d hd
  · rw [save_of_invalid s db hv]
    exact h

theorem all_setQuantityAndSave (P : Sweet → Prop)
    (hP : ∀ s : Sweet, s.validate = [] → P (preSave s))
    (s : Sweet) (value : Option JSNumber) (db : Store) (h : db.All P) :
    (s.setQuantityAndSave value db).store.All P := by
  cases value with
  | none => exact h
  | some quantity => exact all_save P hP _ db h

theorem all_purchase (P : Sweet → Prop) (hP : ∀ s : Sweet, s.validate = [] → P (preSave s))
    (s : Sweet) (q : JSNumber) (db : Store) (h : db.All P) : (s.purchase q db).store.All P := by
  cases hc : (s.canPurchase q).1 with
  | false => rw [purchase_of_not_canPurchase s q db hc]; exact h
  | true => rw [purchase_of_canPurchase s q db hc]; exact all_setQuantityAndSave P hP _ _ db h

theorem all_restock (P : Sweet → Prop) (hP : ∀ s : Sweet, s.validate = [] → P (preSave s))
    (s : Sweet) (q : JSNumber) (db : Store) (h : db.All P) : (s.restock q db).store.All P := by
  rcases le_or_lt q 0 with hq | hq
  · rw [restock_of_nonpos s q db hq]; exact h
  · rw [restock_of_pos s q db hq]; exact all_setQuantityAndSave P hP _ _ db h

theorem all_createSweet (P : Sweet → Prop)
    (hP : ∀ s : Sweet, s.validate = [] → P (preSave s))
    (body : SweetBody) (db : Store) (h : db.All P) : (createSweet body db).2.All P := by
  unfold createSweet
  split
  · split_ifs
    · exact h
    · exact h
    · exact h
    · dsimp only
      split <;> exact all_setQuantityAndSave P hP _ _ db h
  · exact h

theorem all_saveUpdate (P : Sweet → Prop)
    (hP : ∀ s : Sweet, s.validate = [] → P (preSave s))
    (sweet : Sweet) (body : SweetBody) (db : Store) (h : db.All P) :
    (saveUpdate sweet body db).store.All P := by
  unfold saveUpdate
  split
  · exact all_setQuantityAndSave P hP _ _ db h
  · exact all_save P hP _ db h

theorem all_updateSweet (P : Sweet → Prop)
    (hP : ∀ s : Sweet, s.validate = [] → P (preSave s))
    (id : IdParam) (body : SweetBody) (db : Store) (h : db.All P) :
    (updateSweet id body db).2.All P := by
  unfold updateSweet
  split
  · exact h
  · exact h
  · split_ifs
    · exact h
    · exact h
    · dsimp only
      split <;> exact all_saveUpdate P hP _ _ db h

theorem all_deleteSweet (P : Sweet → Prop) (id : IdParam) (db : Store) (h : db.All P) :
    (deleteSweet id db).2.All P := by
  unfold deleteSweet
  split
  · exact h
  · exact h
  · intro d hd
    exact h d (mem_deleteOne db _ d hd)

theorem all_purchaseSweet (P : Sweet → Prop)
    (hP : ∀ s : Sweet, s.validate = [] → P (preSave s))
    (id : IdParam) (quantity : Option JSNumber) (db : Store) (h : db.All P) :
    (purchaseSweet id quantity db).2.All P := by
  unfold purchaseSweet
  split
  · exact h
  · split_ifs
    · exact h
    · split
      · exact h
      · exact h
      · split_ifs
        · exact h
        · dsimp only
          split <;> exact all_purchase P hP _ _ db h

theorem all_restockSweet (P : Sweet → Prop)
    (hP : ∀ s : Sweet, s.validate = [] → P (preSave s))
    (id : IdParam) (quantity : Option JSNumber) (db : Store) (h : db.All P) :
    (restockSweet id quantity db).2.All P := by
  unfold restockSweet
  split
  · exact h
  · split_ifs
    · exact h
    · split
      · exact h
      · exact h
      · dsimp only
        split <;> exact all_restock P hP _ _ db h

theorem all_handle (P : Sweet → Prop) (hP : ∀ s : Sweet, s.validate = [] → P (preSave s))
    (req : Request) (db : Store) (h : db.All P) : (handle req db).2.All P := by
  cases req with
  | create body => exact all_createSweet P hP body db h
  | update id body => exact all_updateSweet P hP id body db h
  | delete id => exact all_deleteSweet P id db h
  | purchase id quantity => exact all_purchaseSweet P hP id quantity db h
  | restock id quantity => exact all_restockSweet P hP id quantity db h

theorem all_processAll (P : Sweet → Prop)
    (hP : ∀ s : Sweet, s.validate = [] → P (preSave s))
    (reqs : List Request) (db : Store) (h : db.All P) : (processAll reqs db).All P := by
  induction reqs generalizing db with
  | nil => exact h
  | cons req rest ih => exact ih _ (all_handle P hP req db h)

theorem all_empty (P : Sweet → Prop) : Store.empty.All P := by
  intro d hd
  simp [Store.empty] at hd

theorem mathFloor_nonneg (q : JSNumber) (h : 0 ≤ q) : 0 ≤ mathFloor q := by
  cases q with
  | negInfinity => exact absurd h (by decide!)
  | infinity => exact JSNumber.le_infinity _
  | finite x =>
    rw [JSNumber.zero_def, JSNumber.finite_le_finite] at h
    show (0 : JSNumber) ≤ JSNumber.finite _
    rw [JSNumber.zero_def, JSNumber.finite_le_finite]
    exact_mod_cast Int.floor_nonneg.mpr h

/-- C6: after any sequence of create, update, purchase, restock and delete
requests handled from the empty store, whether accepted or rejected, every
stored item has a quantity of at least zero. -/
theorem quantity_nonneg (reqs : List Request) (s : Sweet)
    (h : s ∈ (processAll reqs Store.empty).docs) : 0 ≤ s.quantity := by
  refine all_processAll (fun d => 0 ≤ d.quantity) ?_ reqs Store.empty (all_empty _) s h
  intro d hd
  show 0 ≤ (preSave d).quantity
  rw [preSave_quantity]
  exact mathFloor_nonneg _ ((validate_eq_nil_iff d).mp hd).2.2.2

/-- Witness for `quantity_nonneg`: a Choco Bar is created with five in stock,
two are bought, one and a half are added, an over-purchase is rejected. -/
theorem quantity_nonneg_witness :
    0 ≤ ({ chocoBar with quantity := 4 } : Sweet).quantity :=
  quantity_nonneg
    [Request.create chocoBarBody, Request.purchase (IdParam.oid 0) (some 2),
     Request.restock (IdParam.oid 0) (some (JSNumber.finite (3 / 2))),
     Request.purchase (IdParam.oid 0) (some 9)]
    { chocoBar with quantity := 4 } (by decide!)

/-- C7 (failing input): a create request with price 0.004 passes the checks of
`createSweet` and the schema validators, is answered 201, and the item is
stored with price 0. -/
theorem create_below_half_cent_stores_zero_price :
    (∀ r ∈ [Request.create gumBody], r.isCreateOrUpdate = true) ∧
    (handle (Request.create gumBody) Store.empty).1.status = 201 ∧
    (processAll [Request.create gumBody] Store.empty).docs =
      [{ _id := 0, name := "Gum", category := "Candy", price := 0, quantity := 1 }] ∧
    ∃ s ∈ (processAll [Request.create gumBody] Store.empty).docs, ¬ (s.price > 0) := by
  decide!

/-! ## Price rounding -/

theorem round_half_up_bounds (x : ℚ) :
    ((⌊x + 1 / 2⌋ : ℤ) : ℚ) - 1 / 2 ≤ x ∧ x < ((⌊x + 1 / 2⌋ : ℤ) : ℚ) + 1 / 2 := by
  have h1 := Int.floor_le (x + 1 / 2)
  have h2 := Int.lt_floor_add_one (x + 1 / 2)
  constructor <;> linarith

theorem floor_int_add_half (k : ℤ) : ⌊(k : ℚ) + 1 / 2⌋ = k := by
  rw [Int.floor_int_add]
  have : ⌊(1 / 2 : ℚ)⌋ = 0 := by norm_num
  rw [this, add_zero]

theorem roundToCents_of_product (p product : ℚ)
    (h : roundDouble (p * 100) = JSNumber.finite product) :
    roundToCents (JSNumber.finite p) =
      some (roundDouble (((⌊product + 1 / 2⌋ : ℤ) : ℚ) / 100)) := by
  rw [roundToCents_finite, h]
  simp [mathRound, JSNumber.hundred_def, JSNumber.div]

/-- C8 (as stated, refuted): the literal 1.005 denotes a binary64 value below
1.005, its product with 100 is below 100.5, and a create request with that price
stores 1, not 1.01; the price 0.005 is stored as 0.01, which is more than 0.005
away from it; the stored price 41821257202710.95 is rounded to
41821257202710.96 when the hook runs again; and one hundred times the stored
price 0.07 is not a whole number. -/
theorem saved_price_counterexample :
    (createSweet { name := some "Choco Bar", category := some "Chocolate",
                   price := some (jsonNumber (1005 / 1000)), quantity := some 10 }
      Store.empty).2.docs.map Sweet.price = [1] ∧
    (1 : JSNumber) ≠ jsonNumber (101 / 100) ∧
    jsonNumber (1005 / 1000) < JSNumber.finite (1005 / 1000) ∧
    (roundToCents (jsonNumber (5 / 1000)) = some (jsonNumber (1 / 100)) ∧
      jsonNumber (5 / 1000) = JSNumber.finite (5764607523034235 / 1152921504606846976) ∧
      JSNumber.finite (5764607523034235 / 1152921504606846976 + 5 / 1000) <
        jsonNumber (1 / 100)) ∧
    (roundToCents (jsonNumber (41821257202710945 / 1000)) =
        some (jsonNumber (4182125720271095 / 100)) ∧
      roundToCents (jsonNumber (4182125720271095 / 100)) =
        some (jsonNumber (4182125720271096 / 100)) ∧
      jsonNumber (4182125720271095 / 100) ≠ jsonNumber (4182125720271096 / 100)) ∧
    ((createSweet { name := some "Choco Bar", category := some "Chocolate",
                    price := some (jsonNumber (7 / 100)), quantity := some 10 }
      Store.empty).2.docs.map Sweet.price = [jsonNumber (7 / 100)] ∧
      ∀ k : ℤ, jsonNumber (7 / 100) ≠ JSNumber.finite ((k : ℚ) / 100)) := by
  refine ⟨by decide!, by decide!, by decide!, by decide!, by decide!, by decide!, ?_⟩
  intro k hk
  have h7 : jsonNumber (7 / 100) = JSNumber.finite (1261007895663739 / 18014398509481984) := by
    decide!
  rw [h7] at hk
  injection hk with hk
  have h1 : (k : ℚ) = 1261007895663739 / 18014398509481984 * 100 := by rw [hk]; ring
  have h2 : ((k * 4503599627370496 : ℤ) : ℚ) = ((31525197391593475 : ℤ) : ℚ) := by
    push_cast; rw [h1]; norm_num
  have h3 : k * 4503599627370496 = 31525197391593475 := by exact_mod_cast h2
  omega

theorem roundDouble_zero : roundDouble 0 = JSNumber.finite 0 := by decide!

theorem pow2_sub_nat (e : ℤ) (k : ℕ) : pow2 (e - k) = pow2 e / 2 ^ k := by
  rw [pow2_eq, pow2_eq, zpow_sub₀ (by norm_num), zpow_natCast]

theorem quantum_le (x : ℚ) (hx : x ≠ 0) :
    pow2 (quantumExponent x) ≤ |x| / 2 ^ 52 + pow2 (-1074) := by
  have hpos : 0 < |x| := abs_pos.mpr hx
  have h1 := floorLog2_le |x| hpos
  have h2 : pow2 (floorLog2 |x| - 52) = pow2 (floorLog2 |x|) / 2 ^ 52 := by
    have := pow2_sub_nat (floorLog2 |x|) 52
    simpa using this
  have h3 : pow2 (floorLog2 |x| - 52) ≤ |x| / 2 ^ 52 := by
    rw [h2]
    exact div_le_div_of_nonneg_right h1 (by positivity)
  have h4 := pow2_pos (-1074)
  have h5 := pow2_pos (floorLog2 |x| - 52)
  unfold quantumExponent
  rcases le_total (floorLog2 |x| - 52) (-1074) with h | h
  · rw [max_eq_right h]
    have : 0 ≤ |x| / 2 ^ 52 := by positivity
    linarith
  · rw [max_eq_left h]
    linarith

theorem nearest_multiple_error (x : ℚ) :
    |(roundHalfEven (x / pow2 (quantumExponent x)) : ℚ) * pow2 (quantumExponent x) - x| ≤
      pow2 (quantumExponent x) / 2 := by
  have hu := pow2_pos (quantumExponent x)
  have h := abs_roundHalfEven_sub_le (x / pow2 (quantumExponent x))
  have e : (roundHalfEven (x / pow2 (quantumExponent x)) : ℚ) * pow2 (quantumExponent x) - x =
      ((roundHalfEven (x / pow2 (quantumExponent x)) : ℚ) - x / pow2 (quantumExponent x)) *
        pow2 (quantumExponent x) := by
    field_simp
  rw [e, abs_mul, abs_of_pos hu]
  calc |(roundHalfEven (x / pow2 (quantumExponent x)) : ℚ) - x / pow2 (quantumExponent x)| *
        pow2 (quantumExponent x) ≤ 1 / 2 * pow2 (quantumExponent x) :=
        mul_le_mul_of_nonneg_right h hu.le
    _ = pow2 (quantumExponent x) / 2 := by ring

theorem pow2_neg_1074 : pow2 (-1074) / 2 = pow2 (-1075) := by
  have := pow2_sub_nat (-1074) 1
  simp only [pow_one] at this
  rw [← this]
  norm_num

/-- The rounding error of a finite binary64 result: at most the fraction
`2 ^ -53` of the value, or half the subnormal spacing. -/
theorem roundDouble_error (x r : ℚ) (h : roundDouble x = JSNumber.finite r) :
    |r - x| ≤ |x| / 2 ^ 53 + pow2 (-1075) := by
  by_cases hx : x = 0
  · subst hx
    rw [roundDouble_zero] at h
    injection h with h
    rw [← h]
    have := pow2_pos (-1075)
    simp only [sub_self, abs_zero, zero_div, zero_add]
    exact this.le
  · have hr : r = (roundHalfEven (x / pow2 (quantumExponent x)) : ℚ) *
        pow2 (quantumExponent x) := by
      unfold roundDouble at h
      split_ifs at h
      injection h with h
      exact h.symm
    rw [hr]
    have h1 := nearest_multiple_error x
    have h2 := quantum_le x hx
    have h3 := pow2_neg_1074
    have e : |x| / 2 ^ 53 = |x| / 2 ^ 52 / 2 := by ring
    rw [e]
    linarith

theorem pow2_1000_lt : 4 * pow2 1000 < pow2 1024 := by
  have h : pow2 1002 = 4 * pow2 1000 := by
    have := pow2_sub_nat 1002 2
    norm_num at this
    rw [this]
    have := pow2_pos 1002
    ring
  rw [← h]
  exact pow2_lt_pow2 (by norm_num)

theorem pow2_neg_1075_le : pow2 (-1075) ≤ 1 / 2 ^ 60 := by
  have h : pow2 (-60) = 1 / 2 ^ 60 := by
    rw [pow2_eq]
    norm_num [zpow_neg]
  rw [← h]
  exact pow2_le_pow2 (by norm_num)

theorem one_le_pow2_1000 : 1 ≤ pow2 1000 := by
  have h : pow2 0 = 1 := by decide!
  rw [← h]
  exact pow2_le_pow2 (by norm_num)

/-- Below `2 ^ 1000` in absolute value there is no overflow. -/
theorem roundDouble_finite (x : ℚ) (hx : |x| ≤ pow2 1000) :
    ∃ r : ℚ, roundDouble x = JSNumber.finite r := by
  by_cases h0 : x = 0
  · exact ⟨0, by rw [h0, roundDouble_zero]⟩
  · have h1 := nearest_multiple_error x
    have h2 := quantum_le x h0
    have h3 := pow2_neg_1074
    have h4 := pow2_neg_1075_le
    have h5 := pow2_1000_lt
    have h6 := one_le_pow2_1000
    have h7 : |x| / 2 ^ 52 ≤ |x| := by
      apply div_le_self (abs_nonneg x)
      norm_num
    have h8 := abs_le.mp h1
    have h9 := abs_le.mp (le_refl |x|)
    have h10 : (1 : ℚ) / 2 ^ 60 ≤ 1 := by norm_num
    unfold roundDouble
    rw [if_neg (by linarith [neg_abs_le x, le_abs_self x]),
      if_neg (by linarith [neg_abs_le x, le_abs_self x])]
    exact ⟨_, rfl⟩

theorem finite_nonneg_of_roundDouble (x r : ℚ) (hx : 0 ≤ x)
    (h : roundDouble x = JSNumber.finite r) : 0 ≤ r := by
  have := roundDouble_nonneg x hx
  rw [h, JSNumber.zero_def, JSNumber.finite_le_finite] at this
  exact this

theorem pow2_47 : pow2 47 = 2 ^ 47 := by
  have := pow2_natCast 47
  simpa using this

theorem le_pow2_1000 (x : ℚ) (h : x ≤ 2 ^ 47) : x ≤ pow2 1000 := by
  have h1 : pow2 47 ≤ pow2 1000 := pow2_le_pow2 (by norm_num)
  rw [pow2_47] at h1
  linarith

/-- Rounding to cents a price that is the binary64 value nearest to a whole
number of cents below `2 ^ 47` gives the same price again. -/
theorem roundToCents_cents (k : ℤ) (hk0 : 0 ≤ k) (hk : (k : ℚ) ≤ 2 ^ 47) (stored : ℚ)
    (hs : roundDouble ((k : ℚ) / 100) = JSNumber.finite stored) :
    roundToCents (JSNumber.finite stored) = some (JSNumber.finite stored) := by
  have hk0' : (0 : ℚ) ≤ k := by exact_mod_cast hk0
  have hs0 : 0 ≤ stored := finite_nonneg_of_roundDouble _ _ (by positivity) hs
  have e1 := roundDouble_error _ _ hs
  rw [abs_of_nonneg (by positivity : (0 : ℚ) ≤ (k : ℚ) / 100)] at e1
  have e1' := abs_le.mp e1
  have hη := pow2_neg_1075_le
  have hη0 := pow2_pos (-1075)
  have h60 : (1 : ℚ) / 2 ^ 60 ≤ 1 / 1000000 := by norm_num
  have hsle : stored ≤ 2 ^ 47 := by
    have : (k : ℚ) / 100 / 2 ^ 53 ≤ (k : ℚ) / 100 := div_le_self (by positivity) (by norm_num)
    have : (2 : ℚ) ^ 47 / 100 + 2 ^ 47 / 100 + 1 ≤ 2 ^ 47 := by norm_num
    linarith
  obtain ⟨product, hp⟩ := roundDouble_finite (stored * 100) (by
    rw [abs_of_nonneg (by positivity)]
    have : stored * 100 ≤ 2 ^ 47 * 100 := by linarith
    have h1 : pow2 54 ≤ pow2 1000 := pow2_le_pow2 (by norm_num)
    have h2 : pow2 54 = 2 ^ 54 := by
      have := pow2_natCast 54
      simpa using this
    rw [h2] at h1
    have h3 : (2 : ℚ) ^ 47 * 100 ≤ 2 ^ 54 := by norm_num
    linarith)
  have e2 := roundDouble_error _ _ hp
  rw [abs_of_nonneg (by positivity : (0 : ℚ) ≤ stored * 100)] at e2
  have e2' := abs_le.mp e2
  have hfloor : ⌊product + 1 / 2⌋ = k := by
    rw [Int.floor_eq_iff]
    have c1 : (k : ℚ) / 100 / 2 ^ 53 ≤ 2 ^ 47 / 100 / 2 ^ 53 := by
      apply div_le_div_of_nonneg_right _ (by positivity)
      exact div_le_div_of_nonneg_right hk (by norm_num)
    have c2 : stored * 100 / 2 ^ 53 ≤ 2 ^ 47 * 100 / 2 ^ 53 := by
      apply div_le_div_of_nonneg_right _ (by positivity)
      linarith
    have c3 : (2 : ℚ) ^ 47 / 100 / 2 ^ 53 = 1 / 6400 := by norm_num
    have c4 : (2 : ℚ) ^ 47 * 100 / 2 ^ 53 = 100 / 64 := by norm_num
    have c5 : stored * 100 / 2 ^ 53 = stored / 2 ^ 53 * 100 := by ring
    constructor <;> linarith
  rw [roundToCents_of_product stored product hp, hfloor, hs]

/-- C8 (amended): a price accepted on save is stored as the binary64 value of
`Math.round(p * 100) / 100`, product and quotient being binary64 operations:
the rounded product is the whole number nearest to the binary64 product, a tie
going up; the stored price differs from `p` by at most 0.005 plus the rounding
error of the two operations, together at most `(p + 1) / 2 ^ 51`; running the
hook again on the stored price changes nothing (for prices up to `2 ^ 40`); and
creating with the literal 1.005 stores 1, with 2.5 stores 2.5. -/
theorem saved_price_rounded (s : Sweet) (db : Store) (h : (s.save db).error = none) :
    (s.save db).store.findById s._id = some (s.save db).doc ∧
    roundToCents s.price = some (s.save db).doc.price ∧
    (∀ p product : ℚ, s.price = JSNumber.finite p →
      roundDouble (p * 100) = JSNumber.finite product →
      (s.save db).doc.price = roundDouble (((⌊product + 1 / 2⌋ : ℤ) : ℚ) / 100) ∧
      ((⌊product + 1 / 2⌋ : ℤ) : ℚ) - 1 / 2 ≤ product ∧
      product < ((⌊product + 1 / 2⌋ : ℤ) : ℚ) + 1 / 2 ∧
      (∀ k : ℤ, product = k + 1 / 2 →
        (s.save db).doc.price = roundDouble (((k + 1 : ℤ) : ℚ) / 100)) ∧
      (∀ stored : ℚ, (s.save db).doc.price = JSNumber.finite stored →
        |stored - p| ≤ 1 / 200 + (p + 1) / 2 ^ 51)) ∧
    (∀ p : ℚ, s.price = JSNumber.finite p → p ≤ 2 ^ 40 →
      (preSave (s.save db).doc).price = (s.save db).doc.price) ∧
    (createSweet { name := some "Choco Bar", category := some "Chocolate",
                   price := some (jsonNumber (1005 / 1000)), quantity := some 10 }
      Store.empty).2.docs.map Sweet.price = [1] ∧
    (createSweet { name := some "Choco Bar", category := some "Chocolate",
                   price := some (JSNumber.finite (5 / 2)), quantity := some 10 }
      Store.empty).2.docs.map Sweet.price = [JSNumber.finite (5 / 2)] := by
  have hv := (save_error_eq_none_iff s db).mp h
  have hpos : 0 < s.price := ((validate_eq_nil_iff s).mp hv).2.2.1
  have hdoc : (s.save db).doc = preSave s := by rw [save_of_valid s db hv]
  have hprice := preSave_price s
  have hη := pow2_neg_1075_le
  have hη0 := pow2_pos (-1075)
  refine ⟨findById_save s db h, by rw [hdoc]; exact hprice, ?_, ?_, by decide!, by decide!⟩
  · intro p product hp hprod
    have hp0 : 0 < p := by
      rw [hp, JSNumber.zero_def, JSNumber.finite_lt_finite] at hpos
      exact hpos
    have hformula : (s.save db).doc.price =
        roundDouble (((⌊product + 1 / 2⌋ : ℤ) : ℚ) / 100) := by
      rw [hdoc]
      rw [hp, roundToCents_of_product p product hprod] at hprice
      exact (Option.some.inj hprice).symm
    have hb := round_half_up_bounds product
    refine ⟨hformula, hb.1, hb.2, ?_, ?_⟩
    · intro k hk
      rw [hformula]
      have : ⌊product + 1 / 2⌋ = k + 1 := by
        rw [hk, add_assoc]
        norm_num
      rw [this]
    · intro stored hstored
      rw [hformula] at hstored
      have hprod0 : 0 ≤ product :=
        finite_nonneg_of_roundDouble _ _ (by positivity) hprod
      have hk0 : (0 : ℚ) ≤ ((⌊product + 1 / 2⌋ : ℤ) : ℚ) := by
        exact_mod_cast Int.floor_nonneg.mpr (by linarith : (0 : ℚ) ≤ product + 1 / 2)
      have e1 := roundDouble_error _ _ hprod
      rw [abs_of_nonneg (by positivity : (0 : ℚ) ≤ p * 100)] at e1
      have e1' := abs_le.mp e1
      have e2 := roundDouble_error _ _ hstored
      rw [abs_of_nonneg (by positivity : (0 : ℚ) ≤ ((⌊product + 1 / 2⌋ : ℤ) : ℚ) / 100)] at e2
      have e2' := abs_le.mp e2
      have h60 : (1 : ℚ) / 2 ^ 60 ≤ 1 / 2 ^ 53 := by norm_num
      have c1 : p * 100 / 2 ^ 53 = p / 2 ^ 53 * 100 := by ring
      have c2 : ((⌊product + 1 / 2⌋ : ℤ) : ℚ) / 100 / 2 ^ 53 =
          ((⌊product + 1 / 2⌋ : ℤ) : ℚ) / 2 ^ 53 / 100 := by ring
      have c3 : ((⌊product + 1 / 2⌋ : ℤ) : ℚ) / 2 ^ 53 ≤
          (p * 100 + p + 1) / 2 ^ 53 := by
        apply div_le_div_of_nonneg_right _ (by positivity)
        have : p / 2 ^ 53 * 100 ≤ p := by
          have : p / 2 ^ 53 * 100 = p * (100 / 2 ^ 53) := by ring
          rw [this]
          exact mul_le_of_le_one_right hp0.le (by norm_num)
        have : (1 : ℚ) / 2 ^ 60 ≤ 1 / 2 := by norm_num
        linarith
      have c4 : (p * 100 + p + 1) / 2 ^ 53 / 100 ≤ (p + 1) / 2 ^ 53 * 2 := by
        have : (p * 100 + p + 1) / 2 ^ 53 / 100 = (p * 101 / 100 + 1 / 100) / 2 ^ 53 := by ring
        rw [this]
        have : (p + 1) / 2 ^ 53 * 2 = (p * 2 + 2) / 2 ^ 53 := by ring
        rw [this]
        apply div_le_div_of_nonneg_right _ (by positivity)
        linarith
      have c5 : (p + 1) / 2 ^ 51 = (p + 1) / 2 ^ 53 * 4 := by ring
      have c6 : p / 2 ^ 53 ≤ (p + 1) / 2 ^ 53 :=
        div_le_div_of_nonneg_right (by linarith) (by positivity)
      have c7 : (1 : ℚ) / 2 ^ 53 ≤ (p + 1) / 2 ^ 53 :=
        div_le_div_of_nonneg_right (by linarith) (by positivity)
      rw [abs_le]
      constructor <;> linarith
  · intro p hp hle
    have hp0 : 0 < p := by
      rw [hp, JSNumber.zero_def, JSNumber.finite_lt_finite] at hpos
      exact hpos
    obtain ⟨product, hprod⟩ := roundDouble_finite (p * 100) (by
      rw [abs_of_nonneg (by positivity)]
      apply le_pow2_1000
      have : (2 : ℚ) ^ 40 * 100 ≤ 2 ^ 47 := by norm_num
      linarith)
    have hprod0 : 0 ≤ product := finite_nonneg_of_roundDouble _ _ (by positivity) hprod
    have e1 := roundDouble_error _ _ hprod
    rw [abs_of_nonneg (by positivity : (0 : ℚ) ≤ p * 100)] at e1
    have e1' := abs_le.mp e1
    have hk0 : 0 ≤ ⌊product + 1 / 2⌋ :=
      Int.floor_nonneg.mpr (by linarith : (0 : ℚ) ≤ product + 1 / 2)
    have hk : ((⌊product + 1 / 2⌋ : ℤ) : ℚ) ≤ 2 ^ 47 := by
      have hb := (round_half_up_bounds product).1
      have c1 : p * 100 / 2 ^ 53 ≤ 2 ^ 40 * 100 / 2 ^ 53 := by
        apply div_le_div_of_nonneg_right _ (by positivity)
        linarith
      have c2 : (2 : ℚ) ^ 40 * 100 + 2 ^ 40 * 100 / 2 ^ 53 + 1 / 2 ^ 60 + 1 / 2 ≤ 2 ^ 47 := by
        norm_num
      linarith
    have hk' : |((⌊product + 1 / 2⌋ : ℤ) : ℚ) / 100| ≤ pow2 1000 := by
      have hk0' : (0 : ℚ) ≤ ((⌊product + 1 / 2⌋ : ℤ) : ℚ) := by exact_mod_cast hk0
      rw [abs_of_nonneg (by positivity)]
      apply le_pow2_1000
      have : ((⌊product + 1 / 2⌋ : ℤ) : ℚ) / 100 ≤ ((⌊product + 1 / 2⌋ : ℤ) : ℚ) :=
        div_le_self hk0' (by norm_num)
      linarith
    obtain ⟨stored, hstored⟩ := roundDouble_finite _ hk'
    have hformula : (preSave s).price = JSNumber.finite stored := by
      rw [hp, roundToCents_of_product p product hprod, hstored] at hprice
      exact (Option.some.inj hprice).symm
    rw [hdoc]
    have h2 := preSave_price (preSave s)
    rw [hformula, roundToCents_cents _ hk0 hk stored hstored] at h2
    rw [hformula]
    exact (Option.some.inj h2).symm

/-- Witness for `saved_price_rounded`: saving a Choco Bar priced 1.005. -/
theorem saved_price_rounded_witness :
    roundToCents (jsonNumber (1005 / 1000)) =
      some (Sweet.save { chocoBar with price := jsonNumber (1005 / 1000) } Store.empty).doc.price ∧
    roundToCents (jsonNumber (1005 / 1000)) = some 1 :=
  ⟨(saved_price_rounded { chocoBar with price := jsonNumber (1005 / 1000) } Store.empty
      (by decide!)).2.1,
   by decide!⟩

/-! ## Search -/

theorem find_of_plain (query : Query) (db : Store)
    (hn : query.name = none) (hc : query.category = none)
    (hp : query.price.any (fun c => c.gte == some none || c.lte == some none) = false) :
    Sweet.find query db = Except.ok (db.docs.filter fun d =>
      query.price.all (fun c => c.holds d.price) &&
      query.quantity.all (fun c => c.holds d.quantity)) := by
  unfold Sweet.find
  rw [hp, hn, hc]
  simp [compileCondition]

theorem findBySearch_of_plain (p : SearchParams) (db : Store)
    (hn : (buildQuery p).name = none) (hc : (buildQuery p).category = none)
    (hp : (buildQuery p).price.any (fun c => c.gte == some none || c.lte == some none) = false) :
    Sweet.findBySearch p db = Except.ok (sortByName (db.docs.filter fun d =>
      (buildQuery p).price.all (fun c => c.holds d.price) &&
      (buildQuery p).quantity.all (fun c => c.holds d.quantity))) := by
  unfold Sweet.findBySearch
  simp only [hc]
  rw [find_of_plain _ db hn hc hp]
  rfl

/-- C11: with only numeric price bounds given, `findBySearch` returns (sorted by
name) exactly the items with `minPrice <= price` when `minPrice` is given and
`price <= maxPrice` when `maxPrice` is given; over prices 0.5, 2.5 and 5.0 the
bounds 1 and 3 return only the item priced 2.5. -/
theorem findBySearch_price_range (db : Store) (minPrice maxPrice : Option JSNumber) :
    Sweet.findBySearch
        { SearchParams.empty with minPrice := minPrice.map JSValue.number,
                                  maxPrice := maxPrice.map JSValue.number } db =
      Except.ok (sortByName (db.docs.filter fun d =>
        minPrice.all (fun lo => decide (lo ≤ d.price)) &&
        maxPrice.all (fun hi => decide (d.price ≤ hi)))) ∧
    (∀ d, d ∈ sortByName (db.docs.filter fun d =>
        minPrice.all (fun lo => decide (lo ≤ d.price)) &&
        maxPrice.all (fun hi => decide (d.price ≤ hi))) ↔
      d ∈ db.docs ∧ (∀ lo, minPrice = some lo → lo ≤ d.price) ∧
        (∀ hi, maxPrice = some hi → d.price ≤ hi)) ∧
    Sweet.findBySearch
        { SearchParams.empty with minPrice := some (JSValue.number 1),
                                  maxPrice := some (JSValue.number 3) } sampleCatalog =
      Except.ok [{ _id := 1, name := "Choco Bar", category := "Chocolate",
                   price := JSNumber.finite (5 / 2),
                   quantity := 3 }] := by
  refine ⟨?_, ?_, by decide!⟩
  · rw [findBySearch_of_plain]
    · congr 2
      apply List.filter_congr
      intro d _
      cases minPrice <;> cases maxPrice <;>
        simp [buildQuery, SearchParams.empty, PriceCondition.holds, JSValue.parseFloat,
          parseFloat]
    · rfl
    · rfl
    · cases minPrice <;> cases maxPrice <;>
        simp [buildQuery, SearchParams.empty, JSValue.parseFloat]
  · intro d
    unfold sortByName
    rw [(List.perm_insertionSort _ _).mem_iff, List.mem_filter]
    cases minPrice <;> cases maxPrice <;> simp

/-- C12 (failing input): the name criterion is handed to the store as a
pattern. With name "." every item of the sample catalog is returned although no
name contains a dot; with name "o+" the Choco Bar is returned although its name
does not contain "o+"; and with name "(" the store rejects the pattern, so the
search endpoint answers 500. -/
theorem findBySearch_name_is_a_pattern :
    Sweet.findBySearch { SearchParams.empty with name := some "." } sampleCatalog =
      Except.ok (sortByName sampleCatalog.docs) ∧
    sampleCatalog.docs.filter (fun d => nameContainsIgnoringCase "." d.name) = [] ∧
    Sweet.findBySearch { SearchParams.empty with name := some "o+" } sampleCatalog =
      Except.ok [{ _id := 1, name := "Choco Bar", category := "Chocolate",
                   price := JSNumber.finite (5 / 2),
                   quantity := 3 }] ∧
    sampleCatalog.docs.filter (fun d => nameContainsIgnoringCase "o+" d.name) = [] ∧
    (Sweet.findBySearch { SearchParams.empty with name := some "(" } sampleCatalog).toOption
      = none ∧
    (searchSweets { SearchQuery.empty with name := some "(" } sampleCatalog).status = 500 := by
  decide!

/-- C13 (failing input): the category criterion is spliced into a pattern
between `^` and `$`. With category "p.e" the Apple Pie (category "Pie") is
returned although "p.e" is not its category in any letter case, and with
category ".*" every item is returned. -/
theorem findBySearch_category_is_a_pattern :
    Sweet.findBySearch { SearchParams.empty with category := some "p.e" } sampleCatalog =
      Except.ok [{ _id := 2, name := "Apple Pie", category := "Pie", price := 5,
                   quantity := 0 }] ∧
    sampleCatalog.docs.filter (fun d => categoryEqualsIgnoringCase "p.e" d.category) = [] ∧
    Sweet.findBySearch { SearchParams.empty with category := some ".*" } sampleCatalog =
      Except.ok (sortByName sampleCatalog.docs) ∧
    sampleCatalog.docs.filter (fun d => categoryEqualsIgnoringCase ".*" d.category) = [] := by
  decide!

/-- C14: `findBySearch` with `inStock` "true" returns exactly the items with
`quantity > 0`, with "false" exactly those with `quantity = 0`, and any other
value of `inStock` gives the result obtained without `inStock`; over quantities
0, 3 and 0, "false" returns the two items with quantity 0. -/
theorem findBySearch_inStock (db : Store) :
    Sweet.findBySearch { SearchParams.empty with inStock := some "true" } db =
      Except.ok (sortByName (db.docs.filter fun d => decide (d.quantity > 0))) ∧
    Sweet.findBySearch { SearchParams.empty with inStock := some "false" } db =
      Except.ok (sortByName (db.docs.filter fun d => decide (d.quantity = 0))) ∧
    (∀ (p : SearchParams) (v : String), v ≠ "true" → v ≠ "false" →
      Sweet.findBySearch { p with inStock := some v } db =
        Sweet.findBySearch { p with inStock := none } db) ∧
    Sweet.findBySearch { SearchParams.empty with inStock := some "false" } sampleCatalog =
      Except.ok [{ _id := 2, name := "Apple Pie", category := "Pie", price := 5, quantity := 0 },
                 { _id := 0, name := "Truffle", category := "Chocolate",
                   price := JSNumber.finite (1 / 2),
                   quantity := 0 }] := by
  refine ⟨?_, ?_, ?_, by decide!⟩
  · rw [findBySearch_of_plain { SearchParams.empty with inStock := some "true" } db rfl rfl rfl]
    congr 2
  · rw [findBySearch_of_plain { SearchParams.empty with inStock := some "false" } db rfl rfl rfl]
    congr 2
  · intro p v h1 h2
    have hq : buildQuery { p with inStock := some v } = buildQuery { p with inStock := none } := by
      simp [buildQuery, h1, h2]
    unfold Sweet.findBySearch
    rw [hq]

/-- Witness for `findBySearch_inStock`: the value "yes" of `inStock` over the
sample catalog. -/
theorem findBySearch_inStock_witness :
    Sweet.findBySearch { SearchParams.empty with inStock := some "yes" } sampleCatalog =
      Sweet.findBySearch { SearchParams.empty with inStock := none } sampleCatalog :=
  (findBySearch_inStock sampleCatalog).2.2.1 SearchParams.empty "yes" (by decide) (by decide)

theorem sortByName_sorted (l : List Sweet) :
    (sortByName l).Sorted fun a b => a.name ≤ b.name := by
  haveI : IsTotal Sweet (fun a b => a.name ≤ b.name) := ⟨fun a b => le_total a.name b.name⟩
  haveI : IsTrans Sweet (fun a b => a.name ≤ b.name) := ⟨fun _ _ _ h1 h2 => le_trans h1 h2⟩
  unfold sortByName
  exact List.sorted_insertionSort _ l

theorem sortByName_perm (l : List Sweet) : (sortByName l).Perm l := by
  unfold sortByName
  exact List.perm_insertionSort _ l

theorem find_sublist (query : Query) (db : Store) (matching : List Sweet)
    (h : Sweet.find query db = Except.ok matching) : matching.Sublist db.docs := by
  unfold Sweet.find at h
  split_ifs at h
  split at h
  · injection h with h
    rw [← h]
    exact List.filter_sublist _
  · cases h
  · cases h

theorem find_empty (db : Store) : Sweet.find Query.empty db = Except.ok db.docs := by
  rw [find_of_plain Query.empty db rfl rfl rfl]
  simp [Query.empty]

theorem findBySearch_eq_ok (p : SearchParams) (db : Store) (l : List Sweet)
    (h : Sweet.findBySearch p db = Except.ok l) :
    ∃ matching, Sweet.find (buildQuery p) db = Except.ok matching ∧ l = sortByName matching := by
  unfold Sweet.findBySearch at h
  have key : ∀ r : Except JSError (List Sweet), r.map sortByName = Except.ok l →
      ∃ matching, r = Except.ok matching ∧ l = sortByName matching := by
    intro r hr
    cases r with
    | error e => cases hr
    | ok m =>
      refine ⟨m, rfl, ?_⟩
      injection hr with hr
      exact hr.symm
  dsimp only at h
  split at h
  · split at h
    · cases h
    · exact key _ h
  · exact key _ h

theorem buildQuery_searchParamsOf_empty (q : SearchQuery)
    (h : ((searchParamsOf q).name.isNone && (searchParamsOf q).category.isNone &&
      (searchParamsOf q).minPrice.isNone && (searchParamsOf q).maxPrice.isNone) = true) :
    buildQuery (searchParamsOf q) = Query.empty := by
  simp only [Bool.and_eq_true, Option.isNone_iff_eq_none] at h
  obtain ⟨⟨⟨h1, h2⟩, h3⟩, h4⟩ := h
  have h5 : (searchParamsOf q).inStock = none := rfl
  simp [buildQuery, h1, h2, h3, h4, h5, Query.empty]

theorem searchSweets_list (q : SearchQuery) (db : Store) (l : List Sweet) (n : Nat)
    (h : (searchSweets q db).data = Payload.sweets l n) :
    n = l.length ∧
    ∃ matching, Sweet.find (buildQuery (searchParamsOf q)) db = Except.ok matching ∧
      l = sortByName matching := by
  unfold searchSweets at h
  dsimp only at h
  split_ifs at h with hk
  · rw [buildQuery_searchParamsOf_empty q hk, find_empty]
    rw [find_empty] at h
    simp only [Except.map, Response.list, Payload.sweets.injEq] at h
    exact ⟨by rw [← h.2, ← h.1], db.docs, rfl, h.1.symm⟩
  · split at h
    · rename_i sweets hs
      simp only [Response.list, Payload.sweets.injEq] at h
      obtain ⟨m, hm, hl⟩ := findBySearch_eq_ok _ db sweets hs
      exact ⟨by rw [← h.2, ← h.1], m, hm, by rw [← h.1]; exact hl⟩
    · simp [searchSweetsCatch, Response.failure] at h

/-- C15: a list returned by `findBySearch`, by the search endpoint or by
`getAllSweets` is in ascending order of `name` (strings compared character by
character, case-sensitively) and is a permutation of the items of the store
that match the criteria (all items for `getAllSweets`); the reported count is
its length. -/
theorem search_results_sorted_perm (db : Store) (p : SearchParams) (q : SearchQuery) :
    (∀ l, Sweet.findBySearch p db = Except.ok l →
      l.Sorted (fun a b => a.name ≤ b.name) ∧
      ∃ matching, Sweet.find (buildQuery p) db = Except.ok matching ∧
        matching.Sublist db.docs ∧ l.Perm matching) ∧
    (∀ l n, (searchSweets q db).data = Payload.sweets l n →
      l.Sorted (fun a b => a.name ≤ b.name) ∧ n = l.length ∧
      ∃ matching, Sweet.find (buildQuery (searchParamsOf q)) db = Except.ok matching ∧
        matching.Sublist db.docs ∧ l.Perm matching) ∧
    (∃ l, getAllSweets db = Response.list l ∧
      l.Sorted (fun a b => a.name ≤ b.name) ∧ l.Perm db.docs) := by
  refine ⟨?_, ?_, ?_⟩
  · intro l h
    obtain ⟨m, hm, rfl⟩ := findBySearch_eq_ok p db l h
    exact ⟨sortByName_sorted m, m, hm, find_sublist _ db m hm, sortByName_perm m⟩
  · intro l n h
    obtain ⟨hn, m, hm, rfl⟩ := searchSweets_list q db l n h
    exact ⟨sortByName_sorted m, hn, m, hm, find_sublist _ db m hm, sortByName_perm m⟩
  · refine ⟨sortByName db.docs, ?_, sortByName_sorted _, sortByName_perm _⟩
    unfold getAllSweets
    rw [find_empty]
    rfl

/-- Witness for `search_results_sorted_perm`: the sample catalog, searched for
the category "chocolate", and listed. -/
theorem search_results_sorted_perm_witness :
    ([{ _id := 1, name := "Choco Bar", category := "Chocolate",
        price := JSNumber.finite (5 / 2), quantity := 3 },
      { _id := 0, name := "Truffle", category := "Chocolate",
        price := JSNumber.finite (1 / 2), quantity := 0 }] :
        List Sweet).Sorted (fun a b => a.name ≤ b.name) ∧
    2 = ([{ _id := 1, name := "Choco Bar", category := "Chocolate",
            price := JSNumber.finite (5 / 2),
            quantity := 3 },
          { _id := 0, name := "Truffle", category := "Chocolate", price := JSNumber.finite (1 / 2),
            quantity := 0 }] : List Sweet).length :=
  ⟨((search_results_sorted_perm sampleCatalog
      { SearchParams.empty with category := some "chocolate" }
      { SearchQuery.empty with category := some "chocolate" }).1 _ (by decide!)).1,
   ((search_results_sorted_perm sampleCatalog
      { SearchParams.empty with category := some "chocolate" }
      { SearchQuery.empty with category := some "chocolate" }).2.1 _ 2 (by decide!)).2.1⟩

/-- C16: a search without criteria returns the list of `getAllSweets`, in the
same order and with the same count: through the shortcut branch of the search
endpoint and through `findBySearch` called with the empty criteria object. -/
theorem search_without_criteria_eq_getAll (db : Store) :
    getAllSweets db = Response.list (sortByName db.docs) ∧
    searchSweets SearchQuery.empty db = getAllSweets db ∧
    Sweet.findBySearch SearchParams.empty db = Except.ok (sortByName db.docs) ∧
    (getAllSweets db).data = Payload.sweets (sortByName db.docs) (sortByName db.docs).length := by
  have hall : getAllSweets db = Response.list (sortByName db.docs) := by
    unfold getAllSweets
    rw [find_empty]
    rfl
  refine ⟨hall, ?_, ?_, ?_⟩
  · rw [hall]
    unfold searchSweets
    simp only [searchParamsOf, SearchQuery.empty, Option.map_none', Option.isNone_none,
      Bool.and_self, if_true]
    rw [find_empty]
    rfl
  · rw [findBySearch_of_plain SearchParams.empty db rfl rfl rfl]
    congr 2
    simp [buildQuery, SearchParams.empty]
  · rw [hall]
    rfl

/-- C17 (failing input): an empty `name` or `category` is dropped like an absent
one, but an empty `minPrice` or `maxPrice` is kept: `parseFloat("")` is `NaN`,
the query is rejected, and the search endpoint answers 500 instead of listing
every item. -/
theorem search_empty_price_bound_fails :
    (∀ (q : SearchQuery) (db : Store),
      searchSweets { q with name := some "" } db = searchSweets { q with name := none } db ∧
      searchSweets { q with category := some "" } db =
        searchSweets { q with category := none } db) ∧
    (∀ db : Store,
      searchSweets { SearchQuery.empty with minPrice := some "" } db =
        Response.failure 500 "Server error while searching sweets" ∧
      searchSweets { SearchQuery.empty with maxPrice := some "" } db =
        Response.failure 500 "Server error while searching sweets" ∧
      Sweet.findBySearch { SearchParams.empty with minPrice := some (JSValue.string "") } db =
        Except.error castNumberError ∧
      Sweet.findBySearch { SearchParams.empty with maxPrice := some (JSValue.string "") } db =
        Except.error castNumberError) ∧
    searchSweets SearchQuery.empty sampleCatalog = Response.list (sortByName sampleCatalog.docs) ∧
    searchSweets { SearchQuery.empty with minPrice := some "" } sampleCatalog ≠
      searchSweets SearchQuery.empty sampleCatalog := by
  refine ⟨?_, ?_, by decide!, by decide!⟩
  · intro q db
    constructor <;> rfl
  · intro db
    refine ⟨rfl, rfl, rfl, rfl⟩

/-- C18 (failing input): `searchSweets` never reads `inStock`: its response is
the one of the same request without `inStock`, and over quantities 0, 3 and 0
a search with `inStock` "false" returns all three items, the one with quantity
3 included. -/
theorem searchSweets_ignores_inStock :
    (∀ (q : SearchQuery) (db : Store),
      searchSweets q db = searchSweets { q with inStock := none } db) ∧
    searchSweets { SearchQuery.empty with inStock := some "false" } sampleCatalog =
      Response.list
        [{ _id := 2, name := "Apple Pie", category := "Pie", price := 5, quantity := 0 },
         { _id := 1, name := "Choco Bar", category := "Chocolate", price := JSNumber.finite (5 / 2),
           quantity := 3 },
         { _id := 0, name := "Truffle", category := "Chocolate", price := JSNumber.finite (1 / 2),
           quantity := 0 }] ∧
    searchSweets { SearchQuery.empty with inStock := some "true" } sampleCatalog =
      searchSweets { SearchQuery.empty with inStock := some "false" } sampleCatalog := by
  refine ⟨fun q db => rfl, by decide!, by decide!⟩

/-! ## Create and read back -/

theorem parseInt_finite_nonneg (q : ℚ) (h : 0 ≤ q) :
    ∃ v, parseInt (JSNumber.finite q) = some v ∧ 0 ≤ v := by
  by_cases h0 : q = 0
  · exact ⟨0, by simp only [parseInt, if_pos h0], le_rfl⟩
  · simp only [parseInt, if_neg h0, if_neg (not_lt.mpr h)]
    exact ⟨_, rfl, roundDouble_nonneg _ (Nat.cast_nonneg _)⟩

/-- On sample values `parseInt` of a number is `parseInt` of its string. -/
theorem parseInt_reads_numberToString :
    (∀ x ∈ [tenToThe 21, jsonNumber (1 / (10 ^ 7 : ℕ)), JSNumber.finite (pow2 (-1074)),
            jsonNumber (12345678 / 1000), JSNumber.finite (1 / 2), 42,
            JSNumber.finite (-7 / 2), tenToThe 20, JSNumber.infinity],
      parseInt x = parseIntString (numberToString x)) ∧
    [tenToThe 21, jsonNumber (1 / (10 ^ 7 : ℕ)), JSNumber.finite (pow2 (-1074)),
      jsonNumber (12345678 / 1000), JSNumber.finite (1 / 2), 42,
      JSNumber.finite (-7 / 2), tenToThe 20, JSNumber.infinity].map numberToString =
      ["1e+21", "1e-7", "5e-324", "12345.678", "0.5", "42", "-3.5", "100000000000000000000",
       "Infinity"] ∧
    [tenToThe 21, jsonNumber (1 / (10 ^ 7 : ℕ)), JSNumber.finite (pow2 (-1074)),
      jsonNumber (12345678 / 1000), JSNumber.finite (1 / 2), 42,
      JSNumber.finite (-7 / 2), tenToThe 20, JSNumber.infinity].map parseInt =
      [some 1, some 1, some 5, some 12345, some 0, some 42, some (JSNumber.finite (-3)),
       some (tenToThe 20), none] := by
  decide!

theorem validateName_trim_ne_empty (name : String) (h : validateName (jsTrim name) = none) :
    name ≠ "" := by
  rintro rfl
  revert h
  decide

theorem validateCategory_trim_ne_empty (category : String)
    (h : validateCategory (jsTrim category) = none) : category ≠ "" := by
  rintro rfl
  revert h
  decide

theorem create_some (name category : String) (price v : JSNumber) (db : Store) :
    Sweet.create name category price (some v) db =
      Sweet.save { _id := db.nextId, name := jsTrim name, category := jsTrim category,
                   price := price, quantity := v } db := rfl

theorem create_none (name category : String) (price : JSNumber) (db : Store) :
    Sweet.create name category price none db =
      { error := some (quantityCastError
          { _id := db.nextId, name := jsTrim name, category := jsTrim category,
            price := price, quantity := 0 } "NaN" "number"),
        doc := { _id := db.nextId, name := jsTrim name, category := jsTrim category,
                 price := price, quantity := 0 },
        store := db } := rfl

theorem createSweet_of_valid (name category : String) (price quantity v : JSNumber) (db : Store)
    (hn : validateName (jsTrim name) = none) (hc : validateCategory (jsTrim category) = none)
    (hp : 0 < price) (hq : 0 ≤ quantity) (hv : parseInt quantity = some v) (hv0 : 0 ≤ v) :
    createSweet { name := some name, category := some category, price := some price,
                  quantity := some quantity } db =
      ({ status := 201, success := true, message := none,
         data := Payload.sweet (preSave
           { _id := db.nextId, name := jsTrim name, category := jsTrim category,
             price := price, quantity := v }) },
       db.write (preSave
           { _id := db.nextId, name := jsTrim name, category := jsTrim category,
             price := price, quantity := v })) := by
  have hvalid : Sweet.validate
      { _id := db.nextId, name := jsTrim name, category := jsTrim category,
        price := price, quantity := v } = [] :=
    (validate_eq_nil_iff _).mpr ⟨hn, hc, hp, hv0⟩
  have hne := validateName_trim_ne_empty name hn
  have hce := validateCategory_trim_ne_empty category hc
  unfold createSweet
  simp only [hne, hce, hp.ne', or_self, if_false, not_le.mpr hp, not_lt.mpr hq]
  unfold parseFloat
  rw [hv, create_some, save_of_valid _ db hvalid]

theorem createSweetCatch_validationError (errors : List (String × String)) :
    createSweetCatch (validationError errors) =
      Response.failure 400 (", ".intercalate (errors.map fun e => e.2)) := by
  simp [createSweetCatch, validationError]

theorem createSweet_created (body : SweetBody) (db : Store)
    (h : (createSweet body db).1.status = 201) :
    ∃ name category price quantity v,
      body = { name := some name, category := some category, price := some price,
               quantity := some quantity } ∧
      validateName (jsTrim name) = none ∧ validateCategory (jsTrim category) = none ∧
      0 < price ∧ 0 ≤ quantity ∧ parseInt quantity = some v ∧ 0 ≤ v := by
  obtain ⟨n, c, p, q⟩ := body
  cases n with
  | none => simp [createSweet, Response.failure] at h
  | some name =>
  cases c with
  | none => simp [createSweet, Response.failure] at h
  | some category =>
  cases p with
  | none => simp [createSweet, Response.failure] at h
  | some price =>
  cases q with
  | none => simp [createSweet, Response.failure] at h
  | some quantity =>
    unfold createSweet at h
    dsimp only at h
    split_ifs at h with h1 h2 h3
    · simp [Response.failure] at h
    · simp [Response.failure] at h
    · simp [Response.failure] at h
    · have hp : 0 < price := not_le.mp h2
      have hq : 0 ≤ quantity := not_lt.mp h3
      cases hv : parseInt quantity with
      | none =>
        exfalso
        rw [hv, create_none] at h
        simp only [quantityCastError, createSweetCatch_validationError] at h
        simp [Response.failure] at h
      | some v =>
        rw [hv, create_some] at h
        by_cases hvalid : Sweet.validate
            { _id := db.nextId, name := jsTrim name, category := jsTrim category,
              price := parseFloat price, quantity := v } = []
        · have := (validate_eq_nil_iff _).mp hvalid
          exact ⟨name, category, price, quantity, v, rfl, this.1, this.2.1, hp, hq, hv,
            this.2.2.2⟩
        · exfalso
          rw [save_of_invalid _ db hvalid] at h
          simp only [createSweetCatch_validationError] at h
          simp [Response.failure] at h

/-- C19: `createSweet` answers 201 only if name, category, price and quantity
are all present with `price > 0` and `quantity >= 0`, and then the returned item
is the stored one; a request that lacks one of the four fields, or has
`price <= 0`, or has `quantity < 0`, is answered 400 with `success` false and
stores nothing; a request with quantity 0 (or any finite quantity `>= 0`) whose
other fields are valid is accepted, and the stored quantity is `Math.floor` of
`parseInt(quantity)`. -/
theorem createSweet_contract (body : SweetBody) (db : Store) :
    ((createSweet body db).1.status = 201 →
      ∃ name category price quantity d,
        body = { name := some name, category := some category, price := some price,
                 quantity := some quantity } ∧
        price > 0 ∧ quantity ≥ 0 ∧
        (createSweet body db).1 =
          { status := 201, success := true, message := none, data := Payload.sweet d } ∧
        (createSweet body db).2.findById d._id = some d) ∧
    ((body.name = none ∨ body.category = none ∨ body.price = none ∨ body.quantity = none ∨
        (∃ p, body.price = some p ∧ p ≤ 0) ∨ (∃ q, body.quantity = some q ∧ q < 0)) →
      (createSweet body db).1.status = 400 ∧ (createSweet body db).1.success = false ∧
      (createSweet body db).2 = db) ∧
    (∀ (name category : String) (price : JSNumber) (quantity : ℚ),
      body = { name := some name, category := some category, price := some price,
               quantity := some (JSNumber.finite quantity) } →
      validateName (jsTrim name) = none → validateCategory (jsTrim category) = none →
      price > 0 → quantity ≥ 0 →
      (createSweet body db).1.status = 201 ∧ (createSweet body db).1.success = true ∧
      ∃ d v, (createSweet body db).1.data = Payload.sweet d ∧
        parseInt (JSNumber.finite quantity) = some v ∧ d.quantity = mathFloor v ∧
        (quantity = 0 → d.quantity = 0) ∧
        (createSweet body db).2.findById d._id = some d) := by
  refine ⟨?_, ?_, ?_⟩
  · intro h
    obtain ⟨name, category, price, quantity, v, rfl, hn, hc, hp, hq, hv, hv0⟩ :=
      createSweet_created body db h
    rw [createSweet_of_valid name category price quantity v db hn hc hp hq hv hv0]
    exact ⟨name, category, price, quantity, _, rfl, hp, hq, rfl, findById_write db _⟩
  · intro h
    obtain ⟨n, c, p, q⟩ := body
    rcases h with h | h | h | h | ⟨p', h, hp⟩ | ⟨q', h, hq⟩
    · simp only at h; subst h
      exact ⟨rfl, rfl, rfl⟩
    · simp only at h; subst h
      cases n <;> exact ⟨rfl, rfl, rfl⟩
    · simp only at h; subst h
      cases n <;> cases c <;> exact ⟨rfl, rfl, rfl⟩
    · simp only at h; subst h
      cases n <;> cases c <;> cases p <;> exact ⟨rfl, rfl, rfl⟩
    · simp only at h; subst h
      cases n <;> cases c <;> cases q <;> try exact ⟨rfl, rfl, rfl⟩
      unfold createSweet
      dsimp only
      split_ifs <;> exact ⟨rfl, rfl, rfl⟩
    · simp only at h; subst h
      cases n <;> cases c <;> cases p <;> try exact ⟨rfl, rfl, rfl⟩
      unfold createSweet
      dsimp only
      split_ifs <;> exact ⟨rfl, rfl, rfl⟩
  · rintro name category price quantity rfl hn hc hp hq
    have hq' : (0 : JSNumber) ≤ JSNumber.finite quantity := by
      rw [JSNumber.zero_def, JSNumber.finite_le_finite]; exact hq
    obtain ⟨v, hv, hv0⟩ := parseInt_finite_nonneg quantity hq
    rw [createSweet_of_valid name category price _ v db hn hc hp hq' hv hv0]
    refine ⟨rfl, rfl, _, v, rfl, hv, preSave_quantity _, ?_, findById_write db _⟩
    intro h0
    rw [preSave_quantity]
    subst h0
    have : parseInt (JSNumber.finite 0) = some 0 := by decide!
    rw [this] at hv
    rw [← Option.some.inj hv]
    exact mathFloor_zero

/-- Witness for `createSweet_contract`: a Choco Bar created with quantity 0 is
accepted and stored with quantity 0, and a body without a name is answered 400
and stores nothing. -/
theorem createSweet_contract_witness :
    ((createSweet { chocoBarBody with quantity := some (JSNumber.finite 0) }
        Store.empty).1.status = 201 ∧
      (createSweet { chocoBarBody with quantity := some (JSNumber.finite 0) }
        Store.empty).1.success = true) ∧
    ((createSweet { chocoBarBody with name := none } Store.empty).1.status = 400 ∧
      (createSweet { chocoBarBody with name := none } Store.empty).1.success = false ∧
      (createSweet { chocoBarBody with name := none } Store.empty).2 = Store.empty) :=
  ⟨⟨((createSweet_contract { chocoBarBody with quantity := some (JSNumber.finite 0) }
        Store.empty).2.2
      "Choco Bar" "Chocolate" (JSNumber.finite (5 / 2)) 0 rfl (by decide) (by decide)
      (by decide!) le_rfl).1,
    ((createSweet_contract { chocoBarBody with quantity := some (JSNumber.finite 0) }
        Store.empty).2.2
      "Choco Bar" "Chocolate" (JSNumber.finite (5 / 2)) 0 rfl (by decide) (by decide)
      (by decide!) le_rfl).2.1⟩,
   (createSweet_contract { chocoBarBody with name := none } Store.empty).2.1 (Or.inl rfl)⟩

theorem getSweetById_of_found (db : Store) (id : Nat) (d : Sweet)
    (h : db.findById id = some d) :
    getSweetById (IdParam.oid id) db =
      { status := 200, success := true, message := none, data := Payload.sweet d } := by
  simp [getSweetById, Sweet.findById, h]

/-- C20 (failing input): the field set "Choco Bar", "Chocolate", 2.5 and the
whole quantity `1e21` is valid, the create request is answered 201, yet the item
is stored with quantity 1: `parseInt` reads the leading digit of the string
"1e+21". `getSweetById` then returns quantity 1 with "Low Stock" where the
request had `1e21`, which is "In Stock"; a restock by `1e21`, which does not
go through `parseInt`, stores `1e21`. The price 41821257202710.95 comes
back as 41821257202710.96 and a price of `1e307` as `Infinity`. The round trip
of the specification's example (2.5 and 10) holds. -/
theorem create_then_getSweetById_loses_large_quantity :
    tenToThe 21 = JSNumber.finite ((10 ^ 21 : ℕ) : ℚ) ∧
    numberToString (tenToThe 21) = "1e+21" ∧
    parseInt (tenToThe 21) = some 1 ∧
    (createSweet { chocoBarBody with quantity := some (tenToThe 21) } Store.empty).1.status
      = 201 ∧
    getSweetById (IdParam.oid 0)
        (createSweet { chocoBarBody with quantity := some (tenToThe 21) } Store.empty).2 =
      { status := 200, success := true, message := none,
        data := Payload.sweet { _id := 0, name := "Choco Bar", category := "Chocolate",
                                price := JSNumber.finite (5 / 2), quantity := 1 } } ∧
    (1 : JSNumber) ≠ tenToThe 21 ∧
    ({ chocoBar with quantity := 1 } : Sweet).stockStatus = "Low Stock" ∧
    ({ chocoBar with quantity := tenToThe 21 } : Sweet).stockStatus = "In Stock" ∧
    (processAll
        [Request.create { chocoBarBody with quantity := some 0 },
         Request.restock (IdParam.oid 0) (some (tenToThe 21))] Store.empty).docs.map
        Sweet.quantity = [tenToThe 21] ∧
    getSweetById (IdParam.oid 0)
        (createSweet { chocoBarBody with price := some (jsonNumber (4182125720271095 / 100)) }
          Store.empty).2 =
      { status := 200, success := true, message := none,
        data := Payload.sweet { _id := 0, name := "Choco Bar", category := "Chocolate",
                                price := jsonNumber (4182125720271096 / 100), quantity := 5 } } ∧
    jsonNumber (4182125720271095 / 100) ≠ jsonNumber (4182125720271096 / 100) ∧
    getSweetById (IdParam.oid 0)
        (createSweet { chocoBarBody with price := some (tenToThe 307) } Store.empty).2 =
      { status := 200, success := true, message := none,
        data := Payload.sweet { _id := 0, name := "Choco Bar", category := "Chocolate",
                                price := JSNumber.infinity, quantity := 5 } } ∧
    getSweetById (IdParam.oid 0)
        (createSweet { name := some "Choco Bar", category := some "Chocolate",
                       price := some (JSNumber.finite (5 / 2)), quantity := some 10 }
          Store.empty).2 =
      { status := 200, success := true, message := none,
        data := Payload.sweet { _id := 0, name := "Choco Bar", category := "Chocolate",
                                price := JSNumber.finite (5 / 2), quantity := 10 } } ∧
    ({ _id := 0, name := "Choco Bar", category := "Chocolate",
       price := JSNumber.finite (5 / 2), quantity := 10 } : Sweet).inStock = true ∧
    ({ _id := 0, name := "Choco Bar", category := "Chocolate",
       price := JSNumber.finite (5 / 2), quantity := 10 } : Sweet).stockStatus = "In Stock" := by
  decide!

/-! ## Update and delete -/

theorem setQuantityAndSave_cases (s : Sweet) (value : Option JSNumber) (db : Store) :
    (∃ v, value = some v ∧ Sweet.validate { s with quantity := v } = [] ∧
      s.setQuantityAndSave value db =
        { error := none, doc := preSave { s with quantity := v },
          store := db.write (preSave { s with quantity := v }) }) ∨
    (∃ errors doc, s.setQuantityAndSave value db =
        { error := some (validationError errors), doc := doc, store := db }) := by
  cases value with
  | none => exact Or.inr ⟨_, _, rfl⟩
  | some v =>
    by_cases hv : Sweet.validate { s with quantity := v } = []
    · exact Or.inl ⟨v, rfl, hv, save_of_valid _ db hv⟩
    · exact Or.inr ⟨_, _, save_of_invalid _ db hv⟩

theorem saveUpdate_cases (sweet : Sweet) (body : SweetBody) (db : Store) :
    (∃ s : Sweet, s.validate = [] ∧ s.name = (applyUpdate sweet body).name ∧
      s.category = (applyUpdate sweet body).category ∧
      saveUpdate sweet body db =
        { error := none, doc := preSave s, store := db.write (preSave s) }) ∨
    (∃ errors doc, saveUpdate sweet body db =
        { error := some (validationError errors), doc := doc, store := db }) := by
  unfold saveUpdate
  cases body.quantity with
  | none =>
    by_cases hv : (applyUpdate sweet body).validate = []
    · exact Or.inl ⟨_, hv, rfl, rfl, save_of_valid _ db hv⟩
    · exact Or.inr ⟨_, _, save_of_invalid _ db hv⟩
  | some quantity =>
    rcases setQuantityAndSave_cases (applyUpdate sweet body) (parseInt quantity) db with
      ⟨v, _, hv, h⟩ | h
    · exact Or.inl ⟨_, hv, rfl, rfl, h⟩
    · exact Or.inr h

theorem updateSweet_of_found (id : Nat) (body : SweetBody) (db : Store) (sweet : Sweet)
    (h : db.findById id = some sweet) :
    updateSweet (IdParam.oid id) body db =
      if body.price.any (fun price => decide (price ≤ 0)) then
        (Response.failure 400 "Price must be greater than 0", db)
      else if body.quantity.any (fun quantity => decide (quantity < 0)) then
        (Response.failure 400 "Quantity cannot be negative", db)
      else
        match (saveUpdate sweet body db).error with
        | none => ({ status := 200, success := true, message := none,
                     data := Payload.sweet (saveUpdate sweet body db).doc },
                   (saveUpdate sweet body db).store)
        | some error => (updateSweetCatch error, (saveUpdate sweet body db).store) := by
  simp only [updateSweet, Sweet.findById, h]

theorem updateSweetCatch_validationError (errors : List (String × String)) :
    updateSweetCatch (validationError errors) =
      Response.failure 400 (", ".intercalate (errors.map fun e => e.2)) := by
  simp [updateSweetCatch, validationError]

/-- C21: an update request that is not answered 200 (that is, one rejected with
400 or 404) leaves the store, and with it every field of the stored item, as it
was before the request. -/
theorem updateSweet_rejected_unchanged (id : IdParam) (body : SweetBody) (db : Store)
    (h : (updateSweet id body db).1.status = 400 ∨ (updateSweet id body db).1.status = 404) :
    (updateSweet id body db).2 = db ∧
    ∀ n : Nat, (updateSweet id body db).2.findById n = db.findById n := by
  have key : (updateSweet id body db).2 = db := by
    have hne : (updateSweet id body db).1.status ≠ 200 := by
      rcases h with h | h <;> rw [h] <;> decide
    cases id with
    | malformed raw => rfl
    | oid n =>
      cases hf : db.findById n with
      | none => simp [updateSweet, Sweet.findById, hf]
      | some sweet =>
        rw [updateSweet_of_found n body db sweet hf] at hne ⊢
        split_ifs at hne ⊢
        · rfl
        · rfl
        · rcases saveUpdate_cases sweet body db with ⟨s, _, _, _, hs⟩ | ⟨errors, doc, hs⟩
          · rw [hs] at hne
            exact absurd rfl hne
          · rw [hs]
  exact ⟨key, fun n => by rw [key]⟩

/-- Witness for `updateSweet_rejected_unchanged`: an update of the stored Choco
Bar with a valid name and a category outside the enumerated set. -/
theorem updateSweet_rejected_unchanged_witness :
    (updateSweet (IdParam.oid 0)
        { name := some "Dark Bar", category := some "Gadget", price := none, quantity := none }
        (processAll [Request.create chocoBarBody] Store.empty)).2 =
      processAll [Request.create chocoBarBody] Store.empty ∧
    ∀ n : Nat,
      (updateSweet (IdParam.oid 0)
        { name := some "Dark Bar", category := some "Gadget", price := none, quantity := none }
        (processAll [Request.create chocoBarBody] Store.empty)).2.findById n =
      (processAll [Request.create chocoBarBody] Store.empty).findById n :=
  updateSweet_rejected_unchanged (IdParam.oid 0)
    { name := some "Dark Bar", category := some "Gadget", price := none, quantity := none }
    (processAll [Request.create chocoBarBody] Store.empty) (Or.inl (by decide!))

theorem applyUpdate_name (sweet : Sweet) (body : SweetBody) (name : String)
    (h : body.name = some name) (hne : name ≠ "") :
    (applyUpdate sweet body).name = jsTrim name := by
  obtain ⟨n, c, p, q⟩ := body
  simp only at h
  subst h
  cases c with
  | none => cases p <;> cases q <;> simp [applyUpdate, hne]
  | some c =>
    by_cases hc : c = "" <;> cases p <;> cases q <;> simp [applyUpdate, hne, hc]

theorem applyUpdate_category (sweet : Sweet) (body : SweetBody) (category : String)
    (h : body.category = some category) (hne : category ≠ "") :
    (applyUpdate sweet body).category = jsTrim category := by
  obtain ⟨n, c, p, q⟩ := body
  simp only at h
  subst h
  cases p <;> cases q <;> simp [applyUpdate, hne]

theorem updateSweet_of_invalid (id : Nat) (body : SweetBody) (db : Store) (sweet : Sweet)
    (hf : db.findById id = some sweet)
    (hv : validateName (applyUpdate sweet body).name ≠ none ∨
      validateCategory (applyUpdate sweet body).category ≠ none) :
    (updateSweet (IdParam.oid id) body db).1.status = 400 ∧
    (updateSweet (IdParam.oid id) body db).2 = db := by
  rw [updateSweet_of_found id body db sweet hf]
  split_ifs
  · exact ⟨rfl, rfl⟩
  · exact ⟨rfl, rfl⟩
  · rcases saveUpdate_cases sweet body db with ⟨s, hs, hn, hc, _⟩ | ⟨errors, doc, hs⟩
    · exfalso
      have := (validate_eq_nil_iff s).mp hs
      rw [hn, hc] at this
      rcases hv with hv | hv
      · exact hv this.1
      · exact hv this.2.1
    · rw [hs]
      refine ⟨?_, rfl⟩
      show (updateSweetCatch (validationError _)).status = 400
      rw [updateSweetCatch_validationError]
      rfl

/-- C22 (as stated, refuted): on the stored Choco Bar, an update that supplies
the empty string as name, or as category, is answered 200, although the empty
string violates the constraints of both fields. -/
theorem updateSweet_empty_string_counterexample :
    validateName (jsTrim "") ≠ none ∧ validateCategory (jsTrim "") ≠ none ∧
    ¬ ((updateSweet (IdParam.oid 0)
        { name := some "", category := none, price := none, quantity := none }
        (processAll [Request.create chocoBarBody] Store.empty)).1.status = 400) ∧
    ¬ ((updateSweet (IdParam.oid 0)
        { name := none, category := some "", price := none, quantity := none }
        (processAll [Request.create chocoBarBody] Store.empty)).1.status = 400) ∧
    (updateSweet (IdParam.oid 0)
        { name := some "", category := none, price := none, quantity := none }
        (processAll [Request.create chocoBarBody] Store.empty)).1.status = 200 := by
  decide!

/-- C22 (amended): on a stored item, an update that supplies a non-empty name
that violates the name constraints after trimming, or a non-empty category that
is outside the enumerated set after trimming, is answered 400 and changes
nothing; an empty string as name or category is handled like a field that was
not supplied. -/
theorem updateSweet_validates_name_and_category (id : Nat) (body : SweetBody) (db : Store)
    (sweet : Sweet) (hf : db.findById id = some sweet) :
    ((∃ name, body.name = some name ∧ name ≠ "" ∧ validateName (jsTrim name) ≠ none) →
      (updateSweet (IdParam.oid id) body db).1.status = 400 ∧
      (updateSweet (IdParam.oid id) body db).2 = db) ∧
    ((∃ category, body.category = some category ∧ category ≠ "" ∧
        validateCategory (jsTrim category) ≠ none) →
      (updateSweet (IdParam.oid id) body db).1.status = 400 ∧
      (updateSweet (IdParam.oid id) body db).2 = db) ∧
    updateSweet (IdParam.oid id) { body with name := some "" } db =
      updateSweet (IdParam.oid id) { body with name := none } db ∧
    updateSweet (IdParam.oid id) { body with category := some "" } db =
      updateSweet (IdParam.oid id) { body with category := none } db := by
  refine ⟨?_, ?_, ?_, ?_⟩
  · rintro ⟨name, hn, hne, hbad⟩
    apply updateSweet_of_invalid id body db sweet hf
    rw [applyUpdate_name sweet body name hn hne]
    exact Or.inl hbad
  · rintro ⟨category, hc, hne, hbad⟩
    apply updateSweet_of_invalid id body db sweet hf
    rw [applyUpdate_category sweet body category hc hne]
    exact Or.inr hbad
  · rfl
  · rfl

/-- Witness for `updateSweet_validates_name_and_category`: the stored Choco Bar,
updated with the one-letter name "a", and with the category "Gadget". -/
theorem updateSweet_validates_name_and_category_witness :
    ((updateSweet (IdParam.oid 0)
        { name := some "a", category := none, price := none, quantity := none }
        (processAll [Request.create chocoBarBody] Store.empty)).1.status = 400 ∧
      (updateSweet (IdParam.oid 0)
        { name := some "a", category := none, price := none, quantity := none }
        (processAll [Request.create chocoBarBody] Store.empty)).2 =
        processAll [Request.create chocoBarBody] Store.empty) ∧
    ((updateSweet (IdParam.oid 0)
        { name := none, category := some "Gadget", price := none, quantity := none }
        (processAll [Request.create chocoBarBody] Store.empty)).1.status = 400 ∧
      (updateSweet (IdParam.oid 0)
        { name := none, category := some "Gadget", price := none, quantity := none }
        (processAll [Request.create chocoBarBody] Store.empty)).2 =
        processAll [Request.create chocoBarBody] Store.empty) :=
  ⟨(updateSweet_validates_name_and_category 0
      { name := some "a", category := none, price := none, quantity := none }
      (processAll [Request.create chocoBarBody] Store.empty) chocoBar (by decide!)).1
      ⟨"a", rfl, by decide, by decide⟩,
   (updateSweet_validates_name_and_category 0
      { name := none, category := some "Gadget", price := none, quantity := none }
      (processAll [Request.create chocoBarBody] Store.empty) chocoBar (by decide!)).2.1
      ⟨"Gadget", rfl, by decide, by decide⟩⟩

theorem findById_some (db : Store) (id : Nat) (s : Sweet) (h : db.findById id = some s) :
    s._id = id ∧ s ∈ db.docs := by
  unfold Store.findById at h
  have h1 := List.find?_some h
  have h2 := List.mem_of_find?_eq_some h
  exact ⟨by simpa using h1, h2⟩

theorem findById_deleteOne (db : Store) (id : Nat) : (db.deleteOne id).findById id = none := by
  unfold Store.findById Store.deleteOne
  rw [List.find?_eq_none]
  intro x hx
  have := (List.mem_filter.mp hx).2
  simpa using this

theorem length_filter_ne_id (l : List Sweet) (id : Nat) (hnd : (l.map Sweet._id).Nodup)
    (hex : ∃ s ∈ l, s._id = id) :
    (l.filter fun d => !(d._id == id)).length + 1 = l.length := by
  induction l with
  | nil => obtain ⟨s, hs, _⟩ := hex; cases hs
  | cons a t ih =>
    rw [List.map_cons, List.nodup_cons] at hnd
    by_cases ha : a._id = id
    · have hall : ∀ d ∈ t, (!(d._id == id)) = true := by
        intro d hd
        have : d._id ≠ id := by
          intro hd'
          exact hnd.1 (List.mem_map.mpr ⟨d, hd, by rw [hd', ha]⟩)
        simpa using this
      rw [List.filter_cons]
      simp only [ha, beq_self_eq_true, Bool.not_true, Bool.false_eq_true, if_false]
      rw [List.filter_eq_self.mpr hall]
      rfl
    · have hex' : ∃ s ∈ t, s._id = id := by
        obtain ⟨s, hs, hsid⟩ := hex
        rcases List.mem_cons.mp hs with rfl | hs
        · exact absurd hsid ha
        · exact ⟨s, hs, hsid⟩
      rw [List.filter_cons]
      have hb : (!(a._id == id)) = true := by simpa using ha
      rw [if_pos hb, List.length_cons, List.length_cons, ih hnd.2 hex']

/-- C23: deleting an id that is not in the store answers 404 and leaves the
store unchanged; deleting an id that is in the store answers 200, removes the
item with that id and keeps every other item as it was (exactly one item goes
when ids are distinct); a second delete of the same id answers 404. -/
theorem deleteSweet_contract (db : Store) (id : Nat) :
    (db.findById id = none →
      (deleteSweet (IdParam.oid id) db).1.status = 404 ∧
      (deleteSweet (IdParam.oid id) db).2 = db) ∧
    (∀ sweet, db.findById id = some sweet →
      (deleteSweet (IdParam.oid id) db).1.status = 200 ∧
      (deleteSweet (IdParam.oid id) db).2.docs = db.docs.filter (fun d => decide (d._id ≠ id)) ∧
      (∀ d, d ∈ (deleteSweet (IdParam.oid id) db).2.docs ↔ d ∈ db.docs ∧ d._id ≠ id) ∧
      ((db.docs.map Sweet._id).Nodup →
        (deleteSweet (IdParam.oid id) db).2.docs.length + 1 = db.docs.length) ∧
      (deleteSweet (IdParam.oid id) (deleteSweet (IdParam.oid id) db).2).1.status = 404 ∧
      (deleteSweet (IdParam.oid id) (deleteSweet (IdParam.oid id) db).2).2 =
        (deleteSweet (IdParam.oid id) db).2) := by
  constructor
  · intro h
    simp [deleteSweet, Sweet.findById, h, Response.failure]
  · intro sweet h
    obtain ⟨hid, hmem⟩ := findById_some db id sweet h
    have hdel : deleteSweet (IdParam.oid id) db =
        ({ status := 200, success := true,
           message := some (Message.text "Sweet deleted successfully"),
           data := Payload.none }, db.deleteOne id) := by
      simp [deleteSweet, Sweet.findById, h, hid]
    have hfilter : (db.deleteOne id).docs = db.docs.filter (fun d => decide (d._id ≠ id)) := by
      unfold Store.deleteOne
      apply List.filter_congr
      intro d _
      by_cases hd : d._id = id <;> simp [hd]
    have hagain : deleteSweet (IdParam.oid id) (db.deleteOne id) =
        (Response.failure 404 "Sweet not found", db.deleteOne id) := by
      simp [deleteSweet, Sweet.findById, findById_deleteOne]
    rw [hdel]
    refine ⟨rfl, hfilter, ?_, ?_, ?_, ?_⟩
    · intro d
      show d ∈ (db.deleteOne id).docs ↔ _
      rw [hfilter, List.mem_filter]
      simp
    · intro hnd
      exact length_filter_ne_id db.docs id hnd ⟨sweet, hmem, hid⟩
    · show (deleteSweet (IdParam.oid id) (db.deleteOne id)).1.status = 404
      rw [hagain]; rfl
    · show (deleteSweet (IdParam.oid id) (db.deleteOne id)).2 = db.deleteOne id
      rw [hagain]

/-- Witness for `deleteSweet_contract`: deleting the Choco Bar from the sample
catalog, and deleting an id the catalog does not hold. -/
theorem deleteSweet_contract_witness :
    ((deleteSweet (IdParam.oid 7) sampleCatalog).1.status = 404 ∧
      (deleteSweet (IdParam.oid 7) sampleCatalog).2 = sampleCatalog) ∧
    (deleteSweet (IdParam.oid 1) sampleCatalog).1.status = 200 ∧
    (deleteSweet (IdParam.oid 1) (deleteSweet (IdParam.oid 1) sampleCatalog).2).1.status = 404 :=
  ⟨(deleteSweet_contract sampleCatalog 7).1 (by decide!),
   ((deleteSweet_contract sampleCatalog 1).2
       ⟨1, "Choco Bar", "Chocolate", JSNumber.finite (5 / 2), 3⟩
      (by decide!)).1,
   ((deleteSweet_contract sampleCatalog 1).2
       ⟨1, "Choco Bar", "Chocolate", JSNumber.finite (5 / 2), 3⟩
      (by decide!)).2.2.2.2.1⟩

/-! ## Integer quantities and unreachable throws -/

/-- C27 (failing input): a Choco Bar is created with five in stock and `1e308`
is added twice; `1e308` is a whole number, both restock requests are answered
200, and the second one stores the quantity `Infinity`, which is no integer. `Math.floor` in the
`pre('save')` hook, under the comment "Ensure quantity is integer", lets an
infinity through. Every other stored quantity is a natural number: after any
sequence of requests a stored quantity is a natural number or `Infinity`. -/
theorem quantity_overflows_to_infinity :
    (processAll
        [Request.create chocoBarBody,
         Request.restock (IdParam.oid 0) (some (tenToThe 308)),
         Request.restock (IdParam.oid 0) (some (tenToThe 308))] Store.empty).docs =
      [{ chocoBar with quantity := JSNumber.infinity }] ∧
    (restockSweet (IdParam.oid 0) (some (tenToThe 308))
        (processAll [Request.create chocoBarBody] Store.empty)).1.status = 200 ∧
    (restockSweet (IdParam.oid 0) (some (tenToThe 308))
        (processAll
          [Request.create chocoBarBody,
           Request.restock (IdParam.oid 0) (some (tenToThe 308))] Store.empty)).1 =
      { status := 200, success := true,
        message := some (Message.restocked (tenToThe 308) "Choco Bar"),
        data := Payload.restock { chocoBar with quantity := JSNumber.infinity }
          (tenToThe 308) JSNumber.infinity } ∧
    mathFloor (tenToThe 308) = tenToThe 308 ∧ tenToThe 308 < JSNumber.infinity ∧
    (∀ n : ℤ, JSNumber.infinity ≠ JSNumber.finite n) ∧
    (∀ (reqs : List Request) (s : Sweet), s ∈ (processAll reqs Store.empty).docs →
      s.quantity = JSNumber.infinity ∨ ∃ n : ℕ, s.quantity = JSNumber.finite n) := by
  refine ⟨by decide!, by decide!, by decide!, by decide!, by decide!, fun n => by simp, ?_⟩
  intro reqs s h
  refine all_processAll
    (fun d => d.quantity = JSNumber.infinity ∨ ∃ n : ℕ, d.quantity = JSNumber.finite n)
    ?_ reqs Store.empty (all_empty _) s h
  intro d hd
  have h0 : 0 ≤ d.quantity := ((validate_eq_nil_iff d).mp hd).2.2.2
  rw [preSave_quantity]
  cases hq : d.quantity with
  | negInfinity =>
    rw [hq] at h0
    exact absurd h0 (by decide)
  | infinity => exact Or.inl rfl
  | finite x =>
    rw [hq, JSNumber.zero_def, JSNumber.finite_le_finite] at h0
    refine Or.inr ⟨⌊x⌋.toNat, ?_⟩
    have hfl : 0 ≤ ⌊x⌋ := Int.floor_nonneg.mpr (by exact_mod_cast h0)
    have : ((⌊x⌋.toNat : ℤ)) = ⌊x⌋ := Int.toNat_of_nonneg hfl
    show JSNumber.finite ((⌊x⌋ : ℤ) : ℚ) = JSNumber.finite ((⌊x⌋.toNat : ℕ) : ℚ)
    congr 1
    exact_mod_cast this.symm

theorem validationError_message_ne (errors : List (String × String)) (text : String)
    (h : text.data.head? ≠ some 'S') : (validationError errors).message ≠ text := by
  intro he
  apply h
  rw [← he]
  simp [validationError, String.data_append]

theorem setQuantityAndSave_error_ne_mkError (s : Sweet) (value : Option JSNumber) (db : Store)
    (message : String) :
    (s.setQuantityAndSave value db).error ≠ some (JSError.mkError message) := by
  rcases setQuantityAndSave_cases s value db with ⟨v, _, _, h⟩ | ⟨errors, doc, h⟩
  · rw [h]; simp
  · rw [h]
    intro he
    have := congrArg (Option.map JSError.name) he
    simp [validationError, JSError.mkError] at this

theorem JSNumber.not_nonpos_of_pos (q : JSNumber) (hq : 0 < q) : ¬ (q = 0 ∨ q ≤ 0) := by
  rintro (h | h)
  · exact hq.ne' h
  · exact not_le.mpr hq h

theorem purchaseSweet_of_nonpos (id : IdParam) (q : JSNumber) (db : Store) (hq : q ≤ 0) :
    purchaseSweet id (some q) db =
      (Response.failure 400 "Please provide a valid purchase quantity", db) := by
  simp [purchaseSweet, hq]

theorem purchaseSweet_of_malformed (raw : String) (q : JSNumber) (db : Store) (hq : 0 < q) :
    purchaseSweet (IdParam.malformed raw) (some q) db =
      (Response.failure 400 "Invalid sweet ID", db) := by
  simp [purchaseSweet, Sweet.findById, not_le.mpr hq, hq.ne', purchaseSweetCatch, castError]

theorem purchaseSweet_of_missing (n : Nat) (q : JSNumber) (db : Store) (hq : 0 < q)
    (hf : db.findById n = none) :
    purchaseSweet (IdParam.oid n) (some q) db = (Response.failure 404 "Sweet not found", db) := by
  simp [purchaseSweet, Sweet.findById, not_le.mpr hq, hq.ne', hf]

theorem purchaseSweet_of_short (n : Nat) (q : JSNumber) (db : Store) (sweet : Sweet)
    (hq : 0 < q) (hf : db.findById n = some sweet) (hc : sweet.quantity < q) :
    purchaseSweet (IdParam.oid n) (some q) db =
      (Response.failure 400 "Insufficient stock or invalid quantity", db) := by
  simp [purchaseSweet, Sweet.findById, not_le.mpr hq, hq.ne', hf, Sweet.canPurchase, hc]

theorem purchaseSweetCatch_validationError (errors : List (String × String)) :
    purchaseSweetCatch (validationError errors) =
      Response.failure 500 (validationError errors).message := by
  have hne : (validationError errors).message ≠ "" :=
    validationError_message_ne _ _ (by decide)
  have hname : (validationError errors).name ≠ "CastError" := by simp [validationError]
  simp only [purchaseSweetCatch, if_neg hname, if_neg hne]

theorem purchaseSweet_of_saved (n : Nat) (q : JSNumber) (db : Store) (sweet : Sweet)
    (hq : 0 < q) (hf : db.findById n = some sweet) (hc : q ≤ sweet.quantity)
    (difference : JSNumber) (hd : sweet.quantity.sub q = some difference)
    (hv : Sweet.validate { sweet with quantity := difference } = []) :
    purchaseSweet (IdParam.oid n) (some q) db =
      ({ status := 200, success := true,
         message := some (Message.purchased q
           (preSave { sweet with quantity := difference }).name),
         data := Payload.purchase (preSave { sweet with quantity := difference }) q
           (preSave { sweet with quantity := difference }).quantity },
       db.write (preSave { sweet with quantity := difference })) := by
  have hcp : (sweet.canPurchase q).1 = true := (canPurchase_eq_true_iff sweet q).mpr ⟨hq, hc⟩
  have hp := purchase_of_canPurchase sweet q db hcp
  rw [hd] at hp
  change sweet.purchase q db = Sweet.save { sweet with quantity := difference } db at hp
  rw [save_of_valid _ db hv] at hp
  simp [purchaseSweet, Sweet.findById, not_le.mpr hq, hq.ne', hf, hcp, hp]

theorem purchaseSweet_of_unsaved (n : Nat) (q : JSNumber) (db : Store) (sweet : Sweet)
    (hq : 0 < q) (hf : db.findById n = some sweet) (hc : q ≤ sweet.quantity)
    (errors : List (String × String)) (doc : Sweet)
    (he : sweet.setQuantityAndSave (sweet.quantity.sub q) db =
      { error := some (validationError errors), doc := doc, store := db }) :
    purchaseSweet (IdParam.oid n) (some q) db =
      (Response.failure 500 (validationError errors).message, db) := by
  have hcp : (sweet.canPurchase q).1 = true := (canPurchase_eq_true_iff sweet q).mpr ⟨hq, hc⟩
  have hp := purchase_of_canPurchase sweet q db hcp
  rw [he] at hp
  simp only [purchaseSweet, Sweet.findById, not_le.mpr hq, hq.ne', hf, hcp, hp, or_self,
    if_false, Bool.not_true, Bool.false_eq_true, purchaseSweetCatch_validationError]

theorem restockSweet_of_nonpos (id : IdParam) (q : JSNumber) (db : Store) (hq : q ≤ 0) :
    restockSweet id (some q) db =
      (Response.failure 400 "Please provide a valid restock quantity", db) := by
  simp [restockSweet, hq]

theorem restockSweet_of_malformed (raw : String) (q : JSNumber) (db : Store) (hq : 0 < q) :
    restockSweet (IdParam.malformed raw) (some q) db =
      (Response.failure 400 "Invalid sweet ID", db) := by
  simp [restockSweet, Sweet.findById, not_le.mpr hq, hq.ne', restockSweetCatch, castError]

theorem restockSweet_of_missing (n : Nat) (q : JSNumber) (db : Store) (hq : 0 < q)
    (hf : db.findById n = none) :
    restockSweet (IdParam.oid n) (some q) db = (Response.failure 404 "Sweet not found", db) := by
  simp [restockSweet, Sweet.findById, not_le.mpr hq, hq.ne', hf]

theorem restockSweetCatch_validationError (errors : List (String × String)) :
    restockSweetCatch (validationError errors) =
      Response.failure 500 (validationError errors).message := by
  have hne : (validationError errors).message ≠ "" :=
    validationError_message_ne _ _ (by decide)
  have hname : (validationError errors).name ≠ "CastError" := by simp [validationError]
  simp only [restockSweetCatch, if_neg hname, if_neg hne]

theorem restockSweet_of_saved (n : Nat) (q : JSNumber) (db : Store) (sweet : Sweet)
    (hq : 0 < q) (hf : db.findById n = some sweet)
    (sum : JSNumber) (hd : sweet.quantity.add q = some sum)
    (hv : Sweet.validate { sweet with quantity := sum } = []) :
    restockSweet (IdParam.oid n) (some q) db =
      ({ status := 200, success := true,
         message := some (Message.restocked q (preSave { sweet with quantity := sum }).name),
         data := Payload.restock (preSave { sweet with quantity := sum }) q
           (preSave { sweet with quantity := sum }).quantity },
       db.write (preSave { sweet with quantity := sum })) := by
  have hp := restock_of_pos sweet q db hq
  rw [hd] at hp
  change sweet.restock q db = Sweet.save { sweet with quantity := sum } db at hp
  rw [save_of_valid _ db hv] at hp
  simp [restockSweet, Sweet.findById, not_le.mpr hq, hq.ne', hf, hp]

theorem restockSweet_of_unsaved (n : Nat) (q : JSNumber) (db : Store) (sweet : Sweet)
    (hq : 0 < q) (hf : db.findById n = some sweet)
    (errors : List (String × String)) (doc : Sweet)
    (he : sweet.setQuantityAndSave (sweet.quantity.add q) db =
      { error := some (validationError errors), doc := doc, store := db }) :
    restockSweet (IdParam.oid n) (some q) db =
      (Response.failure 500 (validationError errors).message, db) := by
  have hp := restock_of_pos sweet q db hq
  rw [he] at hp
  simp only [restockSweet, Sweet.findById, not_le.mpr hq, hq.ne', hf, hp, or_self,
    if_false, restockSweetCatch_validationError]

theorem failure_ne_of_message (status : Nat) (a b : String) (h : a ≠ b) :
    Response.failure status a ≠ Response.failure status b := by
  intro he
  apply h
  simpa [Response.failure] using he

/-- C28: in `purchaseSweet` the call `sweet.purchase(q)` is reached only after
`canPurchase(q)` held on the same item, and in `restockSweet` the call
`sweet.restock(q)` only with `q > 0`; in both the model method goes straight to
the assignment of the new quantity and `save()` and does not throw its own
error, so neither endpoint ever surfaces 'Insufficient stock or invalid
quantity' or 'Restock quantity must be positive' as a 500. -/
theorem model_throw_unreachable (id : IdParam) (quantity : Option JSNumber) (db : Store) :
    (∀ q sweet, quantity = some q → ¬ (q = 0 ∨ q ≤ 0) →
      Sweet.findById db id = Except.ok (some sweet) → (sweet.canPurchase q).1 = true →
      sweet.purchase q db = sweet.setQuantityAndSave (sweet.quantity.sub q) db ∧
      (sweet.purchase q db).error ≠
        some (JSError.mkError "Insufficient stock or invalid quantity")) ∧
    (∀ q sweet, quantity = some q → ¬ (q = 0 ∨ q ≤ 0) →
      Sweet.findById db id = Except.ok (some sweet) →
      0 < q ∧
      sweet.restock q db = sweet.setQuantityAndSave (sweet.quantity.add q) db ∧
      (sweet.restock q db).error ≠ some (JSError.mkError "Restock quantity must be positive")) ∧
    (purchaseSweet id quantity db).1 ≠
      Response.failure 500 "Insufficient stock or invalid quantity" ∧
    (restockSweet id quantity db).1 ≠
      Response.failure 500 "Restock quantity must be positive" := by
  refine ⟨?_, ?_, ?_, ?_⟩
  · intro q sweet _ _ _ hc
    rw [purchase_of_canPurchase sweet q db hc]
    exact ⟨rfl, setQuantityAndSave_error_ne_mkError _ _ db _⟩
  · intro q sweet _ hq _
    have hpos : 0 < q := by
      rcases lt_or_le 0 q with h | h
      · exact h
      · exact absurd (Or.inr h) hq
    rw [restock_of_pos sweet q db hpos]
    exact ⟨hpos, rfl, setQuantityAndSave_error_ne_mkError _ _ db _⟩
  · cases quantity with
    | none => simp [purchaseSweet, Response.failure]
    | some q =>
      rcases le_or_lt q 0 with hq | hq
      · rw [purchaseSweet_of_nonpos id q db hq]; simp [Response.failure]
      · cases id with
        | malformed raw => rw [purchaseSweet_of_malformed raw q db hq]; simp [Response.failure]
        | oid n =>
          cases hf : db.findById n with
          | none => rw [purchaseSweet_of_missing n q db hq hf]; simp [Response.failure]
          | some sweet =>
            rcases lt_or_le sweet.quantity q with hc | hc
            · rw [purchaseSweet_of_short n q db sweet hq hf hc]; simp [Response.failure]
            · rcases setQuantityAndSave_cases sweet (sweet.quantity.sub q) db with
                ⟨v, hv, hvalid, _⟩ | ⟨errors, doc, he⟩
              · rw [purchaseSweet_of_saved n q db sweet hq hf hc v hv hvalid]
                simp [Response.failure]
              · rw [purchaseSweet_of_unsaved n q db sweet hq hf hc errors doc he]
                exact failure_ne_of_message 500 _ _
                  (validationError_message_ne _ _ (by decide))
  · cases quantity with
    | none => simp [restockSweet, Response.failure]
    | some q =>
      rcases le_or_lt q 0 with hq | hq
      · rw [restockSweet_of_nonpos id q db hq]; simp [Response.failure]
      · cases id with
        | malformed raw => rw [restockSweet_of_malformed raw q db hq]; simp [Response.failure]
        | oid n =>
          cases hf : db.findById n with
          | none => rw [restockSweet_of_missing n q db hq hf]; simp [Response.failure]
          | some sweet =>
            rcases setQuantityAndSave_cases sweet (sweet.quantity.add q) db with
              ⟨v, hv, hvalid, _⟩ | ⟨errors, doc, he⟩
            · rw [restockSweet_of_saved n q db sweet hq hf v hv hvalid]
              simp [Response.failure]
            · rw [restockSweet_of_unsaved n q db sweet hq hf errors doc he]
              exact failure_ne_of_message 500 _ _
                (validationError_message_ne _ _ (by decide))

/-- Witness for `model_throw_unreachable`: two of the three Choco Bars of the
sample catalog are bought, and two are added. -/
theorem model_throw_unreachable_witness :
    ((⟨1, "Choco Bar", "Chocolate", JSNumber.finite (5 / 2), 3⟩ : Sweet).purchase 2
          sampleCatalog =
        (⟨1, "Choco Bar", "Chocolate", JSNumber.finite (5 / 2), 3⟩ : Sweet).setQuantityAndSave
          ((⟨1, "Choco Bar", "Chocolate", JSNumber.finite (5 / 2), 3⟩ : Sweet).quantity.sub 2)
          sampleCatalog ∧
      ((⟨1, "Choco Bar", "Chocolate", JSNumber.finite (5 / 2), 3⟩ : Sweet).purchase 2
          sampleCatalog).error ≠
        some (JSError.mkError "Insufficient stock or invalid quantity")) ∧
    (0 : JSNumber) < 2 :=
  ⟨(model_throw_unreachable (IdParam.oid 1) (some 2) sampleCatalog).1 2
      ⟨1, "Choco Bar", "Chocolate", JSNumber.finite (5 / 2), 3⟩ rfl (by decide!) (by decide!)
      (by decide!),
   ((model_throw_unreachable (IdParam.oid 1) (some 2) sampleCatalog).2.1 2
      ⟨1, "Choco Bar", "Chocolate", JSNumber.finite (5 / 2), 3⟩ rfl (by decide!)
      (by decide!)).1⟩

/-! ## The purchase endpoint -/

theorem sub_nonneg_of_le (a q : JSNumber) (hq : 0 < q) (hc : q ≤ a)
    (hfinite : q ≠ JSNumber.infinity) : ∃ d, a.sub q = some d ∧ 0 ≤ d := by
  cases q with
  | negInfinity => exact absurd hq (by decide)
  | infinity => exact absurd rfl hfinite
  | finite y =>
    cases a with
    | negInfinity => exact absurd hc (by simp [LE.le, JSNumber.le])
    | infinity => exact ⟨JSNumber.infinity, rfl, by decide⟩
    | finite x =>
      rw [JSNumber.finite_le_finite] at hc
      refine ⟨roundDouble (x + -y), rfl, roundDouble_nonneg _ ?_⟩
      linarith

/-- C24 (as stated, refuted): buying 1.5 of the five stored Choco Bars is
answered 200 with `remainingStock` 3, where 5 - 1.5 is 3.5; buying `1e-17` of
three leaves `remainingStock` 3, the binary64 difference; and buying one Gum,
which was created with price 0.004 and is stored with price 0, is answered
500. -/
theorem purchaseSweet_counterexample :
    (purchaseSweet (IdParam.oid 0) (some (JSNumber.finite (3 / 2)))
        (processAll [Request.create chocoBarBody] Store.empty)).1.data =
      Payload.purchase { chocoBar with quantity := 3 } (JSNumber.finite (3 / 2)) 3 ∧
    chocoBar.quantity.sub (JSNumber.finite (3 / 2)) = some (JSNumber.finite (7 / 2)) ∧
    (3 : JSNumber) ≠ JSNumber.finite (7 / 2) ∧
    (purchaseSweet (IdParam.oid 1) (some (jsonNumber (1 / (10 ^ 17 : ℕ)))) sampleCatalog).1.data =
      Payload.purchase ⟨1, "Choco Bar", "Chocolate", JSNumber.finite (5 / 2), 3⟩
        (jsonNumber (1 / (10 ^ 17 : ℕ))) 3 ∧
    (0 : JSNumber) < jsonNumber (1 / (10 ^ 17 : ℕ)) ∧
    (purchaseSweet (IdParam.oid 0) (some 1)
        (processAll [Request.create gumBody] Store.empty)).1.status = 500 := by
  decide!

/-- C24 (amended): against a store whose items satisfy the schema, a purchase
request whose quantity `q` is not `Infinity` is answered 400 if `q` is missing,
zero or negative; otherwise 400 if the id is malformed and 404 if it is not in
the store; otherwise 400 if `q` exceeds the item's stock; otherwise 200 with
`purchasedQuantity = q` and `remainingStock` equal to `Math.floor` of the
binary64 difference of the previous stock and `q` (the exact difference for
whole numbers below `2 ^ 53`), which is the quantity of the returned and stored
item. No such request is answered 500, and every request not answered 200
leaves the store unchanged. -/
theorem purchaseSweet_contract (id : IdParam) (quantity : Option JSNumber) (db : Store)
    (hvalid : ∀ d ∈ db.docs, d.validate = []) (hfinite : quantity ≠ some JSNumber.infinity) :
    ((quantity = none ∨ ∃ q, quantity = some q ∧ q ≤ 0) →
      (purchaseSweet id quantity db).1.status = 400) ∧
    (∀ q, quantity = some q → 0 < q →
      (∀ raw, id = IdParam.malformed raw → (purchaseSweet id quantity db).1.status = 400) ∧
      (∀ n, id = IdParam.oid n → db.findById n = none →
        (purchaseSweet id quantity db).1.status = 404) ∧
      (∀ n sweet, id = IdParam.oid n → db.findById n = some sweet → sweet.quantity < q →
        (purchaseSweet id quantity db).1.status = 400) ∧
      (∀ n sweet, id = IdParam.oid n → db.findById n = some sweet → q ≤ sweet.quantity →
        ∃ d difference, (purchaseSweet id quantity db).1 =
            { status := 200, success := true, message := some (Message.purchased q d.name),
              data := Payload.purchase d q d.quantity } ∧
          sweet.quantity.sub q = some difference ∧
          d.quantity = mathFloor difference ∧
          (∀ a b : ℕ, sweet.quantity = JSNumber.finite a → q = JSNumber.finite b →
            a < 2 ^ 53 →
            d.quantity = JSNumber.finite ((a - b : ℕ) : ℚ) ∧ ((a - b : ℕ) : ℚ) = (a : ℚ) - b) ∧
          (purchaseSweet id quantity db).2.findById n = some d)) ∧
    (purchaseSweet id quantity db).1.status ≠ 500 ∧
    ((purchaseSweet id quantity db).1.status ≠ 200 → (purchaseSweet id quantity db).2 = db) := by
  have hsave : ∀ n q sweet, quantity = some q → 0 < q → db.findById n = some sweet →
      q ≤ sweet.quantity →
      ∃ difference, sweet.quantity.sub q = some difference ∧
        Sweet.validate { sweet with quantity := difference } = [] := by
    intro n q sweet hqq hq hf hc
    have hs := (validate_eq_nil_iff sweet).mp (hvalid sweet (findById_some db n sweet hf).2)
    have hne : q ≠ JSNumber.infinity := by
      rintro rfl
      exact hfinite hqq
    obtain ⟨d, hd, hd0⟩ := sub_nonneg_of_le sweet.quantity q hq hc hne
    exact ⟨d, hd, (validate_eq_nil_iff _).mpr ⟨hs.1, hs.2.1, hs.2.2.1, hd0⟩⟩
  refine ⟨?_, ?_, ?_, ?_⟩
  · rintro (rfl | ⟨q, rfl, hq⟩)
    · rfl
    · rw [purchaseSweet_of_nonpos id q db hq]; rfl
  · rintro q rfl hq
    refine ⟨?_, ?_, ?_, ?_⟩
    · rintro raw rfl
      rw [purchaseSweet_of_malformed raw q db hq]; rfl
    · rintro n rfl hf
      rw [purchaseSweet_of_missing n q db hq hf]; rfl
    · rintro n sweet rfl hf hc
      rw [purchaseSweet_of_short n q db sweet hq hf hc]; rfl
    · rintro n sweet rfl hf hc
      obtain ⟨difference, hd, hv⟩ := hsave n q sweet rfl hq hf hc
      rw [purchaseSweet_of_saved n q db sweet hq hf hc difference hd hv]
      refine ⟨_, difference, rfl, hd, preSave_quantity _, ?_, ?_⟩
      · intro a b ha hb ha53
        rw [ha, hb, JSNumber.finite_le_finite] at hc
        have hba : b ≤ a := by exact_mod_cast hc
        rw [ha, hb, sub_natCast a b hba ha53] at hd
        rw [preSave_quantity]
        refine ⟨?_, Nat.cast_sub hba⟩
        show mathFloor difference = _
        rw [← Option.some.inj hd, mathFloor_natCast]
      · have hw := findById_write db (preSave { sweet with quantity := difference })
        rw [preSave_id] at hw
        have hid : sweet._id = n := (findById_some db n sweet hf).1
        rw [← hid]
        exact hw
  · cases hqq : quantity with
    | none => simp [purchaseSweet, Response.failure]
    | some q =>
      rcases le_or_lt q 0 with hq | hq
      · rw [purchaseSweet_of_nonpos id q db hq]; simp [Response.failure]
      · cases id with
        | malformed raw => rw [purchaseSweet_of_malformed raw q db hq]; simp [Response.failure]
        | oid n =>
          cases hf : db.findById n with
          | none => rw [purchaseSweet_of_missing n q db hq hf]; simp [Response.failure]
          | some sweet =>
            rcases lt_or_le sweet.quantity q with hc | hc
            · rw [purchaseSweet_of_short n q db sweet hq hf hc]; simp [Response.failure]
            · obtain ⟨difference, hd, hv⟩ := hsave n q sweet hqq hq hf hc
              rw [purchaseSweet_of_saved n q db sweet hq hf hc difference hd hv]
              simp
  · cases hqq : quantity with
    | none => intro _; rfl
    | some q =>
      rcases le_or_lt q 0 with hq | hq
      · rw [purchaseSweet_of_nonpos id q db hq]; intro _; rfl
      · cases id with
        | malformed raw => rw [purchaseSweet_of_malformed raw q db hq]; intro _; rfl
        | oid n =>
          cases hf : db.findById n with
          | none => rw [purchaseSweet_of_missing n q db hq hf]; intro _; rfl
          | some sweet =>
            rcases lt_or_le sweet.quantity q with hc | hc
            · rw [purchaseSweet_of_short n q db sweet hq hf hc]; intro _; rfl
            · obtain ⟨difference, hd, hv⟩ := hsave n q sweet hqq hq hf hc
              rw [purchaseSweet_of_saved n q db sweet hq hf hc difference hd hv]
              intro h
              exact absurd rfl h

/-- Witness for `purchaseSweet_contract`: the sample catalog satisfies the
schema; buying two of its three Choco Bars is answered 200 and leaves one. -/
theorem purchaseSweet_contract_witness :
    ∃ d difference, (purchaseSweet (IdParam.oid 1) (some 2) sampleCatalog).1 =
        { status := 200, success := true, message := some (Message.purchased 2 d.name),
          data := Payload.purchase d 2 d.quantity } ∧
      (⟨1, "Choco Bar", "Chocolate", JSNumber.finite (5 / 2), 3⟩ : Sweet).quantity.sub 2 =
        some difference ∧
      d.quantity = mathFloor difference ∧
      (∀ a b : ℕ, (⟨1, "Choco Bar", "Chocolate", JSNumber.finite (5 / 2), 3⟩ : Sweet).quantity =
          JSNumber.finite a → (2 : JSNumber) = JSNumber.finite b → a < 2 ^ 53 →
        d.quantity = JSNumber.finite ((a - b : ℕ) : ℚ) ∧ ((a - b : ℕ) : ℚ) = (a : ℚ) - b) ∧
      (purchaseSweet (IdParam.oid 1) (some 2) sampleCatalog).2.findById 1 = some d :=
  ((purchaseSweet_contract (IdParam.oid 1) (some 2) sampleCatalog (by decide!)
    (by decide)).2.1 2 rfl (by decide!)).2.2.2 1
    ⟨1, "Choco Bar", "Chocolate", JSNumber.finite (5 / 2), 3⟩ rfl (by decide!) (by decide!)

/-! ## The restock endpoint -/

/-- C25 (as stated, refuted): on the three stored Choco Bars of the sample
catalog, a restock with the number 1.5 is answered 200 with `totalStock` 4,
where 3 + 1.5 is 4.5; a restock with 0.9999999999999999 also gives 4, the
binary64 sum; and a restock with the string "2" is answered 200 with
`totalStock` 32, the digits "3" and "2" put together, not 3 + 2. -/
theorem restockSweet_counterexample :
    (restockSweet (IdParam.oid 1) (some (JSNumber.finite (3 / 2))) sampleCatalog).1.data =
      Payload.restock ⟨1, "Choco Bar", "Chocolate", JSNumber.finite (5 / 2), 4⟩
        (JSNumber.finite (3 / 2)) 4 ∧
    (3 : JSNumber).add (JSNumber.finite (3 / 2)) = some (JSNumber.finite (9 / 2)) ∧
    (4 : JSNumber) ≠ JSNumber.finite (9 / 2) ∧
    (restockSweet (IdParam.oid 1) (some (JSNumber.finite (1 - 1 / (2 ^ 53 : ℕ))))
        sampleCatalog).1.data =
      Payload.restock ⟨1, "Choco Bar", "Chocolate", JSNumber.finite (5 / 2), 4⟩
        (JSNumber.finite (1 - 1 / (2 ^ 53 : ℕ))) 4 ∧
    jsonNumber (9999999999999999 / (10 ^ 16 : ℕ)) = JSNumber.finite (1 - 1 / (2 ^ 53 : ℕ)) ∧
    JSNumber.finite (1 - 1 / (2 ^ 53 : ℕ)) < 1 ∧
    (restockSweetString (IdParam.oid 1) "2" sampleCatalog).1.status = 200 ∧
    (restockSweetString (IdParam.oid 1) "2" sampleCatalog).1.data =
      Payload.restockString ⟨1, "Choco Bar", "Chocolate", JSNumber.finite (5 / 2), 32⟩ "2" 32 ∧
    stringToNumber "2" = some 2 ∧ (32 : JSNumber) ≠ 5 ∧
    (3 : JSNumber).add 2 = some 5 ∧
    ((restockSweetString (IdParam.oid 1) "2" sampleCatalog).2.findById 1).map Sweet.quantity =
      some 32 := by
  decide!

/-- C25 (amended): a restock request with a JSON number `q` that the endpoint
answers 200, on an item with previous stock `n`, reports as `totalStock` and
stores as quantity `Math.floor` of the binary64 sum of `n` and `q`, which is
`n + q` for whole numbers with a sum below `2 ^ 53`; `restockedQuantity` is
`q`. -/
theorem restockSweet_accepted (id : IdParam) (q : JSNumber) (db : Store)
    (h : (restockSweet id (some q) db).1.status = 200) :
    ∃ n sweet d sum, id = IdParam.oid n ∧ db.findById n = some sweet ∧ 0 < q ∧
      (restockSweet id (some q) db).1.data = Payload.restock d q d.quantity ∧
      sweet.quantity.add q = some sum ∧
      d.quantity = mathFloor sum ∧
      (∀ a b : ℕ, sweet.quantity = JSNumber.finite a → q = JSNumber.finite b →
        a + b < 2 ^ 53 →
        d.quantity = JSNumber.finite ((a + b : ℕ) : ℚ) ∧ ((a + b : ℕ) : ℚ) = (a : ℚ) + b) ∧
      (restockSweet id (some q) db).2.findById n = some d := by
  rcases le_or_lt q 0 with hq | hq
  · rw [restockSweet_of_nonpos id q db hq] at h
    simp [Response.failure] at h
  · cases id with
    | malformed raw =>
      rw [restockSweet_of_malformed raw q db hq] at h
      simp [Response.failure] at h
    | oid n =>
      cases hf : db.findById n with
      | none =>
        rw [restockSweet_of_missing n q db hq hf] at h
        simp [Response.failure] at h
      | some sweet =>
        rcases setQuantityAndSave_cases sweet (sweet.quantity.add q) db with
          ⟨sum, hd, hv, _⟩ | ⟨errors, doc, he⟩
        · rw [restockSweet_of_saved n q db sweet hq hf sum hd hv]
          refine ⟨n, sweet, _, sum, rfl, hf, hq, rfl, hd, preSave_quantity _, ?_, ?_⟩
          · intro a b ha hb hab
            rw [ha, hb, add_natCast a b hab] at hd
            rw [preSave_quantity]
            refine ⟨?_, Nat.cast_add a b⟩
            show mathFloor sum = _
            rw [← Option.some.inj hd, mathFloor_natCast]
          · have hw := findById_write db (preSave { sweet with quantity := sum })
            rw [preSave_id] at hw
            have hid : sweet._id = n := (findById_some db n sweet hf).1
            rw [← hid]
            exact hw
        · rw [restockSweet_of_unsaved n q db sweet hq hf errors doc he] at h
          simp [Response.failure] at h

/-- Witness for `restockSweet_accepted`: two Choco Bars added to the three of
the sample catalog. -/
theorem restockSweet_accepted_witness :
    ∃ n sweet d sum, IdParam.oid 1 = IdParam.oid n ∧ sampleCatalog.findById n = some sweet ∧
      (0 : JSNumber) < 2 ∧
      (restockSweet (IdParam.oid 1) (some 2) sampleCatalog).1.data =
        Payload.restock d 2 d.quantity ∧
      sweet.quantity.add 2 = some sum ∧
      d.quantity = mathFloor sum ∧
      (∀ a b : ℕ, sweet.quantity = JSNumber.finite a → (2 : JSNumber) = JSNumber.finite b →
        a + b < 2 ^ 53 →
        d.quantity = JSNumber.finite ((a + b : ℕ) : ℚ) ∧ ((a + b : ℕ) : ℚ) = (a : ℚ) + b) ∧
      (restockSweet (IdParam.oid 1) (some 2) sampleCatalog).2.findById n = some d :=
  restockSweet_accepted (IdParam.oid 1) 2 sampleCatalog (by decide!)

/-! ## Error responses -/

/-- C26 (failing input): the `catch` blocks of create, list, search, get, update
and delete answer two errors that differ only in their message alike, but those
of purchase and restock copy `error.message` into the 500 response: a refused
connection is reported with its address, and buying the Gum that is stored with
price 0 reports the validator text. -/
theorem catch_blocks_message :
    (∀ e1 e2 : JSError, e1.name = e2.name → e1.errors = e2.errors → e1.code = e2.code →
      e1.keyValue = e2.keyValue →
      createSweetCatch e1 = createSweetCatch e2 ∧ getAllSweetsCatch e1 = getAllSweetsCatch e2 ∧
      searchSweetsCatch e1 = searchSweetsCatch e2 ∧ getSweetByIdCatch e1 = getSweetByIdCatch e2 ∧
      updateSweetCatch e1 = updateSweetCatch e2 ∧ deleteSweetCatch e1 = deleteSweetCatch e2) ∧
    purchaseSweetCatch (JSError.mkError "connect ECONNREFUSED 10.0.0.5:27017") =
      Response.failure 500 "connect ECONNREFUSED 10.0.0.5:27017" ∧
    purchaseSweetCatch (JSError.mkError "connect ECONNREFUSED 10.0.0.5:27017") ≠
      purchaseSweetCatch (JSError.mkError "connection pool closed") ∧
    restockSweetCatch (JSError.mkError "connect ECONNREFUSED 10.0.0.5:27017") =
      Response.failure 500 "connect ECONNREFUSED 10.0.0.5:27017" ∧
    restockSweetCatch (JSError.mkError "connect ECONNREFUSED 10.0.0.5:27017") ≠
      restockSweetCatch (JSError.mkError "connection pool closed") ∧
    (purchaseSweet (IdParam.oid 0) (some 1)
        (processAll [Request.create gumBody] Store.empty)).1 =
      Response.failure 500 "Sweet validation failed: price: Price must be greater than 0" := by
  refine ⟨?_, by decide, by decide, by decide, by decide, by decide!⟩
  intro e1 e2 hn he hc hk
  simp only [createSweetCatch, getAllSweetsCatch, searchSweetsCatch, getSweetByIdCatch,
    updateSweetCatch, deleteSweetCatch, hn, he, hc, hk, and_self]

/-! ## The client -/

/-- C29 (failing input): in edit mode `SweetModal.handleSubmit` calls
`onSubmit(sweet._id, sweetData)`, but `Dashboard.handleSweetSubmit` has the
single parameter `sweetData`, which is therefore bound to the id: the body
passed to `api.updateSweet` is the id of the sweet and never the object built
from the form. In add mode the object itself is passed. -/
theorem edit_submit_passes_id_as_body :
    (∀ (sweet : Sweet) (formData : FormData), validateForm formData = true →
      SweetModal.handleSubmit "edit" (some sweet) formData =
        some [Argument.id sweet._id,
              Argument.data { name := formData.name, category := formData.category,
                              price := parseFloatString formData.price,
                              quantity := parseIntString formData.quantity }] ∧
      submitSweetForm "edit" (some sweet) formData =
        some (ApiCall.updateSweet sweet._id (Argument.id sweet._id)) ∧
      submitSweetForm "edit" (some sweet) formData ≠
        some (ApiCall.updateSweet sweet._id
          (Argument.data { name := formData.name, category := formData.category,
                           price := parseFloatString formData.price,
                           quantity := parseIntString formData.quantity })) ∧
      submitSweetForm "add" none formData =
        some (ApiCall.createSweet
          (Argument.data { name := formData.name, category := formData.category,
                           price := parseFloatString formData.price,
                           quantity := parseIntString formData.quantity }))) ∧
    validateForm { name := "Dark Bar", category := "Chocolate", price := "3.5",
                   quantity := "7" } = true ∧
    submitSweetForm "edit" (some chocoBar)
        { name := "Dark Bar", category := "Chocolate", price := "3.5", quantity := "7" } =
      some (ApiCall.updateSweet 0 (Argument.id 0)) := by
  refine ⟨?_, by decide!, by decide!⟩
  intro sweet formData h
  have h1 : SweetModal.handleSubmit "edit" (some sweet) formData =
      some [Argument.id sweet._id,
            Argument.data { name := formData.name, category := formData.category,
                            price := parseFloatString formData.price,
                            quantity := parseIntString formData.quantity }] := by
    simp [SweetModal.handleSubmit, h]
  have h2 : submitSweetForm "edit" (some sweet) formData =
      some (ApiCall.updateSweet sweet._id (Argument.id sweet._id)) := by
    unfold submitSweetForm
    rw [if_pos rfl, h1]
    simp [Dashboard.handleSweetSubmit]
  refine ⟨h1, h2, ?_, ?_⟩
  · rw [h2]
    simp
  · unfold submitSweetForm
    simp [SweetModal.handleSubmit, h, Dashboard.handleSweetSubmit]

/-- C30: from an initial state without error, after any sequence of actions,
unknown ones included, a state with an error has neither user nor token;
`LOGOUT` yields no user, no token and no error and keeps `loading`; an unknown
action returns the state unchanged. -/
theorem authReducer_error_invariant (initial : AuthState) (actions : List AuthAction)
    (h : initial.error = none) :
    ((dispatchAll actions initial).error ≠ none →
      (dispatchAll actions initial).user = none ∧ (dispatchAll actions initial).token = none) ∧
    (∀ state : AuthState, authReducer state AuthAction.logout =
      { user := none, token := none, loading := state.loading, error := none }) ∧
    (∀ (state : AuthState) (type : String),
      authReducer state (AuthAction.unknown type) = state) := by
  refine ⟨?_, fun _ => rfl, fun _ _ => rfl⟩
  have step : ∀ (s : AuthState) (a : AuthAction),
      (s.error ≠ none → s.user = none ∧ s.token = none) →
      ((authReducer s a).error ≠ none →
        (authReducer s a).user = none ∧ (authReducer s a).token = none) := by
    intro s a hs
    cases a <;> simp [authReducer] <;> exact hs
  have all : ∀ (l : List AuthAction) (s : AuthState),
      (s.error ≠ none → s.user = none ∧ s.token = none) →
      ((dispatchAll l s).error ≠ none →
        (dispatchAll l s).user = none ∧ (dispatchAll l s).token = none) := by
    intro l
    induction l with
    | nil => intro s hs; exact hs
    | cons a t ih => intro s hs; exact ih _ (step s a hs)
  exact all actions initial (fun hne => absurd h hne)

/-- Witness for `authReducer_error_invariant`: a failed login, followed by
`SET_LOADING` and an unknown action, from the initial state with a stored
token. -/
theorem authReducer_error_invariant_witness :
    (dispatchAll [AuthAction.loginStart, AuthAction.loginFailure (some "Invalid credentials"),
        AuthAction.setLoading true, AuthAction.unknown "PING"]
      (initialState (some "stored-token"))).error ≠ none ∧
    (dispatchAll [AuthAction.loginStart, AuthAction.loginFailure (some "Invalid credentials"),
        AuthAction.setLoading true, AuthAction.unknown "PING"]
      (initialState (some "stored-token"))).user = none ∧
    (dispatchAll [AuthAction.loginStart, AuthAction.loginFailure (some "Invalid credentials"),
        AuthAction.setLoading true, AuthAction.unknown "PING"]
      (initialState (some "stored-token"))).token = none :=
  ⟨by decide,
   ((authReducer_error_invariant (initialState (some "stored-token"))
      [AuthAction.loginStart, AuthAction.loginFailure (some "Invalid credentials"),
       AuthAction.setLoading true, AuthAction.unknown "PING"] rfl).1 (by decide)).1,
   ((authReducer_error_invariant (initialState (some "stored-token"))
      [AuthAction.loginStart, AuthAction.loginFailure (some "Invalid credentials"),
       AuthAction.setLoading true, AuthAction.unknown "PING"] rfl).1 (by decide)).2⟩

end SweetShop
